import Mathlib

/-!
Verification of the VaultHealth import/normalization/deduplication pipeline.

Shallow embedding conventions:
* JavaScript numbers are modelled as rationals (`ℚ`); the one irrational
  primitive (`Math.sqrt`, used for a baseline's `stdDev`) is abstracted as a
  function argument.
* Optional fields (`field?: number`) are `Option ℚ`.  `durationSeconds` is
  also modelled as `Option ℚ`: although the TypeScript type declares it
  required, the quality checker explicitly branches on it being `undefined`
  (records cast from unchecked JSON can lack it at runtime), and that branch
  is observable behaviour.
* JavaScript truthiness on numbers (`x || y`, `x && y`) is `x ≠ 0`;
  `x ?? y` is `Option.orElse`.
* `Array.prototype.sort((a, b) => a - b)` is a numeric sort; on `ℚ` any
  correct sort yields the same list, so we use `List.insertionSort`.
* The execution environment's local timezone is fixed to UTC, so
  `Date#getHours` of a unix timestamp `ts` is `ts / 3600 % 24` and
  `toISOString().split('T')[0]` is the civil date of `ts / 86400` days
  since the epoch.
-/

-- ============================================================
-- Canonical data model (src/app/src/types/schema.ts)
-- ============================================================

/-- `DataQualityFlags` from schema.ts. -/
structure DataQualityFlags where
  isComplete : Bool
  hasOutliers : Bool
  outlierFields : List String
  sensorGaps : ℕ
  manuallyExcluded : Bool
  exclusionReason : Option String
deriving Repr, DecidableEq

/-- The open `vendorData` bag, restricted to the keys the pipeline reads or
writes: the provenance `source` and the `mergedSources` union built by
`mergeSessions`.  An absent bag or absent key is `none` / `[]`. -/
structure VendorData where
  source : Option String
  mergedSources : List String
deriving Repr, DecidableEq

/-- `SleepSession` from schema.ts (fields the core pipeline touches). -/
structure SleepSession where
  id : String
  userId : String
  sourceId : String
  date : String
  startedAt : ℚ
  endedAt : ℚ
  durationSeconds : Option ℚ
  timeInBedSeconds : ℚ
  deepSeconds : ℚ
  remSeconds : ℚ
  lightSeconds : ℚ
  awakeSeconds : ℚ
  sleepOnsetLatency : Option ℚ
  wakeAfterSleepOnset : Option ℚ
  efficiency : Option ℚ
  avgHeartRate : Option ℚ
  minHeartRate : Option ℚ
  maxHeartRate : Option ℚ
  avgHrv : Option ℚ
  avgRespiratoryRate : Option ℚ
  avgBedTempC : Option ℚ
  avgRoomTempC : Option ℚ
  dataQuality : DataQualityFlags
  vendorData : VendorData
deriving Repr, DecidableEq

-- ============================================================
-- Robust statistics (src/app/src/insights/dataQuality.ts, lines 52-96)
-- ============================================================

/-- `median` from dataQuality.ts: sort ascending, take the middle element
(odd length) or the average of the two middle elements (even length);
`0` on the empty list. -/
def median (values : List ℚ) : ℚ :=
  if values.length = 0 then 0
  else
    let sorted := values.insertionSort (· ≤ ·)
    let mid := sorted.length / 2
    if sorted.length % 2 ≠ 0 then sorted.getD mid 0
    else (sorted.getD (mid - 1) 0 + sorted.getD mid 0) / 2

/-- `medianAbsoluteDeviation` from dataQuality.ts. -/
def medianAbsoluteDeviation (values : List ℚ) : ℚ :=
  if values.length = 0 then 0
  else
    let med := median values
    median (values.map (fun v => |v - med|))

/-- `robustZScore` from dataQuality.ts: `(value - med) / (mad / 0.6745)`,
defined as `0` when `mad = 0`. -/
def robustZScore (value med mad : ℚ) : ℚ :=
  if mad = 0 then 0 else (value - med) / (mad / (6745 / 10000))

/-- `percentile` from dataQuality.ts: linear interpolation between order
statistics; `0` on the empty list. -/
def percentile (values : List ℚ) (p : ℚ) : ℚ :=
  if values.length = 0 then 0
  else
    let sorted := values.insertionSort (· ≤ ·)
    let index : ℚ := (p / 100) * ((sorted.length : ℚ) - 1)
    let lower := ⌊index⌋
    let upper := ⌈index⌉
    if lower = upper then sorted.getD lower.toNat 0
    else sorted.getD lower.toNat 0 * ((upper : ℚ) - index) +
         sorted.getD upper.toNat 0 * (index - (lower : ℚ))

/-- The arithmetic mean as computed inside `calculateBaseline`
(`values.reduce((a, b) => a + b, 0) / values.length`). -/
def listMean (values : List ℚ) : ℚ :=
  values.foldl (· + ·) 0 / (values.length : ℚ)

-- ============================================================
-- Baseline computation (dataQuality.ts, lines 262-324)
-- ============================================================

/-- `MetricBaseline` from dataQuality.ts. -/
structure MetricBaseline where
  metric : String
  median : ℚ
  mad : ℚ
  mean : ℚ
  stdDev : ℚ
  low : ℚ
  high : ℚ
  p25 : ℚ
  p75 : ℚ
  sampleSize : ℕ
  excludedCount : ℕ
deriving Repr, DecidableEq

/-- `calculateBaseline` from dataQuality.ts.  `sqrt` abstracts the
`Math.sqrt` primitive (the only irrational operation in the file); every
other value is exact rational arithmetic as in the source. -/
def calculateBaseline (sqrt : ℚ → ℚ) (values : List ℚ) (metric : String)
    (excludeOutliers : Bool) (madThreshold : ℚ) : MetricBaseline :=
  if values.length = 0 then
    { metric := metric, median := 0, mad := 0, mean := 0, stdDev := 0,
      low := 0, high := 0, p25 := 0, p75 := 0, sampleSize := 0, excludedCount := 0 }
  else
    let med := median values
    let mad := medianAbsoluteDeviation values
    let filteredValues :=
      if excludeOutliers ∧ mad > 0 then
        values.filter (fun v => |robustZScore v med mad| ≤ madThreshold)
      else values
    let excludedCount :=
      if excludeOutliers ∧ mad > 0 then values.length - filteredValues.length else 0
    let finalMedian := median filteredValues
    let finalMad := medianAbsoluteDeviation filteredValues
    let mean := listMean filteredValues
    let variance :=
      (filteredValues.foldl (fun sum v => sum + (v - mean) ^ 2) 0) /
        (filteredValues.length : ℚ)
    { metric := metric
      median := finalMedian
      mad := finalMad
      mean := mean
      stdDev := sqrt variance
      low := finalMedian - 2 * finalMad
      high := finalMedian + 2 * finalMad
      p25 := percentile filteredValues 25
      p75 := percentile filteredValues 75
      sampleSize := filteredValues.length
      excludedCount := excludedCount }

-- ============================================================
-- Hard limits and per-session quality check (dataQuality.ts 15-242)
-- ============================================================

/-- One row of the `HARD_LIMITS` table. -/
structure HardLimit where
  min : ℚ
  max : ℚ
deriving Repr, DecidableEq

/-- The keys of the `HARD_LIMITS` object. -/
inductive LimitKey where
  | heartRate | minHeartRate | maxHeartRate | hrv | respiratoryRate
  | sleepDuration | deepPercent | remPercent | bodyTemp | roomTemp
  | workoutDuration | calories
deriving Repr, DecidableEq

/-- `HARD_LIMITS` from dataQuality.ts. -/
def HARD_LIMITS : LimitKey → HardLimit
  | .heartRate => ⟨25, 220⟩
  | .minHeartRate => ⟨25, 120⟩
  | .maxHeartRate => ⟨40, 220⟩
  | .hrv => ⟨5, 300⟩
  | .respiratoryRate => ⟨4, 40⟩
  | .sleepDuration => ⟨30 * 60, 16 * 60 * 60⟩
  | .deepPercent => ⟨0, 60⟩
  | .remPercent => ⟨0, 60⟩
  | .bodyTemp => ⟨15, 45⟩
  | .roomTemp => ⟨-10, 50⟩
  | .workoutDuration => ⟨60, 8 * 60 * 60⟩
  | .calories => ⟨0, 5000⟩

/-- `DEFAULT_MAD_THRESHOLD` from dataQuality.ts. -/
def DEFAULT_MAD_THRESHOLD : ℚ := 35 / 10

inductive ViolationKind where
  | below_min | above_max
deriving Repr, DecidableEq

/-- `HardLimitViolation` from dataQuality.ts. -/
structure HardLimitViolation where
  field : String
  value : ℚ
  limit : HardLimit
  violation : ViolationKind
deriving Repr, DecidableEq

/-- `checkHardLimits` from dataQuality.ts. -/
def checkHardLimits (value : Option ℚ) (field : String) (limitKey : LimitKey) :
    Option HardLimitViolation :=
  match value with
  | none => none
  | some v =>
    let limits := HARD_LIMITS limitKey
    if v < limits.min then some ⟨field, v, limits, .below_min⟩
    else if v > limits.max then some ⟨field, v, limits, .above_max⟩
    else none

inductive Quality where
  | good | warning | bad
deriving Repr, DecidableEq

inductive SuggestedAction where
  | include_ | exclude_from_baseline | flag_for_review
deriving Repr, DecidableEq

/-- `SleepQualityReport` from dataQuality.ts. -/
structure SleepQualityReport where
  session : SleepSession
  hardLimitViolations : List HardLimitViolation
  outlierFields : List String
  isComplete : Bool
  missingFields : List String
  overallQuality : Quality
  suggestedAction : SuggestedAction
deriving Repr, DecidableEq

/-- The personal baseline map `{ [metric]: { median, mad } }`, as an
association list (object key lookup). -/
def Baseline := List (String × ℚ × ℚ)

def baselineGet (b : Baseline) (field : String) : Option (ℚ × ℚ) :=
  (List.find? (fun e => e.1 = field) b).map (·.2)

/-- One entry of the `checks` array in `checkSleepSessionQuality`. -/
structure QCheck where
  value : Option ℚ
  field : String
  limitKey : LimitKey
  required : Bool

/-- The `checks` array from `checkSleepSessionQuality`. -/
def qualityChecks (s : SleepSession) : List QCheck :=
  [ ⟨s.minHeartRate, "minHeartRate", .minHeartRate, false⟩,
    ⟨s.avgHeartRate, "avgHeartRate", .heartRate, false⟩,
    ⟨s.maxHeartRate, "maxHeartRate", .maxHeartRate, false⟩,
    ⟨s.avgHrv, "avgHrv", .hrv, false⟩,
    ⟨s.avgRespiratoryRate, "avgRespiratoryRate", .respiratoryRate, false⟩,
    ⟨s.durationSeconds, "durationSeconds", .sleepDuration, true⟩,
    ⟨s.avgBedTempC, "avgBedTempC", .bodyTemp, false⟩,
    ⟨s.avgRoomTempC, "avgRoomTempC", .roomTemp, false⟩ ]

/-- The four metrics checked against the baseline in
`checkSleepSessionQuality`. -/
def metricsToCheck (s : SleepSession) : List (String × Option ℚ) :=
  [ ("avgHrv", s.avgHrv),
    ("minHeartRate", s.minHeartRate),
    ("avgRespiratoryRate", s.avgRespiratoryRate),
    ("durationSeconds", s.durationSeconds) ]

/-- The body of the hard-limit loop in `checkSleepSessionQuality`. -/
def qcStep (acc : List HardLimitViolation × List String) (check : QCheck) :
    List HardLimitViolation × List String :=
  match check.value with
  | none => if check.required then (acc.1, acc.2 ++ [check.field]) else acc
  | some _ =>
    match checkHardLimits check.value check.field check.limitKey with
    | some violation => (acc.1 ++ [violation], acc.2)
    | none => acc

/-- The hard-limit section of `checkSleepSessionQuality`: the loop over the
`checks` array followed by the sleep-stage percentage checks. -/
def sessionHardLimitViolations (session : SleepSession) : List HardLimitViolation :=
  let pass := (qualityChecks session).foldl qcStep ([], [])
  let totalSleep := session.deepSeconds + session.remSeconds + session.lightSeconds
  if totalSleep > 0 then
    let deepPct := session.deepSeconds / totalSleep * 100
    let remPct := session.remSeconds / totalSleep * 100
    let afterDeep :=
      match checkHardLimits (some deepPct) "deepPercent" .deepPercent with
      | some v => pass.1 ++ [v]
      | none => pass.1
    match checkHardLimits (some remPct) "remPercent" .remPercent with
    | some v => afterDeep ++ [v]
    | none => afterDeep
  else pass.1

/-- The required-but-missing fields collected by the same loop. -/
def sessionMissingFields (session : SleepSession) : List String :=
  ((qualityChecks session).foldl qcStep ([], [])).2

/-- The statistical-outlier section of `checkSleepSessionQuality`. -/
def sessionOutlierFields (session : SleepSession) (baseline : Option Baseline)
    (madThreshold : ℚ) : List String :=
  match baseline with
  | none => []
  | some b =>
    (metricsToCheck session).foldl
      (fun acc fv =>
        match fv.2, baselineGet b fv.1 with
        | some value, some (med, mad) =>
          if |robustZScore value med mad| > madThreshold then acc ++ [fv.1] else acc
        | _, _ => acc)
      []

/-- `checkSleepSessionQuality` from dataQuality.ts. -/
def checkSleepSessionQuality (session : SleepSession) (baseline : Option Baseline)
    (madThreshold : ℚ) : SleepQualityReport :=
  let hardLimitViolations := sessionHardLimitViolations session
  let missingFields := sessionMissingFields session
  let outlierFields := sessionOutlierFields session baseline madThreshold
  -- decision policy
  let isComplete := missingFields.length = 0
  let overallQuality : Quality :=
    if hardLimitViolations.length > 0 then .bad
    else if outlierFields.length ≥ 2 then .warning
    else if outlierFields.length = 1 ∨ ¬isComplete then .warning
    else .good
  let suggestedAction : SuggestedAction :=
    if hardLimitViolations.length > 0 then .exclude_from_baseline
    else if outlierFields.length ≥ 2 then .flag_for_review
    else .include_
  { session := session
    hardLimitViolations := hardLimitViolations
    outlierFields := outlierFields
    isComplete := isComplete
    missingFields := missingFields
    overallQuality := overallQuality
    suggestedAction := suggestedAction }

/-- `generateDataQualityFlags` from dataQuality.ts. -/
def generateDataQualityFlags (report : SleepQualityReport)
    (existingFlags : Option DataQualityFlags) : DataQualityFlags :=
  { isComplete := report.isComplete
    hasOutliers := report.outlierFields.length > 0 ∨ report.hardLimitViolations.length > 0
    outlierFields := report.outlierFields ++ report.hardLimitViolations.map (·.field)
    sensorGaps := match existingFlags with | some f => f.sensorGaps | none => 0
    manuallyExcluded := match existingFlags with | some f => f.manuallyExcluded | none => false
    exclusionReason := match existingFlags with | some f => f.exclusionReason | none => none }

-- ============================================================
-- Deduplication & merge engine (pipeline.ts, lines 85-233)
-- ============================================================

/-- JavaScript `x && x > 0` on an optional number: defined and positive. -/
def optPos (o : Option ℚ) : Bool :=
  match o with
  | some v => decide (0 < v)
  | none => false

/-- JavaScript `x && x > 0 && x <= 100` on an optional number. -/
def optPosLe100 (o : Option ℚ) : Bool :=
  match o with
  | some v => decide (0 < v) && decide (v ≤ 100)
  | none => false

/-- JavaScript `x && x <= 100` on an optional number (`x` truthy means
non-zero, so negative values pass). -/
def optTruthyLe100 (o : Option ℚ) : Bool :=
  match o with
  | some v => decide (v ≠ 0) && decide (v ≤ 100)
  | none => false

/-- `getSessionCompleteness` from pipeline.ts: weighted sum over which
fields hold data.  `x !== undefined` is `isSome`. -/
def getSessionCompleteness (s : SleepSession) : ℕ :=
  (if optPos s.durationSeconds then 10 else 0) +
  (if 0 < s.deepSeconds then 5 else 0) +
  (if 0 < s.remSeconds then 5 else 0) +
  (if 0 < s.lightSeconds then 5 else 0) +
  (if 0 < s.awakeSeconds then 2 else 0) +
  (if optPos s.minHeartRate then 5 else 0) +
  (if optPos s.avgHrv then 5 else 0) +
  (if optPosLe100 s.efficiency then 3 else 0) +
  (if optPos s.avgRespiratoryRate then 3 else 0) +
  (if s.avgBedTempC.isSome then 2 else 0)

/-- JavaScript `b || s` on two numbers (`b` wins unless it is `0`). -/
def jsOr (b s : ℚ) : ℚ := if b ≠ 0 then b else s

/-- JavaScript `b || s` on two optional numbers. -/
def jsOrOpt (b s : Option ℚ) : Option ℚ :=
  match b with
  | some v => if v ≠ 0 then some v else s
  | none => s

/-- The `efficiency` merge expression in `mergeSessions`:
`(b && b <= 100) ? b : (s && s <= 100) ? s : b`. -/
def mergeEfficiency (b s : Option ℚ) : Option ℚ :=
  if optTruthyLe100 b then b
  else if optTruthyLe100 s then s
  else b

/-- `mergeSessions` from pipeline.ts: the higher-scored session is the base
(`existing` on ties), missing fields are filled from the supplement, and the
two `vendorData.source` values are collected into `mergedSources` by
`filter(Boolean)`, which drops an undefined and also an empty-string
source (JS truthiness). -/
def mergeBase (existing incoming : SleepSession) : SleepSession :=
  if getSessionCompleteness incoming ≤ getSessionCompleteness existing
  then existing else incoming

def mergeSupplement (existing incoming : SleepSession) : SleepSession :=
  if getSessionCompleteness incoming ≤ getSessionCompleteness existing
  then incoming else existing

def mergeSessions (existing incoming : SleepSession) : SleepSession :=
  let base := mergeBase existing incoming
  let supplement := mergeSupplement existing incoming
  { base with
    deepSeconds := jsOr base.deepSeconds supplement.deepSeconds
    remSeconds := jsOr base.remSeconds supplement.remSeconds
    lightSeconds := jsOr base.lightSeconds supplement.lightSeconds
    awakeSeconds := jsOr base.awakeSeconds supplement.awakeSeconds
    minHeartRate := jsOrOpt base.minHeartRate supplement.minHeartRate
    avgHeartRate := jsOrOpt base.avgHeartRate supplement.avgHeartRate
    avgHrv := jsOrOpt base.avgHrv supplement.avgHrv
    avgRespiratoryRate := jsOrOpt base.avgRespiratoryRate supplement.avgRespiratoryRate
    avgBedTempC := base.avgBedTempC.orElse (fun _ => supplement.avgBedTempC)
    avgRoomTempC := base.avgRoomTempC.orElse (fun _ => supplement.avgRoomTempC)
    efficiency := mergeEfficiency base.efficiency supplement.efficiency
    vendorData :=
      { source := base.vendorData.source.orElse (fun _ => supplement.vendorData.source)
        mergedSources :=
          ([base.vendorData.source, supplement.vendorData.source].filterMap
            (fun o => match o with
              | some s => if s = "" then none else some s
              | none => none)) } }

-- JavaScript `Map` as an insertion-ordered association list:
-- `set` updates in place when the key exists, else appends.

def mapGet (m : List (String × SleepSession)) (k : String) : Option SleepSession :=
  (List.find? (fun e => e.1 = k) m).map (·.2)

def mapSet : List (String × SleepSession) → String → SleepSession →
    List (String × SleepSession)
  | [], k, v => [(k, v)]
  | e :: m, k, v => if e.1 = k then (k, v) :: m else e :: mapSet m k v

/-- One step of building the `existingByDate` map in `deduplicateSessions`:
keep, per date, the most complete of the user's stored sessions (first seen
wins ties). -/
def existingByDateStep (userId : String) (m : List (String × SleepSession))
    (session : SleepSession) : List (String × SleepSession) :=
  if session.userId = userId then
    match mapGet m session.date with
    | none => mapSet m session.date session
    | some existing =>
      if getSessionCompleteness existing < getSessionCompleteness session
      then mapSet m session.date session
      else m
  else m

/-- The `existingByDate` map built by `deduplicateSessions`. -/
def buildExistingByDate (existingSessions : List SleepSession) (userId : String) :
    List (String × SleepSession) :=
  existingSessions.foldl (existingByDateStep userId) []

/-- One step of building the `incomingByDate` map in `deduplicateSessions`:
incoming sessions sharing a date are collapsed by repeated merging. -/
def collapseStep (m : List (String × SleepSession)) (session : SleepSession) :
    List (String × SleepSession) :=
  match mapGet m session.date with
  | some existing => mapSet m session.date (mergeSessions existing session)
  | none => mapSet m session.date session

/-- The `incomingByDate` map built by `deduplicateSessions`. -/
def collapseIncoming (sessions : List SleepSession) : List (String × SleepSession) :=
  sessions.foldl collapseStep []

/-- Result triple of `deduplicateSessions`. -/
structure DedupResult where
  sessions : List SleepSession
  mergedCount : ℕ
  skippedCount : ℕ
deriving Repr, DecidableEq

/-- The per-date reconciliation step of `deduplicateSessions`: merge and
inherit the stored id when the incoming session scores strictly higher,
skip otherwise, insert as new when no stored session exists. -/
def dedupStep (existingByDate : List (String × SleepSession)) (acc : DedupResult)
    (entry : String × SleepSession) : DedupResult :=
  match mapGet existingByDate entry.1 with
  | some existing =>
    if getSessionCompleteness existing < getSessionCompleteness entry.2 then
      let merged := { mergeSessions existing entry.2 with id := existing.id }
      { acc with sessions := acc.sessions ++ [merged],
                 mergedCount := acc.mergedCount + 1 }
    else
      { acc with skippedCount := acc.skippedCount + 1 }
  | none => { acc with sessions := acc.sessions ++ [entry.2] }

/-- What `deduplicateSessions` emits for one collapsed incoming entry:
`some` new record, `some` merged record carrying the stored id, or `none`
when the incoming session is discarded. -/
def dedupChoice (existingByDate : List (String × SleepSession))
    (entry : String × SleepSession) : Option SleepSession :=
  match mapGet existingByDate entry.1 with
  | some existing =>
    if getSessionCompleteness existing < getSessionCompleteness entry.2 then
      some { mergeSessions existing entry.2 with id := existing.id }
    else none
  | none => some entry.2

/-- `deduplicateSessions` from pipeline.ts, with the `getAll('sleepSessions')`
store read passed in as `existingSessions`. -/
def deduplicateSessions (existingSessions : List SleepSession)
    (sessions : List SleepSession) (userId : String) : DedupResult :=
  let existingByDate := buildExistingByDate existingSessions userId
  let incomingByDate := collapseIncoming sessions
  incomingByDate.foldl (dedupStep existingByDate) ⟨[], 0, 0⟩

/-- JavaScript `Math.round` (round half toward positive infinity). -/
def jsRound (q : ℚ) : ℚ := (⌊q + 1 / 2⌋ : ℤ)

/-- `validateEfficiency` from pipeline.ts. -/
def validateEfficiency (efficiency : Option ℚ) : Option ℚ :=
  match efficiency with
  | none => none
  | some e => if e < 0 then some 0 else if e > 100 then some 100 else some e

/-- `validateSession` from pipeline.ts.  `x ? Math.round(x) : undefined`
maps both `undefined` and `0` to `undefined`. -/
def validateSession (session : SleepSession) : SleepSession :=
  { session with
    efficiency := validateEfficiency session.efficiency
    minHeartRate :=
      match session.minHeartRate with
      | some v => if v ≠ 0 then some (jsRound v) else none
      | none => none
    avgHeartRate :=
      match session.avgHeartRate with
      | some v => if v ≠ 0 then some (jsRound v) else none
      | none => none
    avgHrv :=
      match session.avgHrv with
      | some v => if v ≠ 0 then some (jsRound v) else none
      | none => none }

-- ============================================================
-- Eight Sleep importer (src/app/src/importers/eightSleep.ts)
-- ============================================================

/-- Days-since-epoch to Gregorian civil date (y, m, d); the standard civil
calendar algorithm, modelling what `Date#toISOString().split('T')[0]` prints
for a non-negative unix day number. -/
def civilFromDays (z : ℕ) : ℕ × ℕ × ℕ :=
  let zz := z + 719468
  let era := zz / 146097
  let doe := zz % 146097
  let yoe := (doe - doe / 1460 + doe / 36524 - doe / 146096) / 365
  let y := yoe + era * 400
  let doy := doe - (365 * yoe + yoe / 4 - yoe / 100)
  let mp := (5 * doy + 2) / 153
  let d := doy - (153 * mp + 2) / 5 + 1
  let m := if mp < 10 then mp + 3 else mp - 9
  let y := if m ≤ 2 then y + 1 else y
  (y, m, d)

/-- Zero-padded two-digit rendering used by ISO dates. -/
def pad2 (n : ℕ) : String :=
  if n < 10 then "0" ++ toString n else toString n

/-- `YYYY-MM-DD` rendering of a civil date. -/
def dateString (ymd : ℕ × ℕ × ℕ) : String :=
  toString ymd.1 ++ "-" ++ pad2 ymd.2.1 ++ "-" ++ pad2 ymd.2.2

/-- The "night of" date computed in `transformRawSession`: the calendar date
of the start timestamp, moved to the previous day when the local (UTC in
this model) start hour is before 6 AM. -/
def nightOfDate (ts : ℕ) : String :=
  let days := ts / 86400
  let hour := ts / 3600 % 24
  dateString (civilFromDays (if hour < 6 then days - 1 else days))

/-- `EightSleepStage` from eightSleep.ts (`stage` kept as a string: the
transformer ignores names outside the five buckets). -/
structure EightSleepStage where
  stage : String
  duration : ℚ
deriving Repr, DecidableEq

/-- The optional `timeseries` block of an Eight Sleep session: lists of
`[timestamp, value | null]` pairs. -/
structure EightSleepTimeseries where
  heartRate : Option (List (ℚ × Option ℚ))
  hrv : Option (List (ℚ × Option ℚ))
  respiratoryRate : Option (List (ℚ × Option ℚ))
  tempBedC : Option (List (ℚ × Option ℚ))
  tempRoomC : Option (List (ℚ × Option ℚ))
deriving Repr, DecidableEq

/-- `EightSleepSession` from eightSleep.ts: a unix-seconds timestamp plus
stages and optional per-sample series. -/
structure EightSleepSession where
  ts : ℕ
  stages : List EightSleepStage
  timeseries : Option EightSleepTimeseries
deriving Repr, DecidableEq

/-- The `stageTotals` accumulator of `transformRawSession`. -/
structure StageTotals where
  awake : ℚ
  light : ℚ
  deep : ℚ
  rem : ℚ
  out : ℚ
deriving Repr, DecidableEq

/-- The stage-summing loop of `transformRawSession`: durations are summed
into the five named buckets; other stage names are ignored. -/
def sumStages (stages : List EightSleepStage) : StageTotals :=
  stages.foldl
    (fun t st =>
      if st.stage = "awake" then { t with awake := t.awake + st.duration }
      else if st.stage = "light" then { t with light := t.light + st.duration }
      else if st.stage = "deep" then { t with deep := t.deep + st.duration }
      else if st.stage = "rem" then { t with rem := t.rem + st.duration }
      else if st.stage = "out" then { t with out := t.out + st.duration }
      else t)
    ⟨0, 0, 0, 0, 0⟩

/-- `extractTimeseriesValues` from eightSleep.ts: drop null samples. -/
def extractTimeseriesValues (data : Option (List (ℚ × Option ℚ))) : List ℚ :=
  match data with
  | none => []
  | some l => l.filterMap (·.2)

/-- `mean` from eightSleep.ts (0 on the empty list). -/
def esMean (values : List ℚ) : ℚ :=
  if values.length = 0 then 0 else values.foldl (· + ·) 0 / (values.length : ℚ)

/-- `Math.min(...values)` over a non-empty list (0 as a dummy on empty;
call sites guard on non-emptiness). -/
def listMin (values : List ℚ) : ℚ :=
  match values with
  | [] => 0
  | h :: t => t.foldl min h

def listMax (values : List ℚ) : ℚ :=
  match values with
  | [] => 0
  | h :: t => t.foldl max h

/-- The default `dataQuality` block attached by the transformers. -/
def defaultQualityFlags : DataQualityFlags :=
  { isComplete := true, hasOutliers := false, outlierFields := [],
    sensorGaps := 0, manuallyExcluded := false, exclusionReason := none }

/-- `transformRawSession` from eightSleep.ts.  `newId` stands for the
`generateId()` call; the timestamp fields carry unix seconds. -/
def transformRawSession (raw : EightSleepSession) (sourceId userId newId : String) :
    Option SleepSession :=
  if raw.stages.length = 0 then none
  else
    let stageTotals := sumStages raw.stages
    let sleepSeconds := stageTotals.light + stageTotals.deep + stageTotals.rem
    let timeInBedSeconds := sleepSeconds + stageTotals.awake
    if sleepSeconds < 3 * 60 * 60 then none
    else
      let hrValues := extractTimeseriesValues (raw.timeseries.bind (·.heartRate))
      let hrvValues := extractTimeseriesValues (raw.timeseries.bind (·.hrv))
      let rrValues := extractTimeseriesValues (raw.timeseries.bind (·.respiratoryRate))
      let bedTempValues := extractTimeseriesValues (raw.timeseries.bind (·.tempBedC))
      let roomTempValues := extractTimeseriesValues (raw.timeseries.bind (·.tempRoomC))
      some
        { id := newId
          userId := userId
          sourceId := sourceId
          date := nightOfDate raw.ts
          startedAt := (raw.ts : ℚ)
          endedAt := (raw.ts : ℚ) + timeInBedSeconds
          durationSeconds := some sleepSeconds
          timeInBedSeconds := timeInBedSeconds
          deepSeconds := stageTotals.deep
          remSeconds := stageTotals.rem
          lightSeconds := stageTotals.light
          awakeSeconds := stageTotals.awake
          sleepOnsetLatency := none
          wakeAfterSleepOnset := some stageTotals.awake
          efficiency :=
            if 0 < timeInBedSeconds then some (sleepSeconds / timeInBedSeconds * 100)
            else none
          avgHeartRate := if 0 < hrValues.length then some (esMean hrValues) else none
          minHeartRate := if 0 < hrValues.length then some (listMin hrValues) else none
          maxHeartRate := if 0 < hrValues.length then some (listMax hrValues) else none
          avgHrv := if 0 < hrvValues.length then some (esMean hrvValues) else none
          avgRespiratoryRate := if 0 < rrValues.length then some (esMean rrValues) else none
          avgBedTempC := if 0 < bedTempValues.length then some (esMean bedTempValues) else none
          avgRoomTempC := if 0 < roomTempValues.length then some (esMean roomTempValues) else none
          dataQuality := defaultQualityFlags
          vendorData := { source := none, mergedSources := [] } }

-- ============================================================
-- Import orchestrator (pipeline.ts, lines 29-76, 239-491, 497-1031)
-- ============================================================

inductive VendorType where
  | eight_sleep | oura | orangetheory | whoop | apple_health | garmin
  | fitbit | generic_csv | generic_json | unknown
deriving Repr, DecidableEq

/-- The string a template literal prints for a `VendorType` value. -/
def vendorStr : VendorType → String
  | .eight_sleep => "eight_sleep"
  | .oura => "oura"
  | .orangetheory => "orangetheory"
  | .whoop => "whoop"
  | .apple_health => "apple_health"
  | .garmin => "garmin"
  | .fitbit => "fitbit"
  | .generic_csv => "generic_csv"
  | .generic_json => "generic_json"
  | .unknown => "unknown"

inductive FileType where
  | json | csv | zip | xml | unknown
deriving Repr, DecidableEq

def fileTypeStr : FileType → String
  | .json => "json"
  | .csv => "csv"
  | .zip => "zip"
  | .xml => "xml"
  | .unknown => "unknown"

inductive Confidence where
  | high | medium | low
deriving Repr, DecidableEq

inductive WarningType where
  | missing_field | outlier | parse_error | duplicate
deriving Repr, DecidableEq

/-- `ImportWarning` from pipeline.ts. -/
structure ImportWarning where
  type : WarningType
  message : String
  recordIndex : Option ℕ
  field : Option String
deriving Repr, DecidableEq

inductive ErrorType where
  | invalid_format | unsupported_vendor | parse_error | storage_error
deriving Repr, DecidableEq

/-- `ImportError` from pipeline.ts (`details` omitted: it carries an opaque
exception object). -/
structure ImportError where
  type : ErrorType
  message : String
deriving Repr, DecidableEq

structure RecordCounts where
  sleepSessions : ℕ
  workoutSessions : ℕ
  dailyMetrics : ℕ
  timeSeries : ℕ
deriving Repr, DecidableEq

structure QualitySummary where
  good : ℕ
  warning : ℕ
  bad : ℕ
deriving Repr, DecidableEq

/-- `ImportResult` from pipeline.ts. -/
structure ImportResult where
  success : Bool
  sourceId : String
  vendor : VendorType
  recordCounts : RecordCounts
  warnings : List ImportWarning
  errors : List ImportError
  qualitySummary : QualitySummary
deriving Repr, DecidableEq

/-- `Source` from schema.ts (importFile always fills every count, so the
optional counts are modelled as plain naturals). -/
structure Source where
  id : String
  userId : String
  vendor : VendorType
  fileName : String
  fileHash : String
  fileSizeBytes : ℕ
  importedAt : String
  importerProfileId : String
  recordCounts : RecordCounts
deriving Repr, DecidableEq

/-- `WorkoutSession`, reduced to the parts the orchestrator observes: the
store key `id`, the ownership fields it rewrites on the pre-parsed path, and
an opaque payload standing for every other field (the pipeline stores
workouts without inspecting them). -/
structure WorkoutSession where
  id : String
  userId : String
  sourceId : String
  date : String
  payload : String
deriving Repr, DecidableEq

/-- `DailyMetric` from schema.ts. -/
structure DailyMetric where
  id : String
  userId : String
  sourceId : String
  date : String
  metricType : String
  value : ℚ
  unit : String
deriving Repr, DecidableEq

/-- A `TimeSeries` record, reduced to its store key plus opaque payload. -/
structure TimeSeriesRec where
  id : String
  payload : String
deriving Repr, DecidableEq

/-- The keyed record store (IndexedDB) tables the pipeline touches. -/
structure Database where
  sources : List Source
  sleepSessions : List SleepSession
  workoutSessions : List WorkoutSession
  dailyMetrics : List DailyMetric
  timeSeries : List TimeSeriesRec
deriving Repr, DecidableEq

/-- `put`: insert or overwrite by the table's `id` key path. -/
def upsertBy {α : Type} (key : α → String) (l : List α) (x : α) : List α :=
  if l.any (fun y => key y = key x) then
    l.map (fun y => if key y = key x then x else y)
  else l ++ [x]

/-- `putMany`: a sequence of `put`s. -/
def putManyBy {α : Type} (key : α → String) (l : List α) (xs : List α) : List α :=
  xs.foldl (upsertBy key) l

-- ------------------------------------------------------------
-- JSON values and the vendor shape detectors
-- ------------------------------------------------------------

/-- Parsed JSON, as produced by `JSON.parse`. -/
inductive Json where
  | null
  | bool (b : Bool)
  | num (q : ℚ)
  | str (s : String)
  | arr (elems : List Json)
  | obj (fields : List (String × Json))

/-- `key in data` / `data[key]` on a parsed JSON object. -/
def jsonGet : Json → String → Option Json
  | .obj fields, key => (fields.find? (fun f => f.1 = key)).map (·.2)
  | _, _ => none

def jsonIsArr : Json → Bool
  | .arr _ => true
  | _ => false

/-- JavaScript `data && typeof data === 'object'` (arrays included). -/
def jsonIsObjLike : Json → Bool
  | .obj _ => true
  | .arr _ => true
  | _ => false

/-- `getEightSleepSessions` from pipeline.ts. -/
def getEightSleepSessions (data : Json) : List Json :=
  match data with
  | .arr elems => elems
  | .obj _ =>
    match jsonGet data "sessions" with
    | some (.arr elems) => elems
    | _ => []
  | _ => []

/-- `isEightSleepExport` from pipeline.ts. -/
def isEightSleepExport (data : Json) : Bool :=
  if ¬jsonIsObjLike data then false
  else
    match getEightSleepSessions data with
    | [] => false
    | first :: _ =>
      (jsonGet first "ts").isSome &&
      (match jsonGet first "stages" with
       | some v => jsonIsArr v
       | none => false)

/-- `isOuraExport` from pipeline.ts. -/
def isOuraExport (data : Json) : Bool :=
  if ¬jsonIsObjLike data then false
  else
    (match jsonGet data "sleep" with
     | some v => jsonIsArr v
     | none => false) ||
    (jsonGet data "daily_readiness").isSome

/-- `isDashboardDataExport` from pipeline.ts. -/
def isDashboardDataExport (data : Json) : Bool :=
  if ¬jsonIsObjLike data then false
  else
    (jsonGet data "sessions").isSome &&
    (jsonGet data "baselines").isSome &&
    (jsonGet data "debtStats").isSome &&
    (match jsonGet data "sessions" with
     | some v => jsonIsArr v
     | none => false)

/-- `isAppleHealthPreParsed` from pipeline.ts. -/
def isAppleHealthPreParsed (data : Json) : Bool :=
  if ¬jsonIsObjLike data then false
  else
    (jsonGet data "sleepSessions").isSome &&
    (jsonGet data "workoutSessions").isSome &&
    (jsonGet data "sources").isSome &&
    (match jsonGet data "sleepSessions" with
     | some v => jsonIsArr v
     | none => false) &&
    (match jsonGet data "workoutSessions" with
     | some v => jsonIsArr v
     | none => false)

/-- `Object.keys` of a parsed JSON object. -/
def jsonKeys : Json → List String
  | .obj fields => fields.map (·.1)
  | _ => []

-- ------------------------------------------------------------
-- File detection (pipeline.ts, lines 239-424)
-- ------------------------------------------------------------

structure FileManifest where
  entryCount : Option ℕ
  sampleFields : Option (List String)
  rowCount : Option ℕ
deriving Repr, DecidableEq

structure FileDetectionResult where
  fileType : FileType
  suggestedVendor : VendorType
  confidence : Confidence
  fileManifest : Option FileManifest
deriving Repr, DecidableEq

/-- `String#trim`, computed structurally over the code points (whitespace
at both ends removed). -/
def strTrim (s : String) : String :=
  String.mk (((s.toList.dropWhile Char.isWhitespace).reverse.dropWhile
    Char.isWhitespace).reverse)

/-- `String#startsWith`, computed structurally. -/
def strStartsWith (s pre : String) : Bool :=
  decide (pre.toList <+: s.toList)

/-- `String#split` on a one-character separator, computed structurally. -/
def splitOnChar (sep : Char) : List Char → List (List Char)
  | [] => [[]]
  | c :: rest =>
    match splitOnChar sep rest with
    | [] => [[c]]
    | h :: t => if c = sep then [] :: h :: t else (c :: h) :: t

def strSplitOnChar (sep : Char) (s : String) : List String :=
  (splitOnChar sep s.toList).map String.mk

/-- `String#toLowerCase`, computed structurally. -/
def strToLower (s : String) : String :=
  String.mk (s.toList.map Char.toLower)

def countChar (s : String) (c : Char) : ℕ := (s.toList.filter (· = c)).length

/-- Substring test (JavaScript `String#includes`). -/
def containsSubstr (h n : String) : Bool :=
  decide (n.toList <:+: h.toList)

/-- `looksLikeCsv` from pipeline.ts. -/
def looksLikeCsv (content : String) : Bool :=
  let lines := (strSplitOnChar '\n' content).take 5
  if lines.length < 2 then false
  else
    let firstLine := lines.headD ""
    countChar firstLine ',' ≥ 2 || countChar firstLine '\t' ≥ 2

/-- `detectJsonVendor` from pipeline.ts. -/
def detectJsonVendor (data : Json) (_fileName : String) : FileDetectionResult :=
  if isEightSleepExport data then
    let sessions := getEightSleepSessions data
    { fileType := .json, suggestedVendor := .eight_sleep, confidence := .high,
      fileManifest := some
        { entryCount := some sessions.length
          sampleFields := some (match sessions with | first :: _ => jsonKeys first | [] => [])
          rowCount := none } }
  else if isOuraExport data then
    { fileType := .json, suggestedVendor := .oura, confidence := .high,
      fileManifest := some { entryCount := none, sampleFields := none, rowCount := none } }
  else if isDashboardDataExport data then
    { fileType := .json, suggestedVendor := .eight_sleep, confidence := .high,
      fileManifest := some
        { entryCount := some (match jsonGet data "sessions" with
                              | some (.arr l) => l.length
                              | _ => 0)
          sampleFields := none, rowCount := none } }
  else if isAppleHealthPreParsed data then
    { fileType := .json, suggestedVendor := .apple_health, confidence := .high,
      fileManifest := some
        { entryCount := some
            ((match jsonGet data "sleepSessions" with | some (.arr l) => l.length | _ => 0) +
             (match jsonGet data "workoutSessions" with | some (.arr l) => l.length | _ => 0))
          sampleFields := some ["sleepSessions", "workoutSessions", "dailyMetrics"]
          rowCount := none } }
  else if jsonIsArr data then
    { fileType := .json, suggestedVendor := .generic_json, confidence := .low,
      fileManifest := some
        { entryCount := some (match data with | .arr l => l.length | _ => 0)
          sampleFields := some (match data with
                                | .arr (first :: _) => jsonKeys first
                                | _ => [])
          rowCount := none } }
  else
    { fileType := .json, suggestedVendor := .unknown, confidence := .low,
      fileManifest := some { entryCount := none, sampleFields := none, rowCount := none } }

/-- `detectCsvVendor` from pipeline.ts (two sequential `if`s: the Oura
check can overwrite the Orangetheory one). -/
def detectCsvVendor (content : String) (fileName : String) : FileDetectionResult :=
  let lines := strSplitOnChar '\n' content
  let headers := strToLower (lines.headD "")
  let base : FileDetectionResult :=
    { fileType := .csv, suggestedVendor := .generic_csv, confidence := .low,
      fileManifest := some
        { entryCount := none
          sampleFields := some ((strSplitOnChar ',' (lines.headD "")).map
            (fun h => ((strTrim h).toList.filter (fun c => c ≠ '"')).asString))
          rowCount := some (lines.length - 1) } }
  let afterOtf :=
    if containsSubstr headers "splat" || containsSubstr headers "orangetheory" ||
       containsSubstr headers "class type" ||
       containsSubstr (strToLower fileName) "orangetheory" ||
       containsSubstr (strToLower fileName) "otf" then
      { base with suggestedVendor := .orangetheory, confidence := .medium }
    else base
  if containsSubstr headers "readiness" && containsSubstr headers "hrv" then
    { afterOtf with suggestedVendor := .oura, confidence := .medium }
  else afterOtf

/-- Raw file content: a string, or binary bytes decoded through the
environment's `TextDecoder`. -/
inductive FileContent where
  | str (s : String)
  | buf (bytes : List ℕ)
deriving Repr, DecidableEq

/-- `ImportFile` from pipeline.ts. -/
structure ImportFile where
  name : String
  size : ℕ
  mime : String
  content : FileContent
deriving Repr, DecidableEq

/-- A CSV row object: header/value pairs in column order. -/
def CsvRow := List (String × String)

/-- What `JSON.parse`d or CSV-parsed content the transform step receives. -/
inductive ParsedData where
  | json (j : Json)
  | csv (rows : List CsvRow)

/-- `ImporterProfile`, reduced to the fields the orchestrator reads. -/
structure ImporterProfile where
  id : String
  vendor : VendorType
deriving Repr, DecidableEq

def EIGHT_SLEEP_PROFILE : ImporterProfile := ⟨"eight_sleep_v1", .eight_sleep⟩
def ORANGETHEORY_PROFILE : ImporterProfile := ⟨"orangetheory_v1", .orangetheory⟩
def APPLE_HEALTH_PROFILE : ImporterProfile := ⟨"apple_health_builtin", .apple_health⟩

/-- `getBuiltInProfile` from pipeline.ts. -/
def getBuiltInProfile : VendorType → Option ImporterProfile
  | .eight_sleep => some EIGHT_SLEEP_PROFILE
  | .orangetheory => some ORANGETHEORY_PROFILE
  | .apple_health => some APPLE_HEALTH_PROFILE
  | _ => none

/-- `TransformResult` from pipeline.ts. -/
structure TransformResult where
  sleepSessions : List SleepSession
  workoutSessions : List WorkoutSession
  timeSeries : List TimeSeriesRec
  warnings : List ImportWarning

/-- `AppleHealthImportResult`, reduced to the fields importFile reads
(`sources` as a list in insertion order). -/
structure AppleHealthImportResult where
  sleepSessions : List SleepSession
  workoutSessions : List WorkoutSession
  dailyMetrics : List DailyMetric
  sources : List String

/-- The unchecked `parsedData as {...}` cast on the pre-parsed Apple
Health JSON path. -/
structure PreParsedAppleData where
  sleepSessions : List SleepSession
  workoutSessions : List WorkoutSession
  dailyMetrics : List DailyMetric
  sources : List String
  sourceId : Option String

/-- The orchestrator's collaborators (JS builtins, the vendor transformers
and the streaming XML parser), passed explicitly.  `Except` models a thrown
exception. -/
structure ImportEnv where
  decode : List ℕ → String
  jsonParse : String → Option Json
  sha256 : String → String
  now : String
  newSourceId : String
  decodePreParsed : Json → PreParsedAppleData
  transformData : ParsedData → ImporterProfile → String → String → Except String TransformResult
  parseAppleHealthXML : String → String → String → Except String AppleHealthImportResult

def fileContentStr (env : ImportEnv) (file : ImportFile) : String :=
  match file.content with
  | .str s => s
  | .buf b => env.decode b

/-- `detectFileType` from pipeline.ts. -/
def detectFileType (env : ImportEnv) (file : ImportFile) : FileDetectionResult :=
  let content := fileContentStr env file
  let trimmed := strTrim content
  let jsonResult :=
    if strStartsWith trimmed "\x7b" || strStartsWith trimmed "[" then
      (env.jsonParse content).map (fun parsed => detectJsonVendor parsed file.name)
    else none
  match jsonResult with
  | some r => r
  | none =>
    if looksLikeCsv trimmed then detectCsvVendor trimmed file.name
    else if strStartsWith trimmed "<?xml" || strStartsWith trimmed "<" then
      if containsSubstr trimmed "<!DOCTYPE HealthData" ||
         containsSubstr trimmed "<HealthData" ||
         containsSubstr trimmed "HKQuantityTypeIdentifier" then
        { fileType := .xml, suggestedVendor := .apple_health, confidence := .high,
          fileManifest := some
            { entryCount := none
              sampleFields := some ["HealthData", "Record", "Workout"]
              rowCount := none } }
      else
        { fileType := .xml,
          suggestedVendor :=
            if containsSubstr (strToLower file.name) "apple" then .apple_health else .unknown,
          confidence := .low, fileManifest := none }
    else
      match file.content with
      | .buf bytes =>
        if bytes.head? = some 0x50 ∧ bytes[1]? = some 0x4B then
          { fileType := .zip, suggestedVendor := .unknown, confidence := .low,
            fileManifest := none }
        else
          { fileType := .unknown, suggestedVendor := .unknown, confidence := .low,
            fileManifest := none }
      | .str _ =>
        { fileType := .unknown, suggestedVendor := .unknown, confidence := .low,
          fileManifest := none }

-- ------------------------------------------------------------
-- CSV parsing (pipeline.ts, lines 936-977)
-- ------------------------------------------------------------

/-- `parseCsvLine` from pipeline.ts: split on commas outside quotes,
trimming each cell. -/
def parseCsvLine (line : String) : List String :=
  let step := fun (st : List String × String × Bool) (c : Char) =>
    if c == '"' then (st.1, st.2.1, !st.2.2)
    else if c == ',' && !st.2.2 then (st.1 ++ [strTrim st.2.1], "", st.2.2)
    else (st.1, st.2.1.push c, st.2.2)
  let final := line.toList.foldl step ([], "", false)
  final.1 ++ [strTrim final.2.1]

/-- `parseCsv` from pipeline.ts: header row plus one row object per line,
missing cells defaulting to the empty string. -/
def parseCsv (content : String) : List CsvRow :=
  let lines := (strSplitOnChar '\n' content).filter (fun line => strTrim line ≠ "")
  if lines.length < 2 then []
  else
    let headers := parseCsvLine (lines.headD "")
    (lines.drop 1).map (fun line =>
      let values := parseCsvLine line
      headers.enum.map (fun jh => (jh.2, values.getD jh.1 "")))

-- ------------------------------------------------------------
-- importFile (pipeline.ts, lines 497-926)
-- ------------------------------------------------------------

/-- `createErrorResult` from pipeline.ts. -/
def createErrorResult (errors : List ImportError) : ImportResult :=
  { success := false, sourceId := "", vendor := .unknown,
    recordCounts := ⟨0, 0, 0, 0⟩, warnings := [], errors := errors,
    qualitySummary := ⟨0, 0, 0⟩ }

/-- The quality-flag mutation in importFile's validation loop:
`session.dataQuality = generateDataQualityFlags(checkSleepSessionQuality(session))`. -/
def attachQualityFlags (s : SleepSession) : SleepSession :=
  { s with dataQuality :=
      generateDataQualityFlags (checkSleepSessionQuality s none DEFAULT_MAD_THRESHOLD) none }

/-- The per-session outlier warning pushed by importFile's validation loop. -/
def hardLimitWarning (r : SleepQualityReport) : Option ImportWarning :=
  match r.hardLimitViolations with
  | [] => none
  | v :: _ => some
      { type := .outlier
        message := "Session " ++ r.session.date ++ " has values outside expected ranges"
        recordIndex := none, field := some v.field }

/-- Propagate a collaborator's thrown exception, recording the database
state current at the throw: the `try` in `importFile` covers the store
writes as well, so the `catch` observes whatever state the failure left
behind rather than a rolled-back database. -/
def throwWith {α : Type} (db : Database) : Except String α →
    Except (String × Database) α
  | .ok a => .ok a
  | .error e => .error (e, db)

/-- Steps 4-7 of `importFile` (the generic transform/validate/dedup/store
tail shared by the CSV and non-Apple JSON paths). -/
def importFileGenericTail (env : ImportEnv) (db : Database) (file : ImportFile)
    (userId : String) (importerProfile : ImporterProfile)
    (detection : FileDetectionResult) (parsedData : ParsedData) (content : String) :
    Except (String × Database) (ImportResult × Database) := do
  -- Step 4: create source record (with duplicate-import check)
  let fileHash := env.sha256 content
  let existingSources := db.sources.filter (fun s => s.fileHash = fileHash)
  let dupWarnings : List ImportWarning :=
    if existingSources.length > 0 then
      [{ type := .duplicate, message := "This file has already been imported",
         recordIndex := none, field := none }]
    else []
  let sourceId := env.newSourceId
  -- Step 5: transform to canonical schema
  let transformResult ← throwWith db (env.transformData parsedData importerProfile sourceId userId)
  let warnings := dupWarnings ++ transformResult.warnings
  -- Step 6: validate and add quality flags
  let validatedSessions := transformResult.sleepSessions.map validateSession
  let reports := validatedSessions.map
    (fun s => checkSleepSessionQuality s none DEFAULT_MAD_THRESHOLD)
  let goodCount := reports.countP (fun r => r.overallQuality = .good)
  let warningCount := reports.countP (fun r => r.overallQuality = .warning)
  let badCount := reports.countP
    (fun r => r.overallQuality ≠ .good ∧ r.overallQuality ≠ .warning)
  let flaggedSessions := validatedSessions.map attachQualityFlags
  let warnings := warnings ++ reports.filterMap hardLimitWarning
  -- deduplicate against existing data
  let dedupResult := deduplicateSessions db.sleepSessions flaggedSessions userId
  let warnings := warnings ++
    (if dedupResult.mergedCount > 0 then
      [{ type := .duplicate
         message := "Merged " ++ toString dedupResult.mergedCount ++
           " sessions with existing data"
         recordIndex := none, field := none }] else []) ++
    (if dedupResult.skippedCount > 0 then
      [{ type := .duplicate
         message := "Skipped " ++ toString dedupResult.skippedCount ++
           " duplicate sessions"
         recordIndex := none, field := none }] else [])
  -- Step 7: store in database
  let source : Source :=
    { id := sourceId, userId := userId, vendor := detection.suggestedVendor,
      fileName := file.name, fileHash := fileHash, fileSizeBytes := file.size,
      importedAt := env.now, importerProfileId := importerProfile.id,
      recordCounts :=
        { sleepSessions := dedupResult.sessions.length
          workoutSessions := transformResult.workoutSessions.length
          dailyMetrics := 0
          timeSeries := transformResult.timeSeries.length } }
  let db := { db with sources := upsertBy (·.id) db.sources source }
  let db := if dedupResult.sessions.length > 0 then
      { db with sleepSessions := putManyBy (·.id) db.sleepSessions dedupResult.sessions }
    else db
  let db := if transformResult.workoutSessions.length > 0 then
      { db with workoutSessions := putManyBy (·.id) db.workoutSessions transformResult.workoutSessions }
    else db
  let db := if transformResult.timeSeries.length > 0 then
      { db with timeSeries := putManyBy (·.id) db.timeSeries transformResult.timeSeries }
    else db
  return ({ success := true, sourceId := sourceId, vendor := detection.suggestedVendor,
            recordCounts := source.recordCounts,
            warnings := warnings, errors := [],
            qualitySummary :=
              { good := goodCount
                warning := warningCount + dedupResult.mergedCount
                bad := badCount + dedupResult.skippedCount } }, db)

/-- The body of `importFile` (everything inside its `try`); a `.error`
models an exception escaping to the `catch`, paired with the database state
at the throw.  The `try` also covers the `put`/`putMany` store writes, so a
mid-store failure would reach the same `catch` with writes already
performed; the throwing collaborators modelled here (`transformData`,
`parseAppleHealthXML`) precede the writes and carry the incoming state. -/
def importFileBody (env : ImportEnv) (db : Database) (file : ImportFile)
    (userId : String) (profile : Option ImporterProfile) :
    Except (String × Database) (ImportResult × Database) := do
  -- Step 1: detect file type
  let detection := detectFileType env file
  if detection.fileType = .unknown then
    return (createErrorResult
      [{ type := .invalid_format, message := "Could not determine file format" }], db)
  -- Step 2: get or select importer profile
  let importerProfile? := profile.orElse (fun _ => getBuiltInProfile detection.suggestedVendor)
  match importerProfile? with
  | none =>
    return (createErrorResult
      [{ type := .unsupported_vendor,
         message := "No importer profile found for " ++ vendorStr detection.suggestedVendor }], db)
  | some importerProfile => do
  -- Step 3: parse content
  let content := fileContentStr env file
  if detection.fileType = .xml ∧ detection.suggestedVendor = .apple_health then
    -- Apple Health XML path
    let fileHash := env.sha256 content
    let sourceId := env.newSourceId
    let appleResult ← throwWith db (env.parseAppleHealthXML content sourceId userId)
    let validatedSessions := appleResult.sleepSessions.map validateSession
    let dedupResult := deduplicateSessions db.sleepSessions validatedSessions userId
    let source : Source :=
      { id := sourceId, userId := userId, vendor := .apple_health,
        fileName := file.name, fileHash := fileHash, fileSizeBytes := file.size,
        importedAt := env.now, importerProfileId := APPLE_HEALTH_PROFILE.id,
        recordCounts :=
          { sleepSessions := dedupResult.sessions.length
            workoutSessions := appleResult.workoutSessions.length
            dailyMetrics := appleResult.dailyMetrics.length
            timeSeries := 0 } }
    let db := { db with sources := upsertBy (·.id) db.sources source }
    let db := if dedupResult.sessions.length > 0 then
        { db with sleepSessions := putManyBy (·.id) db.sleepSessions dedupResult.sessions }
      else db
    let db := if appleResult.workoutSessions.length > 0 then
        { db with workoutSessions := putManyBy (·.id) db.workoutSessions appleResult.workoutSessions }
      else db
    let db := if appleResult.dailyMetrics.length > 0 then
        { db with dailyMetrics := putManyBy (·.id) db.dailyMetrics appleResult.dailyMetrics }
      else db
    let importWarnings : List ImportWarning :=
      [{ type := .duplicate
         message := "Found data from " ++ toString appleResult.sources.length ++
           " sources: " ++ String.intercalate ", " appleResult.sources
         recordIndex := none, field := none }] ++
      (if dedupResult.mergedCount > 0 then
        [{ type := .duplicate
           message := "Merged " ++ toString dedupResult.mergedCount ++
             " sessions with existing data"
           recordIndex := none, field := none }] else []) ++
      (if dedupResult.skippedCount > 0 then
        [{ type := .duplicate
           message := "Skipped " ++ toString dedupResult.skippedCount ++
             " duplicate sessions (existing data was more complete)"
           recordIndex := none, field := none }] else [])
    return ({ success := true, sourceId := sourceId, vendor := .apple_health,
              recordCounts := source.recordCounts,
              warnings := importWarnings, errors := [],
              qualitySummary :=
                { good := dedupResult.sessions.length
                  warning := dedupResult.mergedCount
                  bad := dedupResult.skippedCount } }, db)
  else do
  let parsedData? : Option (ParsedData ⊕ (ImportResult × Database)) :=
    if detection.fileType = .json then
      match env.jsonParse content with
      | none => some (.inr (createErrorResult
          [{ type := .parse_error, message := "Invalid JSON format" }], db))
      | some parsed => some (.inl (.json parsed))
    else if detection.fileType = .csv then
      some (.inl (.csv (parseCsv content)))
    else
      some (.inr (createErrorResult
        [{ type := .unsupported_vendor,
           message := "File type " ++ fileTypeStr detection.fileType ++
             " not yet supported" }], db))
  match parsedData? with
  | some (.inr earlyReturn) => return earlyReturn
  | none => return (createErrorResult [], db)  -- unreachable
  | some (.inl parsedData) => do
  -- Pre-parsed Apple Health JSON path
  match parsedData with
  | .json parsed =>
    if detection.suggestedVendor = .apple_health ∧ isAppleHealthPreParsed parsed then do
      let data := env.decodePreParsed parsed
      let fileHash := env.sha256 content
      let sourceId :=
        match data.sourceId with
        | some s => if s ≠ "" then s else env.newSourceId
        | none => env.newSourceId
      let sleepSessions := data.sleepSessions.map
        (fun s => { s with sourceId := sourceId, userId := userId })
      let workoutSessions := data.workoutSessions.map
        (fun w => { w with sourceId := sourceId, userId := userId })
      let dailyMetrics := data.dailyMetrics.map
        (fun m => { m with sourceId := sourceId, userId := userId })
      let validatedSessions := sleepSessions.map validateSession
      let dedupResult := deduplicateSessions db.sleepSessions validatedSessions userId
      let source : Source :=
        { id := sourceId, userId := userId, vendor := .apple_health,
          fileName := file.name, fileHash := fileHash, fileSizeBytes := file.size,
          importedAt := env.now, importerProfileId := APPLE_HEALTH_PROFILE.id,
          recordCounts :=
            { sleepSessions := dedupResult.sessions.length
              workoutSessions := workoutSessions.length
              dailyMetrics := dailyMetrics.length
              timeSeries := 0 } }
      let db := { db with sources := upsertBy (·.id) db.sources source }
      let db := if dedupResult.sessions.length > 0 then
          { db with sleepSessions := putManyBy (·.id) db.sleepSessions dedupResult.sessions }
        else db
      let db := if workoutSessions.length > 0 then
          { db with workoutSessions := putManyBy (·.id) db.workoutSessions workoutSessions }
        else db
      let db := if dailyMetrics.length > 0 then
          { db with dailyMetrics := putManyBy (·.id) db.dailyMetrics dailyMetrics }
        else db
      let importWarnings : List ImportWarning :=
        [{ type := .duplicate
           message := "Imported data from " ++ toString data.sources.length ++
             " sources: " ++ String.intercalate ", " (data.sources.take 5) ++
             (if data.sources.length > 5 then "..." else "")
           recordIndex := none, field := none }] ++
        (if dedupResult.mergedCount > 0 then
          [{ type := .duplicate
             message := "Merged " ++ toString dedupResult.mergedCount ++
               " sessions with existing data"
             recordIndex := none, field := none }] else []) ++
        (if dedupResult.skippedCount > 0 then
          [{ type := .duplicate
             message := "Skipped " ++ toString dedupResult.skippedCount ++
               " duplicate sessions"
             recordIndex := none, field := none }] else [])
      return ({ success := true, sourceId := sourceId, vendor := .apple_health,
                recordCounts := source.recordCounts,
                warnings := importWarnings, errors := [],
                qualitySummary :=
                  { good := dedupResult.sessions.length
                    warning := dedupResult.mergedCount
                    bad := dedupResult.skippedCount } }, db)
    else
      importFileGenericTail env db file userId importerProfile detection parsedData content
  | .csv _ =>
    importFileGenericTail env db file userId importerProfile detection parsedData content

/-- `importFile` from pipeline.ts: the body's result, with any escaping
exception caught and converted to a typed `storage_error` failure result;
the database stays in the state it had when the exception was thrown. -/
def importFile (env : ImportEnv) (db : Database) (file : ImportFile)
    (userId : String) (profile : Option ImporterProfile) : ImportResult × Database :=
  match importFileBody env db file userId profile with
  | .ok r => r
  | .error (e, dbAtThrow) =>
    (createErrorResult [{ type := .storage_error, message := e }], dbAtThrow)

/-- The validated, quality-flagged session list `importFile` builds in its
step 6 from a transform result. -/
def validatedFlagged (ts : TransformResult) : List SleepSession :=
  (ts.sleepSessions.map validateSession).map attachQualityFlags


/-- An all-empty session value, used as the base of the concrete sessions
appearing in witnesses and counterexamples. -/
def emptySession : SleepSession :=
  { id := "", userId := "", sourceId := "", date := "", startedAt := 0,
    endedAt := 0, durationSeconds := none, timeInBedSeconds := 0,
    deepSeconds := 0, remSeconds := 0, lightSeconds := 0, awakeSeconds := 0,
    sleepOnsetLatency := none, wakeAfterSleepOnset := none, efficiency := none,
    avgHeartRate := none, minHeartRate := none, maxHeartRate := none,
    avgHrv := none, avgRespiratoryRate := none, avgBedTempC := none,
    avgRoomTempC := none, dataQuality := defaultQualityFlags,
    vendorData := { source := none, mergedSources := [] } }

/-- Concrete sessions used by the C2 counterexample: a richer session with
an out-of-range efficiency and a zero (but defined) minimum heart rate, and
a sparser session carrying only a valid efficiency. -/
def sessionRichA : SleepSession :=
  { emptySession with
    durationSeconds := some 28800,
    efficiency := some 150,
    minHeartRate := some 0 }

def sessionSparseB : SleepSession :=
  { emptySession with efficiency := some 90 }

/-- A concrete stored session for user `"u"`, used in witnesses. -/
def sessionE : SleepSession :=
  { emptySession with
    id := "e1",
    userId := "u",
    date := "2024-01-01",
    durationSeconds := some 20000 }

/-- An empty database, used by witnesses. -/
def emptyDb : Database :=
  { sources := [], sleepSessions := [], workoutSessions := [], dailyMetrics := [],
    timeSeries := [] }

/-- A small CSV file whose first line has two commas, so `detectFileType`
classifies it as CSV. -/
def sampleCsvFile : ImportFile :=
  { name := "x.csv", size := 10, mime := "text/csv", content := .str "a,b,c\n1,2,3" }

def sampleWorkout : WorkoutSession :=
  { id := "w1", userId := "u", sourceId := "src1", date := "2024-01-01", payload := "p" }

/-- A concrete transform result standing for what the CSV transformer
produced from `sampleCsvFile`: one sleep session and one workout. -/
def sampleTransform : TransformResult :=
  { sleepSessions := [{ sessionE with id := "n1" }]
    workoutSessions := [sampleWorkout]
    timeSeries := []
    warnings := [] }

/-- A concrete environment for witnesses: the transformer returns
`sampleTransform`; ids and hashes are fixed strings. -/
def sampleEnv : ImportEnv :=
  { decode := fun _ => ""
    jsonParse := fun _ => none
    sha256 := fun _ => "H"
    now := "T"
    newSourceId := "src1"
    decodePreParsed := fun _ =>
      { sleepSessions := [], workoutSessions := [], dailyMetrics := [],
        sources := [], sourceId := none }
    transformData := fun _ _ _ _ => Except.ok sampleTransform
    parseAppleHealthXML := fun _ _ _ => Except.error "unsupported" }

def sampleWorkout2 : WorkoutSession := { sampleWorkout with id := "w2" }

/-- The transform result of a second run over the same file: the same data
under freshly generated ids. -/
def sampleTransform2 : TransformResult :=
  { sampleTransform with
    sleepSessions := [{ sessionE with id := "n2" }]
    workoutSessions := [sampleWorkout2] }

/-- The second run's environment: a fresh source id and the second run's
freshly-id'd transform result. -/
def sampleEnv2 : ImportEnv :=
  { sampleEnv with
    newSourceId := "src2"
    transformData := fun _ _ _ _ => Except.ok sampleTransform2 }


def sampleMetric : DailyMetric :=
  { id := "m1", userId := "u", sourceId := "src3", date := "2024-01-01",
    metricType := "steps", value := 1, unit := "count" }

/-- A concrete streaming-parser result for the Apple Health XML path. -/
def sampleAppleResult : AppleHealthImportResult :=
  { sleepSessions := []
    workoutSessions := [{ sampleWorkout with id := "w3" }]
    dailyMetrics := [sampleMetric]
    sources := ["Apple Watch"] }

/-- An XML file `detectFileType` classifies as Apple Health. -/
def appleXmlFile : ImportFile :=
  { name := "export.xml", size := 20, mime := "application/xml",
    content := .str "<HealthData></HealthData>" }

/-- An environment whose streaming XML parser returns `sampleAppleResult`. -/
def sampleEnvA : ImportEnv :=
  { sampleEnv with
    newSourceId := "src3"
    parseAppleHealthXML := fun _ _ _ => Except.ok sampleAppleResult }

/-- A file holding malformed JSON: `JSON.parse` throws on it (the parse
oracle of `sampleEnv` returns `none`). -/
def jsonBadFile : ImportFile :=
  { name := "data.json", size := 5, mime := "application/json",
    content := .str "\x7boops" }

/-- The concrete Eight Sleep session of the end-to-end scenario: stages
deep 1800 / rem 900 / light 10800 / awake 300 starting at the unix time of
2024-03-01T23:00:00. -/
def scenarioBSession : EightSleepSession :=
  { ts := 1709334000
    stages := [⟨"deep", 1800⟩, ⟨"rem", 900⟩, ⟨"light", 10800⟩, ⟨"awake", 300⟩]
    timeseries := none }

-- ------------------------------------------------------------
-- Streaming Apple Health XML scanner
-- (scripts/importAppleHealthStream.ts, lines 360-417)
-- ------------------------------------------------------------

/-- The whitespace class `\s` restricted to the characters appearing in
health exports. -/
def isWS (c : Char) : Bool := c = ' ' || c = '\t' || c = '\n' || c = '\r'

def recordOpen : List Char := ['<', 'R', 'e', 'c', 'o', 'r', 'd']
def recordClose : List Char := ['<', '/', 'R', 'e', 'c', 'o', 'r', 'd', '>']
def workoutOpen : List Char := ['<', 'W', 'o', 'r', 'k', 'o', 'u', 't']
def workoutClose : List Char := ['<', '/', 'W', 'o', 'r', 'k', 'o', 'u', 't', '>']

/-- First index at which `pat` occurs (the lazy `[\s\S]*?` body search). -/
def findSub (pat : List Char) : List Char → Option ℕ
  | [] => if decide (pat <+: ([] : List Char)) then some 0 else none
  | c :: rest =>
    if decide (pat <+: (c :: rest)) then some 0
    else (findSub pat rest).map (· + 1)

/-- The backtracking loop of `([^>]+?)(?:\/>|>[\s\S]*?</C>)` after at least
one attribute character has been consumed: at each position the engine
first tries the `/>` terminator, then `>` followed by the lazy body up to
the closing tag, and otherwise extends the attribute capture with the next
non-`>` character.  Returns (attribute length so far, characters consumed
after the attributes) on success. -/
def attrsLoop (close : List Char) : List Char → ℕ → Option (ℕ × ℕ)
  | [], _ => none
  | c :: rest, count =>
    if c = '/' ∧ rest.head? = some '>' then some (count, 2)
    else if c = '>' then
      (findSub close rest).map (fun off => (count, 1 + off + close.length))
    else attrsLoop close rest (count + 1)

/-- One match attempt of `/<C\s+([^>]+?)(?:\/>|>[\s\S]*?<\/C>)/` at the
head of `s`: the literal opener, one or more whitespace characters, then
the attribute/terminator loop.  Returns (full match length, captured
attribute string). -/
def matchElemAt (opener close : List Char) (s : List Char) : Option (ℕ × List Char) :=
  if decide (opener <+: s) then
    let after := s.drop opener.length
    let ws := after.takeWhile isWS
    if ws = [] then none
    else
      match after.dropWhile isWS with
      | [] => none
      | c :: r2 =>
        if c = '>' then none
        else
          match attrsLoop close r2 1 with
          | some (count, extra) =>
            some (opener.length + ws.length + count + extra,
              (after.dropWhile isWS).take count)
          | none => none
  else none

/-- The `while ((match = regex.exec(buffer)) !== null)` loop: a failed
attempt advances one character; a match of length `len` records its
capture, suppresses attempts inside the matched span (`lastIndex`), and
updates the last-match-end offset. -/
def execScan (opener close : List Char) : List Char → ℕ → ℕ → ℕ → List (List Char) × ℕ
  | [], _, _, lastEnd => ([], lastEnd)
  | _ :: rest, pos, skip + 1, lastEnd => execScan opener close rest (pos + 1) skip lastEnd
  | c :: rest, pos, 0, lastEnd =>
    match matchElemAt opener close (c :: rest) with
    | some (len, attrs) =>
      let r := execScan opener close rest (pos + 1) (len - 1) (pos + len)
      (attrs :: r.1, r.2)
    | none => execScan opener close rest (pos + 1) 0 lastEnd

/-- All Record matches of a buffer with the end offset of the last one. -/
def recordScanB (s : List Char) : List (List Char) × ℕ :=
  execScan recordOpen recordClose s 0 0 0

def workoutScanB (s : List Char) : List (List Char) × ℕ :=
  execScan workoutOpen workoutClose s 0 0 0

/-- One iteration of the streaming loop: append the chunk, run both
regexes, then keep only the tail after
`Math.max(lastMatchEnd, buffer.length - 50000)`. -/
def streamStep (st : List (List Char) × List (List Char) × List Char)
    (chunk : List Char) : List (List Char) × List (List Char) × List Char :=
  let buffer := st.2.2 ++ chunk
  let r := recordScanB buffer
  let w := workoutScanB buffer
  let lastMatchEnd := max r.2 w.2
  let safePoint := max lastMatchEnd (buffer.length - 50000)
  (st.1 ++ r.1, st.2.1 ++ w.1, buffer.drop safePoint)

/-- The streaming parse: fold the chunk loop, then scan the remaining
buffer once more (the post-loop pass of the script).  Returns the Record
and Workout attribute strings in extraction order; every downstream count
and field of the import result is a function of these. -/
def streamParse (chunks : List (List Char)) : List (List Char) × List (List Char) :=
  let final := chunks.foldl streamStep ([], [], [])
  (final.1 ++ (recordScanB final.2.2).1, final.2.1 ++ (workoutScanB final.2.2).1)

/-- A well-formed self-closing element `<Record attrs/>` or
`<Workout attrs/>`. -/
structure XmlElem where
  isRecord : Bool
  attrs : List Char
deriving Repr, DecidableEq

def elemChars (e : XmlElem) : List Char :=
  (if e.isRecord then recordOpen else workoutOpen) ++ ' ' :: e.attrs ++ ['/', '>']

def concatElems (es : List XmlElem) : List Char := (es.map elemChars).flatten

/-- Attribute strings of well-formed exports: non-empty, not starting
with whitespace, and free of the structural characters. -/
def goodAttrs (a : List Char) : Prop :=
  a ≠ [] ∧ (∀ c ∈ a.take 1, isWS c = false) ∧
    ∀ c ∈ a, c ≠ '<' ∧ c ≠ '>' ∧ c ≠ '/'

instance (a : List Char) : Decidable (goodAttrs a) :=
  inferInstanceAs (Decidable (_ ∧ _ ∧ _))

/-- The two chunks of the oversized-record scenario: a single Record
element of 50110 characters cut 50060 characters in (inside its attribute
list). -/
def bigRecordChunk1 : List Char := recordOpen ++ ' ' :: List.replicate 50052 'a'

def bigRecordChunk2 : List Char := List.replicate 48 'a' ++ ['/', '>']

/-- End offset of the last element of a given kind in an element list laid
out from `pos`, starting from a prior last-match offset. -/
def lastEndElems (isRec : Bool) : List XmlElem → ℕ → ℕ → ℕ
  | [], _, lastEnd => lastEnd
  | e :: es, pos, lastEnd =>
    lastEndElems isRec es (pos + (elemChars e).length)
      (if e.isRecord = isRec then pos + (elemChars e).length else lastEnd)

-- ============================================================
-- THEOREMS
-- ============================================================

theorem sorted_replicate (n : ℕ) (c : ℚ) :
    List.Sorted (· ≤ ·) (List.replicate n c) := by
  induction n with
  | zero => simp
  | succ k ih =>
    rw [List.replicate_succ, List.sorted_cons]
    exact ⟨fun b hb => le_of_eq (List.eq_of_mem_replicate hb).symm, ih⟩

theorem getD_replicate_of_lt {n i : ℕ} {c d : ℚ} (h : i < n) :
    (List.replicate n c).getD i d = c := by
  induction n generalizing i with
  | zero => omega
  | succ k ih =>
    rw [List.replicate_succ]
    cases i with
    | zero => rfl
    | succ j => exact ih (by omega)

theorem median_replicate (n : ℕ) (c : ℚ) (h : 0 < n) :
    median (List.replicate n c) = c := by
  simp only [median, List.length_replicate]
  rw [if_neg (by omega)]
  rw [(sorted_replicate n c).insertionSort_eq]
  simp only [List.length_replicate]
  rcases Nat.mod_two_eq_zero_or_one n with he | ho
  · rw [if_neg (by omega)]
    have h1 : n / 2 < n := Nat.div_lt_self h (by norm_num)
    have h2 : n / 2 - 1 < n := by omega
    rw [getD_replicate_of_lt h1, getD_replicate_of_lt h2]
    ring
  · rw [if_pos (by omega)]
    exact getD_replicate_of_lt (Nat.div_lt_self h (by norm_num))

theorem mad_replicate (n : ℕ) (c : ℚ) (h : 0 < n) :
    medianAbsoluteDeviation (List.replicate n c) = 0 := by
  simp only [medianAbsoluteDeviation, List.length_replicate]
  rw [if_neg (by omega)]
  rw [median_replicate n c h, List.map_replicate]
  simpa using median_replicate n 0 h

theorem insertionSort_append_top (xs : List ℚ) (M : ℚ) (hM : ∀ x ∈ xs, x ≤ M) :
    (xs ++ [M]).insertionSort (· ≤ ·) = xs.insertionSort (· ≤ ·) ++ [M] := by
  have hperm : List.Perm ((xs ++ [M]).insertionSort (· ≤ ·)) (xs.insertionSort (· ≤ ·) ++ [M]) :=
    (List.perm_insertionSort _ _).trans
      ((List.perm_insertionSort _ xs).symm.append_right [M])
  have hs2 : List.Sorted (· ≤ ·) (xs.insertionSort (· ≤ ·) ++ [M]) := by
    rw [List.Sorted, List.pairwise_append]
    refine ⟨List.sorted_insertionSort _ xs, List.sorted_singleton M, ?_⟩
    intro a ha b hb
    rw [List.mem_singleton] at hb
    subst hb
    exact hM a ((List.mem_insertionSort _).1 ha)
  exact List.eq_of_perm_of_sorted hperm (List.sorted_insertionSort _ _) hs2

theorem median_append_top (xs : List ℚ) (M : ℚ) (h2 : 2 ≤ xs.length)
    (hM : ∀ x ∈ xs, x ≤ M) :
    median (xs ++ [M]) =
      (if (xs.length + 1) % 2 ≠ 0 then
        (xs.insertionSort (· ≤ ·)).getD ((xs.length + 1) / 2) 0
      else
        ((xs.insertionSort (· ≤ ·)).getD ((xs.length + 1) / 2 - 1) 0 +
         (xs.insertionSort (· ≤ ·)).getD ((xs.length + 1) / 2) 0) / 2) := by
  have hslen : (xs.insertionSort (· ≤ ·)).length = xs.length :=
    List.length_insertionSort _ _
  simp only [median, insertionSort_append_top xs M hM, List.length_append,
    List.length_singleton, hslen]
  rw [if_neg (by omega)]
  have hmid : (xs.length + 1) / 2 < (xs.insertionSort (· ≤ ·)).length := by
    rw [hslen]; omega
  have hmid1 : (xs.length + 1) / 2 - 1 < (xs.insertionSort (· ≤ ·)).length := by
    rw [hslen]; omega
  rw [List.getD_append _ _ _ _ hmid, List.getD_append _ _ _ _ hmid1]

/-- C10: the exported statistics primitives are total on empty input —
`median`, `medianAbsoluteDeviation` and `percentile` return 0 on the empty
list, and `calculateBaseline` on an empty sample returns the all-zero
baseline with `sampleSize = 0` and `excludedCount = 0`; no exception,
division by zero or NaN is produced (all operations are total rational
arithmetic). -/
theorem stats_total_on_empty_inputs :
    median [] = 0 ∧ medianAbsoluteDeviation [] = 0 ∧
    (∀ p : ℚ, percentile [] p = 0) ∧
    (∀ (sqrt : ℚ → ℚ) (metric : String) (eo : Bool) (t : ℚ),
      calculateBaseline sqrt [] metric eo t =
        { metric := metric, median := 0, mad := 0, mean := 0, stdDev := 0,
          low := 0, high := 0, p25 := 0, p75 := 0,
          sampleSize := 0, excludedCount := 0 }) :=
  ⟨rfl, rfl, fun _ => rfl, fun _ _ _ _ => rfl⟩

/-- C5: `robustZScore` equals `(value − median) / (mad / 0.6745)` whenever
`mad ≠ 0` and is defined as `0` when `mad = 0`; a constant sample has MAD 0
and robust z-score 0 for every value; the median of a sample with one
injected upper outlier does not depend on the outlier's magnitude (only on
its rank), while the mean shifts proportionally to it. -/
theorem robust_stats_properties :
    (∀ value med mad : ℚ, mad ≠ 0 →
       robustZScore value med mad = (value - med) / (mad / (6745 / 10000))) ∧
    (∀ value med : ℚ, robustZScore value med 0 = 0) ∧
    (∀ (n : ℕ) (c : ℚ), 0 < n →
       medianAbsoluteDeviation (List.replicate n c) = 0 ∧
       ∀ v : ℚ, robustZScore v (median (List.replicate n c))
         (medianAbsoluteDeviation (List.replicate n c)) = 0) ∧
    (∀ (xs : List ℚ) (M₁ M₂ : ℚ), 2 ≤ xs.length →
       (∀ x ∈ xs, x < M₁) → (∀ x ∈ xs, x < M₂) →
       median (xs ++ [M₁]) = median (xs ++ [M₂])) ∧
    (∀ (xs : List ℚ) (M₁ M₂ : ℚ),
       listMean (xs ++ [M₁]) - listMean (xs ++ [M₂]) =
         (M₁ - M₂) / ((xs.length : ℚ) + 1)) := by
  refine ⟨?_, ?_, ?_, ?_, ?_⟩
  · intro value med mad h
    simp [robustZScore, h]
  · intro value med
    simp [robustZScore]
  · intro n c h
    refine ⟨mad_replicate n c h, fun v => ?_⟩
    rw [mad_replicate n c h]
    simp [robustZScore]
  · intro xs M₁ M₂ h2 h₁ h₂
    rw [median_append_top xs M₁ h2 (fun x hx => le_of_lt (h₁ x hx)),
        median_append_top xs M₂ h2 (fun x hx => le_of_lt (h₂ x hx))]
  · intro xs M₁ M₂
    have key : ∀ M : ℚ, listMean (xs ++ [M]) =
        (xs.foldl (· + ·) 0 + M) / ((xs.length : ℚ) + 1) := by
      intro M
      simp only [listMean, List.foldl_append, List.foldl_cons, List.foldl_nil,
        List.length_append, List.length_singleton]
      push_cast
      ring_nf
    rw [key M₁, key M₂, div_sub_div_same]
    congr 1
    ring

/-- Concrete instantiation of `robust_stats_properties`. -/
theorem robust_stats_properties_witness :
    robustZScore 10 2 4 = (10 - 2) / (4 / (6745 / 10000)) ∧
    medianAbsoluteDeviation (List.replicate 3 (5 : ℚ)) = 0 ∧
    median ([(1 : ℚ), 2, 3] ++ [100]) = median ([(1 : ℚ), 2, 3] ++ [1000]) := by
  refine ⟨robust_stats_properties.1 10 2 4 (by norm_num),
          (robust_stats_properties.2.2.1 3 5 (by norm_num)).1,
          robust_stats_properties.2.2.2.1 [1, 2, 3] 100 1000 (by norm_num)
            ?_ ?_⟩
  · intro x hx
    fin_cases hx <;> norm_num
  · intro x hx
    fin_cases hx <;> norm_num

-- C4 helper lemmas

theorem csq_overallQuality_spec (s : SleepSession) (b : Option Baseline) (t : ℚ) :
    (checkSleepSessionQuality s b t).overallQuality =
      (if (sessionHardLimitViolations s).length > 0 then .bad
       else if (sessionOutlierFields s b t).length ≥ 2 then .warning
       else if (sessionOutlierFields s b t).length = 1 ∨
               ¬((sessionMissingFields s).length = 0) then .warning
       else .good) := rfl

theorem csq_suggestedAction_spec (s : SleepSession) (b : Option Baseline) (t : ℚ) :
    (checkSleepSessionQuality s b t).suggestedAction =
      (if (sessionHardLimitViolations s).length > 0 then .exclude_from_baseline
       else if (sessionOutlierFields s b t).length ≥ 2 then .flag_for_review
       else .include_) := rfl

theorem quality_decision_cases (H : List HardLimitViolation) (O M : List String)
    (q : Quality) (a : SuggestedAction)
    (hq : q = if H.length > 0 then .bad else if O.length ≥ 2 then .warning
          else if O.length = 1 ∨ ¬(M.length = 0) then .warning else .good)
    (ha : a = if H.length > 0 then .exclude_from_baseline
          else if O.length ≥ 2 then .flag_for_review else .include_) :
    ((q = .bad ∧ a = .exclude_from_baseline) ↔ H ≠ []) ∧
    (H = [] → 2 ≤ O.length → q = .warning ∧ a = .flag_for_review) ∧
    (H = [] → O.length < 2 → (O.length = 1 ∨ M ≠ []) → q = .warning ∧ a = .include_) ∧
    (H = [] → O = [] → M = [] → q = .good ∧ a = .include_) := by
  subst hq ha
  rcases H with _ | ⟨v, H⟩
  · simp only [List.length_nil, gt_iff_lt, lt_self_iff_false, if_false, ne_eq,
      not_true_eq_false, iff_false, not_and]
    by_cases h2 : 2 ≤ O.length
    · rw [if_pos h2, if_pos h2]
      refine ⟨by simp, fun _ _ => ⟨rfl, rfl⟩, fun _ hlt _ => absurd h2 (by omega), ?_⟩
      intro _ hO _
      subst hO
      simp at h2
    · rw [if_neg h2, if_neg h2]
      refine ⟨?_, fun _ h => absurd h h2, ?_, ?_⟩
      · split <;> simp
      · intro _ _ hone
        rw [if_pos ?_]
        · exact ⟨rfl, rfl⟩
        · rcases hone with h1 | hm
          · exact Or.inl h1
          · exact Or.inr (by simpa using hm)
      · intro _ hO hM
        subst hO hM
        simp
  · simp [List.length_cons]

theorem qcStep_len_mono (acc : List HardLimitViolation × List String) (c : QCheck) :
    acc.1.length ≤ (qcStep acc c).1.length := by
  unfold qcStep
  rcases hv : c.value with _ | v
  · dsimp
    split <;> simp
  · dsimp
    rcases h : checkHardLimits (some v) c.field c.limitKey with _ | viol <;> simp [h]

theorem qcFold_len_mono (l : List QCheck) (acc : List HardLimitViolation × List String) :
    acc.1.length ≤ (l.foldl qcStep acc).1.length := by
  induction l generalizing acc with
  | nil => simp
  | cons c l ih => exact le_trans (qcStep_len_mono acc c) (ih _)

theorem sessionHardLimitViolations_hrv400 (s : SleepSession) (h : s.avgHrv = some 400) :
    sessionHardLimitViolations s ≠ [] := by
  have key : 1 ≤ ((qualityChecks s).foldl qcStep ([], [])).1.length := by
    have hsplit : qualityChecks s =
        [⟨s.minHeartRate, "minHeartRate", .minHeartRate, false⟩,
         ⟨s.avgHeartRate, "avgHeartRate", .heartRate, false⟩,
         ⟨s.maxHeartRate, "maxHeartRate", .maxHeartRate, false⟩] ++
        ⟨s.avgHrv, "avgHrv", .hrv, false⟩ ::
        [⟨s.avgRespiratoryRate, "avgRespiratoryRate", .respiratoryRate, false⟩,
         ⟨s.durationSeconds, "durationSeconds", .sleepDuration, true⟩,
         ⟨s.avgBedTempC, "avgBedTempC", .bodyTemp, false⟩,
         ⟨s.avgRoomTempC, "avgRoomTempC", .roomTemp, false⟩] := rfl
    rw [hsplit, List.foldl_append, List.foldl_cons]
    refine le_trans ?_ (qcFold_len_mono _ _)
    rw [h]
    set X3 := List.foldl qcStep ([], [])
      [⟨s.minHeartRate, "minHeartRate", .minHeartRate, false⟩,
       ⟨s.avgHeartRate, "avgHeartRate", .heartRate, false⟩,
       ⟨s.maxHeartRate, "maxHeartRate", .maxHeartRate, false⟩]
    have hc4 : qcStep X3 ⟨some 400, "avgHrv", .hrv, false⟩ =
        (X3.1 ++ [⟨"avgHrv", 400, ⟨5, 300⟩, .above_max⟩], X3.2) := by
      simp [qcStep, checkHardLimits, HARD_LIMITS]
      norm_num
    rw [hc4]
    simp
  apply List.ne_nil_of_length_pos
  unfold sessionHardLimitViolations
  dsimp only
  split
  · split <;> (try split) <;>
      (try simp only [List.length_append, List.length_cons, List.length_nil]) <;> omega
  · omega

/-- C4: `checkSleepSessionQuality` returns `bad`/`exclude_from_baseline`
exactly when a hard-limit violation exists; with no hard violation, two or
more outlier fields give `warning`/`flag_for_review`, exactly one outlier
field or a missing required field gives `warning`/`include`, and otherwise
the session is `good`/`include`.  A session with `avgHrv = 400` is always
`bad`/`exclude_from_baseline`, baseline or not. -/
theorem quality_decision_policy (s : SleepSession) (b : Option Baseline) (t : ℚ) :
    (((checkSleepSessionQuality s b t).overallQuality = .bad ∧
      (checkSleepSessionQuality s b t).suggestedAction = .exclude_from_baseline) ↔
     (checkSleepSessionQuality s b t).hardLimitViolations ≠ []) ∧
    ((checkSleepSessionQuality s b t).hardLimitViolations = [] →
      2 ≤ (checkSleepSessionQuality s b t).outlierFields.length →
      (checkSleepSessionQuality s b t).overallQuality = .warning ∧
      (checkSleepSessionQuality s b t).suggestedAction = .flag_for_review) ∧
    ((checkSleepSessionQuality s b t).hardLimitViolations = [] →
      (checkSleepSessionQuality s b t).outlierFields.length < 2 →
      ((checkSleepSessionQuality s b t).outlierFields.length = 1 ∨
       (checkSleepSessionQuality s b t).missingFields ≠ []) →
      (checkSleepSessionQuality s b t).overallQuality = .warning ∧
      (checkSleepSessionQuality s b t).suggestedAction = .include_) ∧
    ((checkSleepSessionQuality s b t).hardLimitViolations = [] →
      (checkSleepSessionQuality s b t).outlierFields = [] →
      (checkSleepSessionQuality s b t).missingFields = [] →
      (checkSleepSessionQuality s b t).overallQuality = .good ∧
      (checkSleepSessionQuality s b t).suggestedAction = .include_) ∧
    (s.avgHrv = some 400 →
      (checkSleepSessionQuality s b t).overallQuality = .bad ∧
      (checkSleepSessionQuality s b t).suggestedAction = .exclude_from_baseline) := by
  have main := quality_decision_cases (sessionHardLimitViolations s)
    (sessionOutlierFields s b t) (sessionMissingFields s)
    (checkSleepSessionQuality s b t).overallQuality
    (checkSleepSessionQuality s b t).suggestedAction
    (csq_overallQuality_spec s b t) (csq_suggestedAction_spec s b t)
  refine ⟨main.1, main.2.1, main.2.2.1, main.2.2.2, fun h400 => ?_⟩
  exact main.1.2 (sessionHardLimitViolations_hrv400 s h400)

/-- Concrete instantiation of `quality_decision_policy`: an otherwise-empty
session with `avgHrv = 400` is classified `bad`/`exclude_from_baseline`. -/
theorem quality_decision_policy_witness :
    (checkSleepSessionQuality { emptySession with avgHrv := some 400 }
      none (35 / 10)).overallQuality = .bad ∧
    (checkSleepSessionQuality { emptySession with avgHrv := some 400 }
      none (35 / 10)).suggestedAction = .exclude_from_baseline :=
  (quality_decision_policy { emptySession with avgHrv := some 400 }
    none (35 / 10)).2.2.2.2 rfl

-- C2 helper lemmas

theorem jsOr_of_ne {b s : ℚ} (h : b ≠ 0) : jsOr b s = b := if_pos h

theorem jsOr_of_eq {b s : ℚ} (h : b = 0) : jsOr b s = s := by
  simp [jsOr, h]

theorem jsOrOpt_of_some_ne {b : ℚ} {s : Option ℚ} (h : b ≠ 0) :
    jsOrOpt (some b) s = some b := by
  simp [jsOrOpt, h]

/-- C2 is false as stated: `mergeSessions` can overwrite a present value of
the base.  With base efficiency `150` (present but invalid) and supplement
efficiency `90` the merge result carries `90`, and a base `minHeartRate` of
`0` (non-null) is cleared to `undefined` when the supplement lacks the
field. -/
theorem mergeSessions_claim_counterexample :
    getSessionCompleteness sessionSparseB ≤ getSessionCompleteness sessionRichA ∧
    sessionRichA.efficiency = some 150 ∧
    (mergeSessions sessionRichA sessionSparseB).efficiency = some 90 ∧
    sessionRichA.minHeartRate = some 0 ∧
    (mergeSessions sessionRichA sessionSparseB).minHeartRate = none := by
  refine ⟨by decide, rfl, ?_, rfl, ?_⟩ <;> rfl

/-- C2 (amended): `mergeSessions` uses the higher-scored session as the base
(the first argument on ties); every non-filled field comes from the base; a
base field that holds data (non-zero — for efficiency additionally `≤ 100`,
for the temperatures merely defined) is never overwritten, and missing base
fields are filled from the supplement; an invalid base efficiency is
replaced by the supplement's valid efficiency when available, else kept;
the truthy `vendorData.source` values of the two sessions are recorded in
`mergedSources` (an undefined or empty-string source is dropped, and every
recorded source is non-empty). -/
theorem mergeSessions_amended (existing incoming : SleepSession) :
    ((mergeSessions existing incoming).id = (mergeBase existing incoming).id ∧
     (mergeSessions existing incoming).userId = (mergeBase existing incoming).userId ∧
     (mergeSessions existing incoming).date = (mergeBase existing incoming).date ∧
     (mergeSessions existing incoming).startedAt = (mergeBase existing incoming).startedAt ∧
     (mergeSessions existing incoming).endedAt = (mergeBase existing incoming).endedAt ∧
     (mergeSessions existing incoming).durationSeconds =
       (mergeBase existing incoming).durationSeconds ∧
     (mergeSessions existing incoming).timeInBedSeconds =
       (mergeBase existing incoming).timeInBedSeconds) ∧
    (((mergeBase existing incoming).deepSeconds ≠ 0 →
       (mergeSessions existing incoming).deepSeconds =
         (mergeBase existing incoming).deepSeconds) ∧
     ((mergeBase existing incoming).deepSeconds = 0 →
       (mergeSessions existing incoming).deepSeconds =
         (mergeSupplement existing incoming).deepSeconds) ∧
     ((mergeBase existing incoming).remSeconds ≠ 0 →
       (mergeSessions existing incoming).remSeconds =
         (mergeBase existing incoming).remSeconds) ∧
     ((mergeBase existing incoming).remSeconds = 0 →
       (mergeSessions existing incoming).remSeconds =
         (mergeSupplement existing incoming).remSeconds) ∧
     ((mergeBase existing incoming).lightSeconds ≠ 0 →
       (mergeSessions existing incoming).lightSeconds =
         (mergeBase existing incoming).lightSeconds) ∧
     ((mergeBase existing incoming).lightSeconds = 0 →
       (mergeSessions existing incoming).lightSeconds =
         (mergeSupplement existing incoming).lightSeconds) ∧
     ((mergeBase existing incoming).awakeSeconds ≠ 0 →
       (mergeSessions existing incoming).awakeSeconds =
         (mergeBase existing incoming).awakeSeconds) ∧
     ((mergeBase existing incoming).awakeSeconds = 0 →
       (mergeSessions existing incoming).awakeSeconds =
         (mergeSupplement existing incoming).awakeSeconds)) ∧
    ((∀ v : ℚ, (mergeBase existing incoming).minHeartRate = some v → v ≠ 0 →
       (mergeSessions existing incoming).minHeartRate = some v) ∧
     (∀ v : ℚ, (mergeBase existing incoming).avgHeartRate = some v → v ≠ 0 →
       (mergeSessions existing incoming).avgHeartRate = some v) ∧
     (∀ v : ℚ, (mergeBase existing incoming).avgHrv = some v → v ≠ 0 →
       (mergeSessions existing incoming).avgHrv = some v) ∧
     (∀ v : ℚ, (mergeBase existing incoming).avgRespiratoryRate = some v → v ≠ 0 →
       (mergeSessions existing incoming).avgRespiratoryRate = some v) ∧
     ((mergeBase existing incoming).minHeartRate = none →
       (mergeSessions existing incoming).minHeartRate =
         (mergeSupplement existing incoming).minHeartRate) ∧
     ((mergeBase existing incoming).avgHeartRate = none →
       (mergeSessions existing incoming).avgHeartRate =
         (mergeSupplement existing incoming).avgHeartRate) ∧
     ((mergeBase existing incoming).avgHrv = none →
       (mergeSessions existing incoming).avgHrv =
         (mergeSupplement existing incoming).avgHrv) ∧
     ((mergeBase existing incoming).avgRespiratoryRate = none →
       (mergeSessions existing incoming).avgRespiratoryRate =
         (mergeSupplement existing incoming).avgRespiratoryRate)) ∧
    (((mergeBase existing incoming).avgBedTempC.isSome →
       (mergeSessions existing incoming).avgBedTempC =
         (mergeBase existing incoming).avgBedTempC) ∧
     ((mergeBase existing incoming).avgBedTempC = none →
       (mergeSessions existing incoming).avgBedTempC =
         (mergeSupplement existing incoming).avgBedTempC) ∧
     ((mergeBase existing incoming).avgRoomTempC.isSome →
       (mergeSessions existing incoming).avgRoomTempC =
         (mergeBase existing incoming).avgRoomTempC) ∧
     ((mergeBase existing incoming).avgRoomTempC = none →
       (mergeSessions existing incoming).avgRoomTempC =
         (mergeSupplement existing incoming).avgRoomTempC)) ∧
    ((optTruthyLe100 (mergeBase existing incoming).efficiency = true →
       (mergeSessions existing incoming).efficiency =
         (mergeBase existing incoming).efficiency) ∧
     (optTruthyLe100 (mergeBase existing incoming).efficiency = false →
       optTruthyLe100 (mergeSupplement existing incoming).efficiency = true →
       (mergeSessions existing incoming).efficiency =
         (mergeSupplement existing incoming).efficiency) ∧
     (optTruthyLe100 (mergeBase existing incoming).efficiency = false →
       optTruthyLe100 (mergeSupplement existing incoming).efficiency = false →
       (mergeSessions existing incoming).efficiency =
         (mergeBase existing incoming).efficiency)) ∧
    ((mergeSessions existing incoming).vendorData.mergedSources =
      [(mergeBase existing incoming).vendorData.source,
       (mergeSupplement existing incoming).vendorData.source].filterMap
        (fun o => match o with
          | some s => if s = "" then none else some s
          | none => none) ∧
     ∀ s ∈ (mergeSessions existing incoming).vendorData.mergedSources, s ≠ "") := by
  have heq : (mergeSessions existing incoming).vendorData.mergedSources =
      [(mergeBase existing incoming).vendorData.source,
       (mergeSupplement existing incoming).vendorData.source].filterMap
        (fun o => match o with
          | some s => if s = "" then none else some s
          | none => none) := rfl
  have hmem : ∀ s ∈ (mergeSessions existing incoming).vendorData.mergedSources, s ≠ "" := by
    intro s hs
    rw [heq] at hs
    obtain ⟨o, ho, hfo⟩ := List.mem_filterMap.1 hs
    rcases o with _ | t
    · exact Option.noConfusion hfo
    · dsimp only at hfo
      by_cases ht : t = ""
      · rw [if_pos ht] at hfo
        exact Option.noConfusion hfo
      · rw [if_neg ht] at hfo
        cases hfo
        exact ht
  refine ⟨⟨rfl, rfl, rfl, rfl, rfl, rfl, rfl⟩, ?_, ?_, ?_, ?_, heq, hmem⟩
  · exact ⟨fun h => jsOr_of_ne h, fun h => jsOr_of_eq h,
           fun h => jsOr_of_ne h, fun h => jsOr_of_eq h,
           fun h => jsOr_of_ne h, fun h => jsOr_of_eq h,
           fun h => jsOr_of_ne h, fun h => jsOr_of_eq h⟩
  · refine ⟨fun v hv hne => ?_, fun v hv hne => ?_, fun v hv hne => ?_,
            fun v hv hne => ?_, fun h => ?_, fun h => ?_, fun h => ?_, fun h => ?_⟩ <;>
      simp only [mergeSessions] <;>
      first
        | (rw [hv]; exact jsOrOpt_of_some_ne hne)
        | (rw [h]; rfl)
  · refine ⟨fun h => ?_, fun h => ?_, fun h => ?_, fun h => ?_⟩ <;>
      simp only [mergeSessions] <;>
      [skip; rw [h]; skip; rw [h]] <;>
      first
        | (obtain ⟨v, hv⟩ := Option.isSome_iff_exists.1 h; rw [hv]; rfl)
        | rfl
  · refine ⟨fun h => ?_, fun h1 h2 => ?_, fun h1 h2 => ?_⟩ <;>
      simp only [mergeSessions, mergeEfficiency] <;> simp [*]

/-- Concrete instantiation of `mergeSessions_amended`. -/
theorem mergeSessions_amended_witness :
    (mergeSessions sessionRichA sessionSparseB).durationSeconds =
      (mergeBase sessionRichA sessionSparseB).durationSeconds ∧
    (mergeSessions sessionRichA sessionSparseB).deepSeconds =
      (mergeSupplement sessionRichA sessionSparseB).deepSeconds ∧
    (mergeSessions sessionRichA sessionSparseB).efficiency =
      (mergeSupplement sessionRichA sessionSparseB).efficiency := by
  have h := mergeSessions_amended sessionRichA sessionSparseB
  exact ⟨h.1.2.2.2.2.2.1, h.2.1.2.1 (by decide), h.2.2.2.2.1.2.1 (by decide) (by decide)⟩

-- C1 helper lemmas: association-list maps and the dedup fold

theorem mapGet_mapSet_self (m : List (String × SleepSession)) (k : String)
    (v : SleepSession) : mapGet (mapSet m k v) k = some v := by
  induction m with
  | nil => simp [mapSet, mapGet, List.find?]
  | cons e m ih =>
    by_cases he : e.1 = k
    · simp [mapSet, he, mapGet, List.find?]
    · simp only [mapSet, if_neg he]
      simpa [mapGet, List.find?, he] using ih

theorem mapGet_mapSet_ne (m : List (String × SleepSession)) (k k' : String)
    (v : SleepSession) (h : k' ≠ k) : mapGet (mapSet m k v) k' = mapGet m k' := by
  induction m with
  | nil => simp [mapSet, mapGet, List.find?, Ne.symm h]
  | cons e m ih =>
    by_cases he : e.1 = k
    · subst he
      simp [mapSet, mapGet, List.find?, Ne.symm h]
    · simp only [mapSet, if_neg he]
      by_cases he' : e.1 = k'
      · simp [mapGet, List.find?, he']
      · simpa [mapGet, List.find?, he'] using ih

/-- The predicate counted as `mergedCount` by the dedup fold. -/
def dedupMergedPred (existingByDate : List (String × SleepSession))
    (entry : String × SleepSession) : Bool :=
  match mapGet existingByDate entry.1 with
  | some existing =>
    decide (getSessionCompleteness existing < getSessionCompleteness entry.2)
  | none => false

/-- The predicate counted as `skippedCount` by the dedup fold. -/
def dedupSkippedPred (existingByDate : List (String × SleepSession))
    (entry : String × SleepSession) : Bool :=
  match mapGet existingByDate entry.1 with
  | some existing =>
    decide (getSessionCompleteness entry.2 ≤ getSessionCompleteness existing)
  | none => false

theorem dedup_foldl_spec (ebd : List (String × SleepSession))
    (l : List (String × SleepSession)) (acc : DedupResult) :
    l.foldl (dedupStep ebd) acc =
      { sessions := acc.sessions ++ l.filterMap (dedupChoice ebd)
        mergedCount := acc.mergedCount + l.countP (dedupMergedPred ebd)
        skippedCount := acc.skippedCount + l.countP (dedupSkippedPred ebd) } := by
  induction l generalizing acc with
  | nil => simp
  | cons e l ih =>
    rw [List.foldl_cons, ih]
    rcases h : mapGet ebd e.1 with _ | ex
    · simp [dedupStep, dedupChoice, dedupMergedPred, dedupSkippedPred, h,
        List.countP_cons, List.filterMap_cons]
    · by_cases hc : getSessionCompleteness ex < getSessionCompleteness e.2
      · simp [dedupStep, dedupChoice, dedupMergedPred, dedupSkippedPred, h, hc,
          Nat.not_le_of_lt hc, List.countP_cons, List.filterMap_cons,
          Nat.add_assoc, Nat.add_comm 1]
      · simp [dedupStep, dedupChoice, dedupMergedPred, dedupSkippedPred, h, hc,
          Nat.le_of_not_lt hc, List.countP_cons, List.filterMap_cons,
          Nat.add_assoc, Nat.add_comm 1]

-- Characterization of the existingByDate map

theorem ebd_fold_spec (userId : String) (l : List SleepSession)
    (m : List (String × SleepSession)) (seen : List SleepSession)
    (hnone : ∀ d, mapGet m d = none ↔ ∀ s ∈ seen, ¬(s.userId = userId ∧ s.date = d))
    (hsome : ∀ d ex, mapGet m d = some ex → ex ∈ seen ∧ ex.userId = userId ∧
      ex.date = d ∧ ∀ s ∈ seen, s.userId = userId → s.date = d →
        getSessionCompleteness s ≤ getSessionCompleteness ex) :
    (∀ d, mapGet (l.foldl (existingByDateStep userId) m) d = none ↔
      ∀ s ∈ seen ++ l, ¬(s.userId = userId ∧ s.date = d)) ∧
    (∀ d ex, mapGet (l.foldl (existingByDateStep userId) m) d = some ex →
      ex ∈ seen ++ l ∧ ex.userId = userId ∧ ex.date = d ∧
      ∀ s ∈ seen ++ l, s.userId = userId → s.date = d →
        getSessionCompleteness s ≤ getSessionCompleteness ex) := by
  induction l generalizing m seen with
  | nil =>
    simp only [List.foldl_nil, List.append_nil]
    exact ⟨hnone, hsome⟩
  | cons c l ih =>
    rw [List.foldl_cons]
    have hm' : ∀ d, mapGet (existingByDateStep userId m c) d = none ↔
        ∀ s ∈ seen ++ [c], ¬(s.userId = userId ∧ s.date = d) := by
      intro d
      simp only [List.forall_mem_append, List.forall_mem_singleton]
      unfold existingByDateStep
      by_cases hu : c.userId = userId
      · rw [if_pos hu]
        rcases hm : mapGet m c.date with _ | ex0 <;> simp only [hm]
        · by_cases hd : d = c.date
          · subst hd
            rw [mapGet_mapSet_self]
            simp [hu]
          · rw [mapGet_mapSet_ne _ _ _ _ hd, hnone d]
            have : ¬(c.userId = userId ∧ c.date = d) := fun h => hd h.2.symm
            simp [this]
        · by_cases hcomp : getSessionCompleteness ex0 < getSessionCompleteness c
          · rw [if_pos hcomp]
            by_cases hd : d = c.date
            · subst hd
              rw [mapGet_mapSet_self]
              simp [hu]
            · rw [mapGet_mapSet_ne _ _ _ _ hd, hnone d]
              have : ¬(c.userId = userId ∧ c.date = d) := fun h => hd h.2.symm
              simp [this]
          · rw [if_neg hcomp]
            by_cases hd : d = c.date
            · subst hd
              rw [hm]
              simp [hu]
            · rw [hnone d]
              have : ¬(c.userId = userId ∧ c.date = d) := fun h => hd h.2.symm
              simp [this]
      · rw [if_neg hu, hnone d]
        have : ¬(c.userId = userId ∧ c.date = d) := fun h => hu h.1
        simp [this]
    have hs' : ∀ d ex, mapGet (existingByDateStep userId m c) d = some ex →
        ex ∈ seen ++ [c] ∧ ex.userId = userId ∧ ex.date = d ∧
        ∀ s ∈ seen ++ [c], s.userId = userId → s.date = d →
          getSessionCompleteness s ≤ getSessionCompleteness ex := by
      intro d ex hex
      have memc : c ∈ seen ++ [c] := List.mem_append.2 (Or.inr (List.mem_singleton.2 rfl))
      unfold existingByDateStep at hex
      by_cases hu : c.userId = userId
      · rw [if_pos hu] at hex
        rcases hm : mapGet m c.date with _ | ex0 <;> simp only [hm] at hex
        · by_cases hd : d = c.date
          · subst hd
            rw [mapGet_mapSet_self] at hex
            obtain rfl : c = ex := by injection hex
            refine ⟨memc, hu, rfl, ?_⟩
            intro s hs hsu hsd
            rcases List.mem_append.1 hs with hs | hs
            · exact absurd ⟨hsu, hsd⟩ (((hnone c.date).1 hm) s hs)
            · rw [List.mem_singleton] at hs
              subst hs
              exact le_refl _
          · rw [mapGet_mapSet_ne _ _ _ _ hd] at hex
            obtain ⟨hmem, hus, hdate, hmax⟩ := hsome d ex hex
            refine ⟨List.mem_append.2 (Or.inl hmem), hus, hdate, ?_⟩
            intro s hs hsu hsd
            rcases List.mem_append.1 hs with hs | hs
            · exact hmax s hs hsu hsd
            · rw [List.mem_singleton] at hs
              subst hs
              exact absurd hsd.symm hd
        · by_cases hcomp : getSessionCompleteness ex0 < getSessionCompleteness c
          · rw [if_pos hcomp] at hex
            by_cases hd : d = c.date
            · subst hd
              rw [mapGet_mapSet_self] at hex
              obtain rfl : c = ex := by injection hex
              obtain ⟨hmem0, hus0, hdate0, hmax0⟩ := hsome c.date ex0 hm
              refine ⟨memc, hu, rfl, ?_⟩
              intro s hs hsu hsd
              rcases List.mem_append.1 hs with hs | hs
              · exact le_trans (hmax0 s hs hsu hsd) (le_of_lt hcomp)
              · rw [List.mem_singleton] at hs
                subst hs
                exact le_refl _
            · rw [mapGet_mapSet_ne _ _ _ _ hd] at hex
              obtain ⟨hmem, hus, hdate, hmax⟩ := hsome d ex hex
              refine ⟨List.mem_append.2 (Or.inl hmem), hus, hdate, ?_⟩
              intro s hs hsu hsd
              rcases List.mem_append.1 hs with hs | hs
              · exact hmax s hs hsu hsd
              · rw [List.mem_singleton] at hs
                subst hs
                exact absurd hsd.symm hd
          · rw [if_neg hcomp] at hex
            obtain ⟨hmem, hus, hdate, hmax⟩ := hsome d ex hex
            refine ⟨List.mem_append.2 (Or.inl hmem), hus, hdate, ?_⟩
            intro s hs hsu hsd
            rcases List.mem_append.1 hs with hs | hs
            · exact hmax s hs hsu hsd
            · rw [List.mem_singleton] at hs
              subst hs
              have hde : ex0 = ex := by
                rw [hsd] at hm
                rw [hm] at hex
                injection hex
              subst hde
              exact Nat.le_of_not_lt hcomp
      · rw [if_neg hu] at hex
        obtain ⟨hmem, hus, hdate, hmax⟩ := hsome d ex hex
        refine ⟨List.mem_append.2 (Or.inl hmem), hus, hdate, ?_⟩
        intro s hs hsu hsd
        rcases List.mem_append.1 hs with hs | hs
        · exact hmax s hs hsu hsd
        · rw [List.mem_singleton] at hs
          subst hs
          exact absurd hsu hu
    have key := ih (existingByDateStep userId m c) (seen ++ [c]) hm' hs'
    rw [show (seen ++ [c]) ++ l = seen ++ c :: l by simp] at key
    exact key

theorem buildExistingByDate_none (l : List SleepSession) (userId : String) (d : String) :
    mapGet (buildExistingByDate l userId) d = none ↔
      ∀ s ∈ l, ¬(s.userId = userId ∧ s.date = d) := by
  have h := ebd_fold_spec userId l [] []
    (by intro d; simp [mapGet, List.find?]) (by intro d ex hex; simp [mapGet] at hex)
  simpa using h.1 d

theorem buildExistingByDate_some (l : List SleepSession) (userId : String) (d : String)
    (ex : SleepSession) (hex : mapGet (buildExistingByDate l userId) d = some ex) :
    ex ∈ l ∧ ex.userId = userId ∧ ex.date = d ∧
      ∀ s ∈ l, s.userId = userId → s.date = d →
        getSessionCompleteness s ≤ getSessionCompleteness ex := by
  have h := ebd_fold_spec userId l [] []
    (by intro d; simp [mapGet, List.find?]) (by intro d ex hex; simp [mapGet] at hex)
  simpa using h.2 d ex hex

/-- C1: per incoming date (after collapsing same-date incoming sessions),
`deduplicateSessions` emits the incoming session as a new record when no
stored session exists for that user and date; discards it (counted in
`skippedCount`) when a stored session scores greater than or equal, leaving
the stored session untouched; and emits the merge of the two carrying the
stored session's id (counted in `mergedCount`) when the incoming session
scores strictly higher. -/
theorem deduplicateSessions_spec (existingSessions sessions : List SleepSession)
    (userId : String) :
    (deduplicateSessions existingSessions sessions userId).sessions =
      (collapseIncoming sessions).filterMap
        (dedupChoice (buildExistingByDate existingSessions userId)) ∧
    (deduplicateSessions existingSessions sessions userId).mergedCount =
      (collapseIncoming sessions).countP
        (dedupMergedPred (buildExistingByDate existingSessions userId)) ∧
    (deduplicateSessions existingSessions sessions userId).skippedCount =
      (collapseIncoming sessions).countP
        (dedupSkippedPred (buildExistingByDate existingSessions userId)) ∧
    (∀ ebd entry, mapGet ebd entry.1 = none →
       dedupChoice ebd entry = some entry.2) ∧
    (∀ ebd entry ex, mapGet ebd entry.1 = some ex →
       getSessionCompleteness ex < getSessionCompleteness entry.2 →
       dedupChoice ebd entry = some { mergeSessions ex entry.2 with id := ex.id }) ∧
    (∀ ebd entry ex, mapGet ebd entry.1 = some ex →
       getSessionCompleteness entry.2 ≤ getSessionCompleteness ex →
       dedupChoice ebd entry = none) ∧
    (∀ d, mapGet (buildExistingByDate existingSessions userId) d = none ↔
       ∀ s ∈ existingSessions, ¬(s.userId = userId ∧ s.date = d)) ∧
    (∀ d ex, mapGet (buildExistingByDate existingSessions userId) d = some ex →
       ex ∈ existingSessions ∧ ex.userId = userId ∧ ex.date = d ∧
       ∀ s ∈ existingSessions, s.userId = userId → s.date = d →
         getSessionCompleteness s ≤ getSessionCompleteness ex) := by
  have h := dedup_foldl_spec (buildExistingByDate existingSessions userId)
    (collapseIncoming sessions) ⟨[], 0, 0⟩
  refine ⟨?_, ?_, ?_, ?_, ?_, ?_, buildExistingByDate_none existingSessions userId,
    buildExistingByDate_some existingSessions userId⟩
  · show (List.foldl (dedupStep (buildExistingByDate existingSessions userId))
      ⟨[], 0, 0⟩ (collapseIncoming sessions)).sessions = _
    rw [h]
    simp
  · show (List.foldl (dedupStep (buildExistingByDate existingSessions userId))
      ⟨[], 0, 0⟩ (collapseIncoming sessions)).mergedCount = _
    rw [h]
    simp
  · show (List.foldl (dedupStep (buildExistingByDate existingSessions userId))
      ⟨[], 0, 0⟩ (collapseIncoming sessions)).skippedCount = _
    rw [h]
    simp
  · intro ebd entry hnone
    simp [dedupChoice, hnone]
  · intro ebd entry ex hsome hlt
    simp [dedupChoice, hsome, hlt]
  · intro ebd entry ex hsome hle
    simp [dedupChoice, hsome, Nat.not_lt_of_le hle]

/-- Concrete instantiation of `deduplicateSessions_spec`. -/
theorem deduplicateSessions_spec_witness :
    sessionE ∈ [sessionE] ∧ sessionE.userId = "u" ∧ sessionE.date = "2024-01-01" := by
  have h := (deduplicateSessions_spec [sessionE] [] "u").2.2.2.2.2.2.2
    "2024-01-01" sessionE (by rfl)
  exact ⟨h.1, h.2.1, h.2.2.1⟩

-- C3 helper lemmas: completeness scores are monotone under merging

theorem optPos_jsOrOpt (b s : Option ℚ) (h : optPos b = true) :
    optPos (jsOrOpt b s) = true := by
  rcases b with _ | v
  · simp [optPos] at h
  · simp only [optPos, decide_eq_true_eq] at h
    simp [jsOrOpt, ne_of_gt h, optPos, h]

theorem jsOr_pos (b s : ℚ) (h : 0 < b) : 0 < jsOr b s := by
  rw [jsOr_of_ne (ne_of_gt h)]
  exact h

theorem optPosLe100_mergeEfficiency (b s : Option ℚ) (h : optPosLe100 b = true) :
    optPosLe100 (mergeEfficiency b s) = true := by
  have ht : optTruthyLe100 b = true := by
    rcases b with _ | v
    · simp [optPosLe100] at h
    · simp only [optPosLe100, Bool.and_eq_true, decide_eq_true_eq] at h
      simp [optTruthyLe100, ne_of_gt h.1, h.2]
  unfold mergeEfficiency
  rw [if_pos ht]
  exact h

theorem isSome_orElse (b s : Option ℚ) (h : b.isSome = true) :
    (b.orElse (fun _ => s)).isSome = true := by
  rcases b with _ | v
  · simp at h
  · rfl

theorem score_merge_ge_base (e i : SleepSession) :
    getSessionCompleteness (mergeBase e i) ≤ getSessionCompleteness (mergeSessions e i) := by
  unfold getSessionCompleteness
  have hdur : (mergeSessions e i).durationSeconds = (mergeBase e i).durationSeconds := rfl
  have hdeep : (mergeSessions e i).deepSeconds =
    jsOr (mergeBase e i).deepSeconds (mergeSupplement e i).deepSeconds := rfl
  have hrem : (mergeSessions e i).remSeconds =
    jsOr (mergeBase e i).remSeconds (mergeSupplement e i).remSeconds := rfl
  have hlight : (mergeSessions e i).lightSeconds =
    jsOr (mergeBase e i).lightSeconds (mergeSupplement e i).lightSeconds := rfl
  have hawake : (mergeSessions e i).awakeSeconds =
    jsOr (mergeBase e i).awakeSeconds (mergeSupplement e i).awakeSeconds := rfl
  have hmin : (mergeSessions e i).minHeartRate =
    jsOrOpt (mergeBase e i).minHeartRate (mergeSupplement e i).minHeartRate := rfl
  have hhrv : (mergeSessions e i).avgHrv =
    jsOrOpt (mergeBase e i).avgHrv (mergeSupplement e i).avgHrv := rfl
  have heff : (mergeSessions e i).efficiency =
    mergeEfficiency (mergeBase e i).efficiency (mergeSupplement e i).efficiency := rfl
  have hrr : (mergeSessions e i).avgRespiratoryRate =
    jsOrOpt (mergeBase e i).avgRespiratoryRate (mergeSupplement e i).avgRespiratoryRate := rfl
  have hbed : (mergeSessions e i).avgBedTempC =
    (mergeBase e i).avgBedTempC.orElse (fun _ => (mergeSupplement e i).avgBedTempC) := rfl
  rw [hdur, hdeep, hrem, hlight, hawake, hmin, hhrv, heff, hrr, hbed]
  have comp : ∀ (P Q : Bool) (w : ℕ), (P = true → Q = true) →
      (if P then w else 0) ≤ (if Q then w else 0) := by
    intro P Q w h
    cases hp : P
    · simp
    · rw [h hp]
  have compQ : ∀ (P Q : Prop) [Decidable P] [Decidable Q] (w : ℕ), (P → Q) →
      (if P then w else 0) ≤ (if Q then w else 0) := by
    intro P Q _ _ w h
    by_cases hp : P
    · rw [if_pos hp, if_pos (h hp)]
    · rw [if_neg hp]
      exact Nat.zero_le _
  refine Nat.add_le_add (Nat.add_le_add (Nat.add_le_add (Nat.add_le_add
    (Nat.add_le_add (Nat.add_le_add (Nat.add_le_add (Nat.add_le_add
      (Nat.add_le_add ?_ ?_) ?_) ?_) ?_) ?_) ?_) ?_) ?_) ?_
  · exact le_refl _
  · exact compQ _ _ 5 (jsOr_pos _ _)
  · exact compQ _ _ 5 (jsOr_pos _ _)
  · exact compQ _ _ 5 (jsOr_pos _ _)
  · exact compQ _ _ 2 (jsOr_pos _ _)
  · exact comp _ _ 5 (optPos_jsOrOpt _ _)
  · exact comp _ _ 5 (optPos_jsOrOpt _ _)
  · exact comp _ _ 3 (optPosLe100_mergeEfficiency _ _)
  · exact comp _ _ 3 (optPos_jsOrOpt _ _)
  · exact comp _ _ 2 (isSome_orElse _ _)

theorem mergeBase_cases (e i : SleepSession) : mergeBase e i = e ∨ mergeBase e i = i := by
  unfold mergeBase
  split <;> simp

theorem score_mergeBase_ge (e i : SleepSession) :
    getSessionCompleteness e ≤ getSessionCompleteness (mergeBase e i) ∧
    getSessionCompleteness i ≤ getSessionCompleteness (mergeBase e i) := by
  unfold mergeBase
  by_cases h : getSessionCompleteness i ≤ getSessionCompleteness e
  · rw [if_pos h]
    exact ⟨le_refl _, h⟩
  · rw [if_neg h]
    exact ⟨le_of_not_le h, le_refl _⟩

theorem score_mergeSessions_ge (e i : SleepSession) :
    getSessionCompleteness e ≤ getSessionCompleteness (mergeSessions e i) ∧
    getSessionCompleteness i ≤ getSessionCompleteness (mergeSessions e i) :=
  ⟨le_trans (score_mergeBase_ge e i).1 (score_merge_ge_base e i),
   le_trans (score_mergeBase_ge e i).2 (score_merge_ge_base e i)⟩

theorem score_set_id (s : SleepSession) (newId : String) :
    getSessionCompleteness { s with id := newId } = getSessionCompleteness s := rfl

-- C3 helper lemmas: association-list and store membership

theorem mem_mapSet (m : List (String × SleepSession)) (k : String) (v : SleepSession)
    (e : String × SleepSession) (he : e ∈ mapSet m k v) : e = (k, v) ∨ e ∈ m := by
  induction m with
  | nil => simpa [mapSet] using he
  | cons c m ih =>
    by_cases hc : c.1 = k
    · rw [mapSet, if_pos hc] at he
      rcases List.mem_cons.1 he with h | h
      · exact Or.inl h
      · exact Or.inr (List.mem_cons.2 (Or.inr h))
    · rw [mapSet, if_neg hc] at he
      rcases List.mem_cons.1 he with h | h
      · exact Or.inr (List.mem_cons.2 (Or.inl h))
      · rcases ih h with h' | h'
        · exact Or.inl h'
        · exact Or.inr (List.mem_cons.2 (Or.inr h'))

theorem keys_mapSet_subset (m : List (String × SleepSession)) (k : String)
    (v : SleepSession) (x : String) (hx : x ∈ (mapSet m k v).map Prod.fst) :
    x ∈ m.map Prod.fst ∨ x = k := by
  obtain ⟨e, he, hex⟩ := List.mem_map.1 hx
  rcases mem_mapSet m k v e he with h | h
  · subst h
    exact Or.inr hex.symm
  · exact Or.inl (List.mem_map.2 ⟨e, h, hex⟩)

theorem nodup_keys_mapSet (m : List (String × SleepSession)) (k : String)
    (v : SleepSession) (h : (m.map Prod.fst).Nodup) :
    ((mapSet m k v).map Prod.fst).Nodup := by
  induction m with
  | nil => simp [mapSet]
  | cons c m ih =>
    rw [List.map_cons, List.nodup_cons] at h
    by_cases hc : c.1 = k
    · rw [mapSet, if_pos hc]
      rw [List.map_cons, List.nodup_cons]
      exact ⟨by rw [← hc]; exact h.1, h.2⟩
    · rw [mapSet, if_neg hc]
      rw [List.map_cons, List.nodup_cons]
      refine ⟨?_, ih h.2⟩
      intro hmem
      rcases keys_mapSet_subset m k v c.1 hmem with h' | h'
      · exact h.1 h'
      · exact hc h'

theorem mapGet_some_mem (m : List (String × SleepSession)) (k : String)
    (v : SleepSession) (h : mapGet m k = some v) : (k, v) ∈ m := by
  unfold mapGet at h
  rcases hf : m.find? (fun e => e.1 = k) with _ | e
  · rw [hf] at h
    exact Option.noConfusion h
  · rw [hf] at h
    simp only [Option.map_some'] at h
    have hp := List.find?_some hf
    have hm := List.mem_of_find?_eq_some hf
    simp only [decide_eq_true_eq] at hp
    injection h with h2
    have : e = (k, v) := by
      rcases e with ⟨k', v'⟩
      simp only at hp h2
      rw [hp, h2]
    rw [← this]
    exact hm

theorem mem_keys_of_mapGet_some (m : List (String × SleepSession)) (k : String)
    (v : SleepSession) (h : mapGet m k = some v) : k ∈ m.map Prod.fst :=
  List.mem_map.2 ⟨(k, v), mapGet_some_mem m k v h, rfl⟩

theorem mapGet_none_of_not_mem_keys (m : List (String × SleepSession)) (k : String)
    (h : k ∉ m.map Prod.fst) : mapGet m k = none := by
  rcases hf : mapGet m k with _ | v
  · rfl
  · exact absurd (mem_keys_of_mapGet_some m k v hf) h

-- Store upsert lemmas

theorem mem_upsertBy_self {α : Type} (key : α → String) (l : List α) (x : α) :
    x ∈ upsertBy key l x := by
  unfold upsertBy
  split
  · rename_i hany
    obtain ⟨y, hy, hky⟩ := List.any_eq_true.1 hany
    simp only [decide_eq_true_eq] at hky
    exact List.mem_map.2 ⟨y, hy, by rw [if_pos hky]⟩
  · exact List.mem_append.2 (Or.inr (List.mem_singleton.2 rfl))

theorem mem_upsertBy_of_key_ne {α : Type} (key : α → String) (l : List α) (x e : α)
    (hk : key x ≠ key e) (he : e ∈ l) : e ∈ upsertBy key l x := by
  unfold upsertBy
  split
  · refine List.mem_map.2 ⟨e, he, ?_⟩
    rw [if_neg (Ne.symm hk)]
  · exact List.mem_append.2 (Or.inl he)

theorem mem_putManyBy_of_key_ne {α : Type} (key : α → String) (l : List α)
    (xs : List α) (e : α) (hk : ∀ x ∈ xs, key x ≠ key e) (he : e ∈ l) :
    e ∈ putManyBy key l xs := by
  induction xs generalizing l with
  | nil => exact he
  | cons x xs ih =>
    have step : putManyBy key l (x :: xs) = putManyBy key (upsertBy key l x) xs := rfl
    rw [step]
    exact ih _ (fun y hy => hk y (List.mem_cons.2 (Or.inr hy)))
      (mem_upsertBy_of_key_ne key l x e (hk x (List.mem_cons.2 (Or.inl rfl))) he)

theorem mem_putManyBy_of_mem {α : Type} (key : α → String) (l : List α)
    (xs : List α) (x : α) (hx : x ∈ xs) (hnodup : (xs.map key).Nodup) :
    x ∈ putManyBy key l xs := by
  induction xs generalizing l with
  | nil => simp at hx
  | cons y xs ih =>
    rw [List.map_cons, List.nodup_cons] at hnodup
    have step : putManyBy key l (y :: xs) = putManyBy key (upsertBy key l y) xs := rfl
    rw [step]
    rcases List.mem_cons.1 hx with h | h
    · subst h
      apply mem_putManyBy_of_key_ne key _ xs x
      · intro z hz hkz
        exact hnodup.1 (hkz ▸ List.mem_map.2 ⟨z, hz, rfl⟩)
      · exact mem_upsertBy_self key l x
    · exact ih _ h hnodup.2

theorem putManyBy_append {α : Type} (key : α → String) (l : List α) (xs : List α)
    (hfresh : ∀ x ∈ xs, ∀ y ∈ l, key x ≠ key y)
    (hnodup : (xs.map key).Nodup) :
    putManyBy key l xs = l ++ xs := by
  induction xs generalizing l with
  | nil => simp [putManyBy]
  | cons x xs ih =>
    rw [List.map_cons, List.nodup_cons] at hnodup
    have step : putManyBy key l (x :: xs) = putManyBy key (upsertBy key l x) xs := rfl
    rw [step]
    have hx : upsertBy key l x = l ++ [x] := by
      unfold upsertBy
      rw [if_neg]
      intro hany
      obtain ⟨y, hy, hky⟩ := List.any_eq_true.1 hany
      simp only [decide_eq_true_eq] at hky
      exact hfresh x (List.mem_cons.2 (Or.inl rfl)) y hy hky.symm
    rw [hx]
    rw [show putManyBy key (l ++ [x]) xs = (l ++ [x]) ++ xs from ih (l ++ [x]) ?_ hnodup.2]
    · simp
    · intro z hz y hy
      rcases List.mem_append.1 hy with hy | hy
      · exact hfresh z (List.mem_cons.2 (Or.inr hz)) y hy
      · rw [List.mem_singleton] at hy
        subst hy
        intro hkz
        exact hnodup.1 (hkz ▸ List.mem_map.2 ⟨z, hz, rfl⟩)

-- C3 helper lemmas: the collapsed incoming map

theorem merge_date (a b : SleepSession) :
    (mergeSessions a b).date = (mergeBase a b).date := rfl

theorem merge_userId (a b : SleepSession) :
    (mergeSessions a b).userId = (mergeBase a b).userId := rfl

theorem merge_id (a b : SleepSession) :
    (mergeSessions a b).id = (mergeBase a b).id := rfl

theorem nodup_keys_inj {L : List (String × SleepSession)}
    (hkeys : (L.map Prod.fst).Nodup) {d : String} {s s' : SleepSession}
    (h1 : (d, s) ∈ L) (h2 : (d, s') ∈ L) : s = s' := by
  have := List.inj_on_of_nodup_map hkeys h1 h2 rfl
  injection this

theorem collapse_fold_spec (u : String) (l : List SleepSession)
    (m : List (String × SleepSession)) (seen : List SleepSession)
    (hu : ∀ s ∈ l, s.userId = u)
    (hm : ∀ entry ∈ m, entry.2.date = entry.1 ∧ entry.2.userId = u ∧
      ∃ orig ∈ seen, orig.date = entry.1 ∧ entry.2.id = orig.id)
    (hkeys : (m.map Prod.fst).Nodup) :
    (∀ entry ∈ l.foldl collapseStep m, entry.2.date = entry.1 ∧ entry.2.userId = u ∧
      ∃ orig ∈ seen ++ l, orig.date = entry.1 ∧ entry.2.id = orig.id) ∧
    ((l.foldl collapseStep m).map Prod.fst).Nodup := by
  induction l generalizing m seen with
  | nil =>
    simp only [List.foldl_nil, List.append_nil]
    exact ⟨hm, hkeys⟩
  | cons c l ih =>
    rw [List.foldl_cons]
    have hu' : ∀ s ∈ l, s.userId = u := fun s hs => hu s (List.mem_cons.2 (Or.inr hs))
    have huc : c.userId = u := hu c (List.mem_cons.2 (Or.inl rfl))
    have hstep : ∀ entry ∈ collapseStep m c, entry.2.date = entry.1 ∧
        entry.2.userId = u ∧
        ∃ orig ∈ seen ++ [c], orig.date = entry.1 ∧ entry.2.id = orig.id := by
      intro entry hentry
      unfold collapseStep at hentry
      rcases hg : mapGet m c.date with _ | ex <;> rw [hg] at hentry
      · rcases mem_mapSet _ _ _ _ hentry with h | h
        · subst h
          exact ⟨rfl, huc, c, List.mem_append.2 (Or.inr (List.mem_singleton.2 rfl)),
            rfl, rfl⟩
        · obtain ⟨hd, hus, orig, ho, hod, hoid⟩ := hm entry h
          exact ⟨hd, hus, orig, List.mem_append.2 (Or.inl ho), hod, hoid⟩
      · rcases mem_mapSet _ _ _ _ hentry with h | h
        · subst h
          obtain ⟨hexd, hexu, orig0, ho0, hod0, hoid0⟩ := hm (c.date, ex)
            (mapGet_some_mem m c.date ex hg)
          rcases mergeBase_cases ex c with hb | hb
          · refine ⟨by rw [merge_date, hb]; exact hexd, by rw [merge_userId, hb]; exact hexu,
              orig0, List.mem_append.2 (Or.inl ho0), hod0, by rw [merge_id, hb]; exact hoid0⟩
          · refine ⟨by rw [merge_date, hb], by rw [merge_userId, hb]; exact huc,
              c, List.mem_append.2 (Or.inr (List.mem_singleton.2 rfl)), rfl,
              by rw [merge_id, hb]⟩
        · obtain ⟨hd, hus, orig, ho, hod, hoid⟩ := hm entry h
          exact ⟨hd, hus, orig, List.mem_append.2 (Or.inl ho), hod, hoid⟩
    have hstepkeys : ((collapseStep m c).map Prod.fst).Nodup := by
      unfold collapseStep
      rcases hg : mapGet m c.date with _ | ex
      · exact nodup_keys_mapSet m c.date c hkeys
      · exact nodup_keys_mapSet m c.date (mergeSessions ex c) hkeys
    have key := ih (collapseStep m c) (seen ++ [c]) hu' hstep hstepkeys
    rw [show (seen ++ [c]) ++ l = seen ++ c :: l by simp] at key
    exact key

theorem collapseIncoming_spec (u : String) (l : List SleepSession)
    (hu : ∀ s ∈ l, s.userId = u) :
    (∀ entry ∈ collapseIncoming l, entry.2.date = entry.1 ∧ entry.2.userId = u ∧
      ∃ orig ∈ l, orig.date = entry.1 ∧ entry.2.id = orig.id) ∧
    ((collapseIncoming l).map Prod.fst).Nodup := by
  have h := collapse_fold_spec u l [] [] hu (by intro e he; simp at he) (by simp)
  simpa using h

-- C3 helper lemmas: dedup output characterization

theorem dedup_sessions_eq (exl l : List SleepSession) (u : String) :
    (deduplicateSessions exl l u).sessions =
      (collapseIncoming l).filterMap (dedupChoice (buildExistingByDate exl u)) := by
  show (List.foldl (dedupStep (buildExistingByDate exl u)) ⟨[], 0, 0⟩
    (collapseIncoming l)).sessions = _
  rw [dedup_foldl_spec]
  simp

theorem dedup_mergedCount_eq (exl l : List SleepSession) (u : String) :
    (deduplicateSessions exl l u).mergedCount =
      (collapseIncoming l).countP (dedupMergedPred (buildExistingByDate exl u)) := by
  show (List.foldl (dedupStep (buildExistingByDate exl u)) ⟨[], 0, 0⟩
    (collapseIncoming l)).mergedCount = _
  rw [dedup_foldl_spec]
  simp

theorem dedup_skippedCount_eq (exl l : List SleepSession) (u : String) :
    (deduplicateSessions exl l u).skippedCount =
      (collapseIncoming l).countP (dedupSkippedPred (buildExistingByDate exl u)) := by
  show (List.foldl (dedupStep (buildExistingByDate exl u)) ⟨[], 0, 0⟩
    (collapseIncoming l)).skippedCount = _
  rw [dedup_foldl_spec]
  simp

theorem dedupChoice_char (ebd : List (String × SleepSession))
    (entry : String × SleepSession) (o : SleepSession)
    (h : dedupChoice ebd entry = some o) :
    (mapGet ebd entry.1 = none ∧ o = entry.2) ∨
    (∃ ex, mapGet ebd entry.1 = some ex ∧
      getSessionCompleteness ex < getSessionCompleteness entry.2 ∧
      o = { mergeSessions ex entry.2 with id := ex.id }) := by
  unfold dedupChoice at h
  rcases hg : mapGet ebd entry.1 with _ | ex <;> simp only [hg] at h
  · injection h with h
    exact Or.inl ⟨rfl, h.symm⟩
  · by_cases hc : getSessionCompleteness ex < getSessionCompleteness entry.2
    · rw [if_pos hc] at h
      injection h with h
      exact Or.inr ⟨ex, rfl, hc, h.symm⟩
    · rw [if_neg hc] at h
      exact Option.noConfusion h

/-- The id of a record emitted by the dedup choice is either the id of an
incoming session with that date, or the id of a stored session of the user
with that date. -/
theorem dedupChoice_id_src (exl l : List SleepSession) (u : String)
    (hu : ∀ s ∈ l, s.userId = u)
    (entry : String × SleepSession) (hentry : entry ∈ collapseIncoming l)
    (o : SleepSession) (ho : dedupChoice (buildExistingByDate exl u) entry = some o) :
    (∃ orig ∈ l, o.id = orig.id ∧ orig.date = entry.1) ∨
    (∃ ex ∈ exl, o.id = ex.id ∧ ex.date = entry.1 ∧ ex.userId = u) := by
  obtain ⟨hdate, huser, orig, horig, horigdate, horigid⟩ :=
    (collapseIncoming_spec u l hu).1 entry hentry
  rcases dedupChoice_char _ _ _ ho with ⟨-, rfl⟩ | ⟨ex, hex, -, rfl⟩
  · exact Or.inl ⟨orig, horig, horigid, horigdate⟩
  · obtain ⟨hmem, hus, hd, -⟩ := buildExistingByDate_some exl u entry.1 ex hex
    exact Or.inr ⟨ex, hmem, rfl, hd, hus⟩

/-- Emitted records carry the entry's date and user, and at least the
incoming session's completeness score. -/
theorem dedupChoice_out_facts (exl l : List SleepSession) (u : String)
    (hu : ∀ s ∈ l, s.userId = u)
    (entry : String × SleepSession) (hentry : entry ∈ collapseIncoming l)
    (o : SleepSession) (ho : dedupChoice (buildExistingByDate exl u) entry = some o) :
    o.date = entry.1 ∧ o.userId = u ∧
    getSessionCompleteness entry.2 ≤ getSessionCompleteness o := by
  obtain ⟨hdate, huser, -⟩ := (collapseIncoming_spec u l hu).1 entry hentry
  rcases dedupChoice_char _ _ _ ho with ⟨-, rfl⟩ | ⟨ex, hex, -, rfl⟩
  · exact ⟨hdate, huser, le_refl _⟩
  · obtain ⟨hmem, hus, hd, -⟩ := buildExistingByDate_some exl u entry.1 ex hex
    have hscore : getSessionCompleteness entry.2 ≤
        getSessionCompleteness { mergeSessions ex entry.2 with id := ex.id } := by
      rw [score_set_id]
      exact (score_mergeSessions_ge ex entry.2).2
    have hod : ({ mergeSessions ex entry.2 with id := ex.id } : SleepSession).date =
        entry.1 := by
      show (mergeSessions ex entry.2).date = entry.1
      rw [merge_date]
      rcases mergeBase_cases ex entry.2 with hb | hb <;> rw [hb]
      · exact hd
      · exact hdate
    have hou : ({ mergeSessions ex entry.2 with id := ex.id } : SleepSession).userId = u := by
      show (mergeSessions ex entry.2).userId = u
      rw [merge_userId]
      rcases mergeBase_cases ex entry.2 with hb | hb <;> rw [hb]
      · exact hus
      · exact huser
    exact ⟨hod, hou, hscore⟩

theorem dedup_sessions_nodup_ids (exl l : List SleepSession) (u : String)
    (hu : ∀ s ∈ l, s.userId = u)
    (hnodupl : (l.map (·.id)).Nodup)
    (hnodupdb : (exl.map (·.id)).Nodup)
    (hfresh : ∀ s ∈ l, ∀ e ∈ exl, s.id ≠ e.id) :
    (((deduplicateSessions exl l u).sessions).map (·.id)).Nodup := by
  rw [dedup_sessions_eq]
  rw [List.Nodup, List.pairwise_map, List.pairwise_filterMap]
  have hkeys := (collapseIncoming_spec u l hu).2
  rw [List.Nodup, List.pairwise_map] at hkeys
  refine hkeys.imp_of_mem ?_
  intro e₁ e₂ h₁ h₂ hne o₁ ho₁ o₂ ho₂
  simp only [Option.mem_def] at ho₁ ho₂
  rcases dedupChoice_id_src exl l u hu e₁ h₁ o₁ ho₁ with
    ⟨orig₁, hm₁, hid₁, hd₁⟩ | ⟨ex₁, hm₁, hid₁, hd₁, -⟩ <;>
  rcases dedupChoice_id_src exl l u hu e₂ h₂ o₂ ho₂ with
    ⟨orig₂, hm₂, hid₂, hd₂⟩ | ⟨ex₂, hm₂, hid₂, hd₂, -⟩
  · rw [hid₁, hid₂]
    intro heq
    have : orig₁ = orig₂ := List.inj_on_of_nodup_map hnodupl hm₁ hm₂ heq
    exact hne (hd₁ ▸ hd₂ ▸ this ▸ rfl)
  · rw [hid₁, hid₂]
    exact hfresh orig₁ hm₁ ex₂ hm₂
  · rw [hid₁, hid₂]
    exact fun heq => hfresh orig₂ hm₂ ex₁ hm₁ heq.symm
  · rw [hid₁, hid₂]
    intro heq
    have : ex₁ = ex₂ := List.inj_on_of_nodup_map hnodupdb hm₁ hm₂ heq
    exact hne (hd₁ ▸ hd₂ ▸ this ▸ rfl)

theorem dedupChoice_none_char (ebd : List (String × SleepSession))
    (entry : String × SleepSession) (h : dedupChoice ebd entry = none) :
    ∃ ex, mapGet ebd entry.1 = some ex ∧
      getSessionCompleteness entry.2 ≤ getSessionCompleteness ex := by
  unfold dedupChoice at h
  rcases hg : mapGet ebd entry.1 with _ | ex <;> simp only [hg] at h
  · exact Option.noConfusion h
  · by_cases hc : getSessionCompleteness ex < getSessionCompleteness entry.2
    · rw [if_pos hc] at h
      exact Option.noConfusion h
    · exact ⟨ex, rfl, Nat.le_of_not_lt hc⟩

/-- After a dedup round is stored (`putMany` over the user's table), every
collapsed incoming date is represented by a stored session of that user and
date whose completeness score is at least the incoming one. -/
theorem dedup_coverage (exl l : List SleepSession) (u : String)
    (hu : ∀ s ∈ l, s.userId = u)
    (hnodupl : (l.map (·.id)).Nodup)
    (hnodupdb : (exl.map (·.id)).Nodup)
    (hfresh : ∀ s ∈ l, ∀ e ∈ exl, s.id ≠ e.id) :
    ∀ entry ∈ collapseIncoming l,
      ∃ e ∈ (if 0 < (deduplicateSessions exl l u).sessions.length
             then putManyBy (fun s => s.id) exl (deduplicateSessions exl l u).sessions
             else exl),
        e.userId = u ∧ e.date = entry.1 ∧
        getSessionCompleteness entry.2 ≤ getSessionCompleteness e := by
  intro entry hentry
  rcases hch : dedupChoice (buildExistingByDate exl u) entry with _ | o
  · -- skipped: the stored session survives the upserts
    obtain ⟨ex, hg, hscore⟩ := dedupChoice_none_char _ _ hch
    obtain ⟨hmem, hus, hdate, -⟩ := buildExistingByDate_some exl u entry.1 ex hg
    refine ⟨ex, ?_, hus, hdate, hscore⟩
    split
    · apply mem_putManyBy_of_key_ne _ _ _ _ ?_ hmem
      intro out hout
      rw [dedup_sessions_eq] at hout
      obtain ⟨entry', hentry', hch'⟩ := List.mem_filterMap.1 hout
      have hkeys := (collapseIncoming_spec u l hu).2
      have hne : entry'.1 ≠ entry.1 := by
        intro heq
        have h1 : (entry.1, entry'.2) ∈ collapseIncoming l := by
          rw [← heq]
          exact hentry'
        have h2 : (entry.1, entry.2) ∈ collapseIncoming l := hentry
        have := nodup_keys_inj hkeys h1 h2
        have hee : entry' = entry := by
          rcases entry' with ⟨d', s'⟩
          rcases entry with ⟨d, s⟩
          simp only at heq this
          rw [heq, this]
        rw [hee] at hch'
        rw [hch'] at hch
        exact Option.noConfusion hch
      rcases dedupChoice_id_src exl l u hu entry' hentry' out hch' with
        ⟨orig, hm, hid, -⟩ | ⟨ex', hm, hid, hd', -⟩
      · rw [hid]
        exact hfresh orig hm ex hmem
      · rw [hid]
        intro heq
        have : ex' = ex := List.inj_on_of_nodup_map hnodupdb hm hmem heq
        rw [this] at hd'
        exact hne (by rw [← hd']; exact hdate)
    · exact hmem
  · -- emitted: the emitted record itself covers the date
    have hout : o ∈ (deduplicateSessions exl l u).sessions := by
      rw [dedup_sessions_eq]
      exact List.mem_filterMap.2 ⟨entry, hentry, hch⟩
    obtain ⟨hod, hou, hos⟩ := dedupChoice_out_facts exl l u hu entry hentry o hch
    refine ⟨o, ?_, hou, hod, hos⟩
    rw [if_pos (List.length_pos.2 (List.ne_nil_of_mem hout))]
    exact mem_putManyBy_of_mem _ _ _ _ hout
      (dedup_sessions_nodup_ids exl l u hu hnodupl hnodupdb hfresh)

/-- When every collapsed incoming date is already covered by a stored
session scoring at least as high, a dedup round emits nothing: everything
is skipped. -/
theorem dedup_all_skipped (exl l : List SleepSession) (u : String)
    (hcov : ∀ entry ∈ collapseIncoming l, ∃ e ∈ exl, e.userId = u ∧
      e.date = entry.1 ∧
      getSessionCompleteness entry.2 ≤ getSessionCompleteness e) :
    (deduplicateSessions exl l u).sessions = [] ∧
    (deduplicateSessions exl l u).mergedCount = 0 ∧
    (deduplicateSessions exl l u).skippedCount = (collapseIncoming l).length := by
  have hmain : ∀ entry ∈ collapseIncoming l,
      dedupChoice (buildExistingByDate exl u) entry = none ∧
      dedupMergedPred (buildExistingByDate exl u) entry = false ∧
      dedupSkippedPred (buildExistingByDate exl u) entry = true := by
    intro entry hentry
    obtain ⟨e, hmem, hus, hdate, hscore⟩ := hcov entry hentry
    rcases hg : mapGet (buildExistingByDate exl u) entry.1 with _ | ex
    · exfalso
      exact ((buildExistingByDate_none exl u entry.1).1 hg) e hmem ⟨hus, hdate⟩
    · obtain ⟨-, -, -, hmax⟩ := buildExistingByDate_some exl u entry.1 ex hg
      have hle : getSessionCompleteness entry.2 ≤ getSessionCompleteness ex :=
        le_trans hscore (hmax e hmem hus hdate)
      refine ⟨?_, ?_, ?_⟩
      · unfold dedupChoice
        simp only [hg]
        rw [if_neg (Nat.not_lt_of_le hle)]
      · unfold dedupMergedPred
        simp only [hg]
        simp [Nat.not_lt_of_le hle]
      · unfold dedupSkippedPred
        simp only [hg]
        simp [hle]
  refine ⟨?_, ?_, ?_⟩
  · rw [dedup_sessions_eq]
    exact List.filterMap_eq_nil_iff.2 (fun entry hentry => (hmain entry hentry).1)
  · rw [dedup_mergedCount_eq]
    rw [List.countP_eq_zero]
    intro entry hentry
    simp [(hmain entry hentry).2.1]
  · rw [dedup_skippedCount_eq]
    rw [List.countP_eq_length]
    intro entry hentry
    exact (hmain entry hentry).2.2

theorem mapGet_isSome_of_keys (m : List (String × SleepSession)) (d : String)
    (h : d ∈ m.map Prod.fst) : (mapGet m d).isSome := by
  induction m with
  | nil => simp at h
  | cons e m ih =>
    by_cases he : e.1 = d
    · simp [mapGet, List.find?, he]
    · simp only [List.map_cons, List.mem_cons] at h
      rcases h with h | h
      · exact absurd h.symm he
      · simp only [mapGet, List.find?, he]
        simpa [mapGet] using ih h

theorem keys_of_mapGet_isSome (m : List (String × SleepSession)) (d : String)
    (h : (mapGet m d).isSome) : d ∈ m.map Prod.fst := by
  induction m with
  | nil => simp [mapGet, List.find?] at h
  | cons e m ih =>
    by_cases he : e.1 = d
    · simp [List.map_cons, he]
    · simp only [mapGet, List.find?, he] at h
      simp only [List.map_cons, List.mem_cons]
      exact Or.inr (ih (by simpa [mapGet] using h))

theorem collapse_fold_keys (l : List SleepSession) (m : List (String × SleepSession))
    (d : String) (h : (mapGet m d).isSome ∨ ∃ s ∈ l, s.date = d) :
    (mapGet (l.foldl collapseStep m) d).isSome := by
  induction l generalizing m with
  | nil =>
    rcases h with h | h
    · simpa using h
    · simp at h
  | cons c l ih =>
    rw [List.foldl_cons]
    apply ih
    have hset : ∀ v, (mapGet (mapSet m c.date v) d).isSome ∨ ∃ s ∈ l, s.date = d := by
      intro v
      by_cases hd : d = c.date
      · left
        rw [hd, mapGet_mapSet_self]
        rfl
      · rcases h with h | h
        · left
          rw [mapGet_mapSet_ne m c.date d v hd]
          exact h
        · obtain ⟨s, hs, hsd⟩ := h
          rcases List.mem_cons.1 hs with rfl | hs
          · exact absurd hsd.symm hd
          · exact Or.inr ⟨s, hs, hsd⟩
    unfold collapseStep
    rcases hg : mapGet m c.date with _ | ex
    · exact hset c
    · exact hset (mergeSessions ex c)

theorem collapse_keys_iff (l : List SleepSession) (u : String)
    (hu : ∀ s ∈ l, s.userId = u) (d : String) :
    d ∈ (collapseIncoming l).map Prod.fst ↔ d ∈ l.map (fun s => s.date) := by
  constructor
  · intro h
    obtain ⟨entry, hentry, rfl⟩ := List.mem_map.1 h
    obtain ⟨-, -, orig, horig, horigd, -⟩ := (collapseIncoming_spec u l hu).1 entry hentry
    exact List.mem_map.2 ⟨orig, horig, horigd⟩
  · intro h
    obtain ⟨s, hs, rfl⟩ := List.mem_map.1 h
    exact keys_of_mapGet_isSome _ _
      (collapse_fold_keys l [] s.date (Or.inr ⟨s, hs, rfl⟩))

theorem collapse_length_eq_dedup_dates (l : List SleepSession) (u : String)
    (hu : ∀ s ∈ l, s.userId = u) :
    (collapseIncoming l).length = (l.map (fun s => s.date)).dedup.length := by
  have hperm : List.Perm ((collapseIncoming l).map Prod.fst)
      ((l.map (fun s => s.date)).dedup) := by
    rw [List.perm_ext_iff_of_nodup (collapseIncoming_spec u l hu).2 (List.nodup_dedup _)]
    intro d
    rw [List.mem_dedup]
    exact collapse_keys_iff l u hu d
  have := hperm.length_eq
  rwa [List.length_map] at this

theorem genericTail_ok (env : ImportEnv) (db : Database) (file : ImportFile)
    (userId : String) (prof : ImporterProfile) (detection : FileDetectionResult)
    (parsedData : ParsedData) (content : String) (ts : TransformResult)
    (h : env.transformData parsedData prof env.newSourceId userId = Except.ok ts) :
    ∃ res db',
      importFileGenericTail env db file userId prof detection parsedData content =
        Except.ok (res, db') ∧
      res.success = true ∧
      res.errors = [] ∧
      db'.sleepSessions =
        (if (deduplicateSessions db.sleepSessions (validatedFlagged ts) userId).sessions.length > 0
         then putManyBy (fun s => s.id) db.sleepSessions
           (deduplicateSessions db.sleepSessions (validatedFlagged ts) userId).sessions
         else db.sleepSessions) ∧
      db'.workoutSessions =
        (if ts.workoutSessions.length > 0
         then putManyBy (fun s => s.id) db.workoutSessions ts.workoutSessions
         else db.workoutSessions) ∧
      db'.dailyMetrics = db.dailyMetrics ∧
      ((db.sources.filter (fun s => s.fileHash = env.sha256 content)).length > 0 →
        ({ type := WarningType.duplicate,
           message := "This file has already been imported",
           recordIndex := none, field := none } : ImportWarning) ∈ res.warnings) := by
  simp only [importFileGenericTail, h, validatedFlagged]
  refine ⟨_, _, rfl, rfl, rfl, ?_, ?_, ?_, ?_⟩
  · by_cases c1 : 0 < (deduplicateSessions db.sleepSessions
        (List.map (attachQualityFlags ∘ validateSession) ts.sleepSessions)
        userId).sessions.length <;>
      by_cases c2 : 0 < ts.workoutSessions.length <;>
      by_cases c3 : 0 < ts.timeSeries.length <;>
      simp [c1, c2, c3]
  · by_cases c1 : 0 < (deduplicateSessions db.sleepSessions
        (List.map (attachQualityFlags ∘ validateSession) ts.sleepSessions)
        userId).sessions.length <;>
      by_cases c2 : 0 < ts.workoutSessions.length <;>
      by_cases c3 : 0 < ts.timeSeries.length <;>
      simp [c1, c2, c3]
  · by_cases c1 : 0 < (deduplicateSessions db.sleepSessions
        (List.map (attachQualityFlags ∘ validateSession) ts.sleepSessions)
        userId).sessions.length <;>
      by_cases c2 : 0 < ts.workoutSessions.length <;>
      by_cases c3 : 0 < ts.timeSeries.length <;>
      simp [c1, c2, c3]
  · intro hdup
    simp [hdup]

theorem importFileBody_csv (env : ImportEnv) (db : Database) (file : ImportFile)
    (u : String) (prof : ImporterProfile)
    (hdet : (detectFileType env file).fileType = FileType.csv) :
    importFileBody env db file u (some prof) =
      importFileGenericTail env db file u prof (detectFileType env file)
        (ParsedData.csv (parseCsv (fileContentStr env file))) (fileContentStr env file) := by
  unfold importFileBody
  simp [hdet, Option.orElse]

theorem importFile_of_body_ok (env : ImportEnv) (db : Database) (file : ImportFile)
    (u : String) (p : Option ImporterProfile) (r : ImportResult × Database)
    (h : importFileBody env db file u p = Except.ok r) :
    importFile env db file u p = r := by
  unfold importFile
  rw [h]

/-- C3: on the CSV import path, importing the same file twice (same
environment, so detection and the transform result are those of the file)
leaves the stored sleep-session count of the first import unchanged, and
the second import's deduplication pass resolves every incoming date by a
merge or a skip: `mergedCount + skippedCount` equals the number of distinct
dates of the file, which are exactly the dates present in both runs. -/
theorem import_twice_idempotent (env : ImportEnv) (db : Database) (file : ImportFile)
    (u : String) (prof : ImporterProfile) (ts : TransformResult)
    (hdet : (detectFileType env file).fileType = FileType.csv)
    (h : env.transformData (ParsedData.csv (parseCsv (fileContentStr env file))) prof
      env.newSourceId u = Except.ok ts)
    (hu : ∀ s ∈ validatedFlagged ts, s.userId = u)
    (hnodupl : ((validatedFlagged ts).map (fun s => s.id)).Nodup)
    (hnodupdb : (db.sleepSessions.map (fun s => s.id)).Nodup)
    (hfresh : ∀ s ∈ validatedFlagged ts, ∀ e ∈ db.sleepSessions, s.id ≠ e.id) :
    (importFile env (importFile env db file u (some prof)).2 file u
        (some prof)).2.sleepSessions.length
      = (importFile env db file u (some prof)).2.sleepSessions.length
    ∧ (deduplicateSessions (importFile env db file u (some prof)).2.sleepSessions
          (validatedFlagged ts) u).mergedCount
        + (deduplicateSessions (importFile env db file u (some prof)).2.sleepSessions
            (validatedFlagged ts) u).skippedCount
      = ((validatedFlagged ts).map (fun s => s.date)).dedup.length := by
  obtain ⟨res₁, db₁, hEq₁, -, -, hsleep₁, -, -, -⟩ :=
    genericTail_ok env db file u prof (detectFileType env file)
      (ParsedData.csv (parseCsv (fileContentStr env file))) (fileContentStr env file) ts h
  have hbody₁ := (importFileBody_csv env db file u prof hdet).trans hEq₁
  have hImp₁ : importFile env db file u (some prof) = (res₁, db₁) :=
    importFile_of_body_ok _ _ _ _ _ _ hbody₁
  obtain ⟨res₂, db₂, hEq₂, -, -, hsleep₂, -, -, -⟩ :=
    genericTail_ok env db₁ file u prof (detectFileType env file)
      (ParsedData.csv (parseCsv (fileContentStr env file))) (fileContentStr env file) ts h
  have hbody₂ := (importFileBody_csv env db₁ file u prof hdet).trans hEq₂
  have hImp₂ : importFile env db₁ file u (some prof) = (res₂, db₂) :=
    importFile_of_body_ok _ _ _ _ _ _ hbody₂
  have hcov' := dedup_coverage db.sleepSessions (validatedFlagged ts) u hu hnodupl hnodupdb hfresh
  have hcov : ∀ entry ∈ collapseIncoming (validatedFlagged ts), ∃ e ∈ db₁.sleepSessions,
      e.userId = u ∧ e.date = entry.1 ∧
      getSessionCompleteness entry.2 ≤ getSessionCompleteness e := by
    intro entry hentry
    obtain ⟨e, he, h1, h2, h3⟩ := hcov' entry hentry
    refine ⟨e, ?_, h1, h2, h3⟩
    rw [hsleep₁]
    exact he
  have hskip := dedup_all_skipped db₁.sleepSessions (validatedFlagged ts) u hcov
  have hlen0 : ¬((deduplicateSessions db₁.sleepSessions (validatedFlagged ts) u).sessions.length
      > 0) := by
    rw [hskip.1]
    simp
  have hdb2 : db₂.sleepSessions = db₁.sleepSessions := by
    rw [hsleep₂, if_neg hlen0]
  rw [hImp₁]
  constructor
  · show (importFile env db₁ file u (some prof)).2.sleepSessions.length =
      db₁.sleepSessions.length
    rw [hImp₂]
    show db₂.sleepSessions.length = db₁.sleepSessions.length
    rw [hdb2]
  · show (deduplicateSessions db₁.sleepSessions (validatedFlagged ts) u).mergedCount
        + (deduplicateSessions db₁.sleepSessions (validatedFlagged ts) u).skippedCount
      = ((validatedFlagged ts).map (fun s => s.date)).dedup.length
    rw [hskip.2.1, hskip.2.2, Nat.zero_add]
    exact collapse_length_eq_dedup_dates (validatedFlagged ts) u hu

theorem import_twice_idempotent_witness :
    (importFile sampleEnv
        (importFile sampleEnv emptyDb sampleCsvFile "u" (some ORANGETHEORY_PROFILE)).2
        sampleCsvFile "u" (some ORANGETHEORY_PROFILE)).2.sleepSessions.length
      = (importFile sampleEnv emptyDb sampleCsvFile "u"
          (some ORANGETHEORY_PROFILE)).2.sleepSessions.length
    ∧ (deduplicateSessions
          (importFile sampleEnv emptyDb sampleCsvFile "u"
            (some ORANGETHEORY_PROFILE)).2.sleepSessions
          (validatedFlagged sampleTransform) "u").mergedCount
        + (deduplicateSessions
            (importFile sampleEnv emptyDb sampleCsvFile "u"
              (some ORANGETHEORY_PROFILE)).2.sleepSessions
            (validatedFlagged sampleTransform) "u").skippedCount
      = ((validatedFlagged sampleTransform).map (fun s => s.date)).dedup.length :=
  import_twice_idempotent sampleEnv emptyDb sampleCsvFile "u" ORANGETHEORY_PROFILE
    sampleTransform (by decide) rfl (by decide) (by decide) (by decide) (by decide)

theorem putTable_eq_append {α : Type} (key : α → String) (l xs : List α)
    (hfresh : ∀ x ∈ xs, ∀ y ∈ l, key x ≠ key y)
    (hnodup : (xs.map key).Nodup) :
    (if xs.length > 0 then putManyBy key l xs else l) = l ++ xs := by
  by_cases hx : xs.length > 0
  · rw [if_pos hx]
    exact putManyBy_append key l xs hfresh hnodup
  · rw [if_neg hx]
    have hnil : xs = [] := List.eq_nil_of_length_eq_zero (Nat.eq_zero_of_not_pos hx)
    rw [hnil, List.append_nil]

theorem importFileBody_appleXml (env : ImportEnv) (db : Database) (file : ImportFile)
    (u : String) (ar : AppleHealthImportResult)
    (h1 : (detectFileType env file).fileType = FileType.xml)
    (h2 : (detectFileType env file).suggestedVendor = VendorType.apple_health)
    (ha : env.parseAppleHealthXML (fileContentStr env file) env.newSourceId u =
      Except.ok ar) :
    ∃ res db',
      importFileBody env db file u none = Except.ok (res, db') ∧
      res.success = true ∧
      db'.workoutSessions =
        (if ar.workoutSessions.length > 0
         then putManyBy (fun w => w.id) db.workoutSessions ar.workoutSessions
         else db.workoutSessions) ∧
      db'.dailyMetrics =
        (if ar.dailyMetrics.length > 0
         then putManyBy (fun m => m.id) db.dailyMetrics ar.dailyMetrics
         else db.dailyMetrics) := by
  simp only [importFileBody, h1, h2, Option.orElse, getBuiltInProfile, ha,
    reduceCtorEq, if_false, and_self, if_true]
  refine ⟨_, _, rfl, rfl, ?_, ?_⟩
  · by_cases c1 : 0 < (deduplicateSessions db.sleepSessions
        (List.map validateSession ar.sleepSessions) u).sessions.length <;>
      by_cases c2 : 0 < ar.workoutSessions.length <;>
      by_cases c3 : 0 < ar.dailyMetrics.length <;>
      simp [c1, c2, c3]
  · by_cases c1 : 0 < (deduplicateSessions db.sleepSessions
        (List.map validateSession ar.sleepSessions) u).sessions.length <;>
      by_cases c2 : 0 < ar.workoutSessions.length <;>
      by_cases c3 : 0 < ar.dailyMetrics.length <;>
      simp [c1, c2, c3]

/-- C9: only sleep sessions pass through deduplication.  On the generic
(CSV) path every parsed workout session is stored unconditionally: two
imports of the same file whose transformers generated fresh ids append
both batches of workouts to the store, duplicating them; and on the Apple
Health XML path the parsed workout sessions and daily metrics are likewise
appended with no reconciliation against existing records. -/
theorem workouts_metrics_stored_unconditionally
    (env env₂ enva : ImportEnv) (db dba : Database) (file filea : ImportFile)
    (u ua : String) (prof : ImporterProfile) (ts ts₂ : TransformResult)
    (ar : AppleHealthImportResult)
    (hdet : (detectFileType env file).fileType = FileType.csv)
    (hdet₂ : (detectFileType env₂ file).fileType = FileType.csv)
    (h : env.transformData (ParsedData.csv (parseCsv (fileContentStr env file))) prof
      env.newSourceId u = Except.ok ts)
    (h₂ : env₂.transformData (ParsedData.csv (parseCsv (fileContentStr env₂ file))) prof
      env₂.newSourceId u = Except.ok ts₂)
    (hfw : ∀ w ∈ ts.workoutSessions, ∀ y ∈ db.workoutSessions, w.id ≠ y.id)
    (hnw : (ts.workoutSessions.map (fun w => w.id)).Nodup)
    (hfw₂ : ∀ w ∈ ts₂.workoutSessions,
      ∀ y ∈ db.workoutSessions ++ ts.workoutSessions, w.id ≠ y.id)
    (hnw₂ : (ts₂.workoutSessions.map (fun w => w.id)).Nodup)
    (hxml : (detectFileType enva filea).fileType = FileType.xml)
    (happle : (detectFileType enva filea).suggestedVendor = VendorType.apple_health)
    (ha : enva.parseAppleHealthXML (fileContentStr enva filea) enva.newSourceId ua =
      Except.ok ar)
    (hfwa : ∀ w ∈ ar.workoutSessions, ∀ y ∈ dba.workoutSessions, w.id ≠ y.id)
    (hnwa : (ar.workoutSessions.map (fun w => w.id)).Nodup)
    (hfm : ∀ m ∈ ar.dailyMetrics, ∀ y ∈ dba.dailyMetrics, m.id ≠ y.id)
    (hnm : (ar.dailyMetrics.map (fun m => m.id)).Nodup) :
    (importFile env₂ (importFile env db file u (some prof)).2 file u
        (some prof)).2.workoutSessions
      = db.workoutSessions ++ ts.workoutSessions ++ ts₂.workoutSessions
    ∧ (importFile enva dba filea ua none).2.workoutSessions
      = dba.workoutSessions ++ ar.workoutSessions
    ∧ (importFile enva dba filea ua none).2.dailyMetrics
      = dba.dailyMetrics ++ ar.dailyMetrics := by
  obtain ⟨res₁, db₁, hEq₁, -, -, -, hwork₁, -, -⟩ :=
    genericTail_ok env db file u prof (detectFileType env file)
      (ParsedData.csv (parseCsv (fileContentStr env file))) (fileContentStr env file) ts h
  have hImp₁ : importFile env db file u (some prof) = (res₁, db₁) :=
    importFile_of_body_ok _ _ _ _ _ _
      ((importFileBody_csv env db file u prof hdet).trans hEq₁)
  obtain ⟨res₂, db₂, hEq₂, -, -, -, hwork₂, -, -⟩ :=
    genericTail_ok env₂ db₁ file u prof (detectFileType env₂ file)
      (ParsedData.csv (parseCsv (fileContentStr env₂ file))) (fileContentStr env₂ file) ts₂ h₂
  have hImp₂ : importFile env₂ db₁ file u (some prof) = (res₂, db₂) :=
    importFile_of_body_ok _ _ _ _ _ _
      ((importFileBody_csv env₂ db₁ file u prof hdet₂).trans hEq₂)
  have hdb₁ : db₁.workoutSessions = db.workoutSessions ++ ts.workoutSessions := by
    rw [hwork₁]
    exact putTable_eq_append _ _ _ hfw hnw
  obtain ⟨resa, dba', hEqa, -, hworka, hmeta⟩ :=
    importFileBody_appleXml enva dba filea ua ar hxml happle ha
  have hImpa : importFile enva dba filea ua none = (resa, dba') :=
    importFile_of_body_ok _ _ _ _ _ _ hEqa
  refine ⟨?_, ?_, ?_⟩
  · rw [hImp₁]
    show (importFile env₂ db₁ file u (some prof)).2.workoutSessions = _
    rw [hImp₂]
    show db₂.workoutSessions = _
    rw [hwork₂]
    have := putTable_eq_append (fun s => s.id) db₁.workoutSessions ts₂.workoutSessions
      (by rw [hdb₁]; exact hfw₂) hnw₂
    rw [this, hdb₁]
  · rw [hImpa]
    show dba'.workoutSessions = _
    rw [hworka]
    exact putTable_eq_append _ _ _ hfwa hnwa
  · rw [hImpa]
    show dba'.dailyMetrics = _
    rw [hmeta]
    exact putTable_eq_append _ _ _ hfm hnm

theorem workouts_metrics_stored_unconditionally_witness :
    (importFile sampleEnv2
        (importFile sampleEnv emptyDb sampleCsvFile "u" (some ORANGETHEORY_PROFILE)).2
        sampleCsvFile "u" (some ORANGETHEORY_PROFILE)).2.workoutSessions
      = emptyDb.workoutSessions ++ sampleTransform.workoutSessions
          ++ sampleTransform2.workoutSessions
    ∧ (importFile sampleEnvA emptyDb appleXmlFile "u" none).2.workoutSessions
      = emptyDb.workoutSessions ++ sampleAppleResult.workoutSessions
    ∧ (importFile sampleEnvA emptyDb appleXmlFile "u" none).2.dailyMetrics
      = emptyDb.dailyMetrics ++ sampleAppleResult.dailyMetrics :=
  workouts_metrics_stored_unconditionally sampleEnv sampleEnv2 sampleEnvA emptyDb emptyDb
    sampleCsvFile appleXmlFile "u" "u" ORANGETHEORY_PROFILE sampleTransform sampleTransform2
    sampleAppleResult (by decide) (by decide) rfl rfl (by decide) (by decide) (by decide)
    (by decide) (by decide) (by decide) rfl (by decide) (by decide) (by decide) (by decide)

/-- Counterexample to C8's parse-error clause: a file whose content fails
`JSON.parse` is classified `unknown` by detection (the parse happens there
first), so `importFile` reports `invalid_format` — the promised
`parse_error` never appears. -/
theorem importFile_parse_error_counterexample :
    (importFile sampleEnv emptyDb jsonBadFile "u" none).1.errors
      = [{ type := ErrorType.invalid_format,
           message := "Could not determine file format" }]
    ∧ ∀ err ∈ (importFile sampleEnv emptyDb jsonBadFile "u" none).1.errors,
        err.type ≠ ErrorType.parse_error := by
  decide

/-- C8 (amended): `importFile` is total and reports failures as typed
error results: an undetectable file type yields an `invalid_format` error
result; a detected vendor with no importer profile yields
`unsupported_vendor`; an exception escaping the pipeline body is caught
and returned as a typed `storage_error` failure result, the database
remaining in the state it had at the throw (the `try` also covers the
store writes, so partial writes are kept, not rolled back); and on the
generic path a file whose content hash matches an
already-stored source still imports successfully, with a `duplicate`
warning rather than an abort.  (Malformed top-level JSON surfaces as
`invalid_format` from detection, not as `parse_error`.) -/
theorem importFile_error_handling :
    (∀ env db file u p, (detectFileType env file).fileType = FileType.unknown →
      importFile env db file u p =
        (createErrorResult
          [{ type := ErrorType.invalid_format,
             message := "Could not determine file format" }], db))
    ∧ (∀ env db file u, (detectFileType env file).fileType ≠ FileType.unknown →
        getBuiltInProfile (detectFileType env file).suggestedVendor = none →
        importFile env db file u none =
          (createErrorResult
            [{ type := ErrorType.unsupported_vendor,
               message := "No importer profile found for "
                 ++ vendorStr (detectFileType env file).suggestedVendor }], db))
    ∧ (∀ env db file u p e db', importFileBody env db file u p = Except.error (e, db') →
        importFile env db file u p =
          (createErrorResult [{ type := ErrorType.storage_error, message := e }], db'))
    ∧ (∀ env db file u prof ts, (detectFileType env file).fileType = FileType.csv →
        env.transformData (ParsedData.csv (parseCsv (fileContentStr env file))) prof
          env.newSourceId u = Except.ok ts →
        0 < (db.sources.filter
          (fun s => s.fileHash = env.sha256 (fileContentStr env file))).length →
        (importFile env db file u (some prof)).1.success = true ∧
        ({ type := WarningType.duplicate,
           message := "This file has already been imported",
           recordIndex := none, field := none } : ImportWarning)
          ∈ (importFile env db file u (some prof)).1.warnings) := by
  refine ⟨?_, ?_, ?_, ?_⟩
  · intro env db file u p hdet
    refine importFile_of_body_ok _ _ _ _ _ _ ?_
    simp [importFileBody, hdet]
    rfl
  · intro env db file u hd hp
    refine importFile_of_body_ok _ _ _ _ _ _ ?_
    simp [importFileBody, hd, hp, Option.orElse]
    rfl
  · intro env db file u p e db' he
    unfold importFile
    rw [he]
  · intro env db file u prof ts hdet h hdup
    obtain ⟨res, db', hEq, hsucc, -, -, -, -, hdupw⟩ :=
      genericTail_ok env db file u prof (detectFileType env file)
        (ParsedData.csv (parseCsv (fileContentStr env file))) (fileContentStr env file) ts h
    have hImp : importFile env db file u (some prof) = (res, db') :=
      importFile_of_body_ok _ _ _ _ _ _
        ((importFileBody_csv env db file u prof hdet).trans hEq)
    rw [hImp]
    exact ⟨hsucc, hdupw hdup⟩

theorem transformRawSession_some (raw : EightSleepSession) (sourceId userId newId : String)
    (hne : raw.stages.length ≠ 0)
    (hge : ¬((sumStages raw.stages).light + (sumStages raw.stages).deep +
      (sumStages raw.stages).rem < 3 * 60 * 60)) :
    ∃ s, transformRawSession raw sourceId userId newId = some s ∧
      s.durationSeconds = some ((sumStages raw.stages).light +
        (sumStages raw.stages).deep + (sumStages raw.stages).rem) ∧
      s.timeInBedSeconds = (sumStages raw.stages).light +
        (sumStages raw.stages).deep + (sumStages raw.stages).rem +
        (sumStages raw.stages).awake ∧
      s.deepSeconds = (sumStages raw.stages).deep ∧
      s.remSeconds = (sumStages raw.stages).rem ∧
      s.lightSeconds = (sumStages raw.stages).light ∧
      s.awakeSeconds = (sumStages raw.stages).awake ∧
      s.efficiency =
        (if 0 < (sumStages raw.stages).light + (sumStages raw.stages).deep +
            (sumStages raw.stages).rem + (sumStages raw.stages).awake
         then some (((sumStages raw.stages).light + (sumStages raw.stages).deep +
             (sumStages raw.stages).rem)
           / ((sumStages raw.stages).light + (sumStages raw.stages).deep +
             (sumStages raw.stages).rem + (sumStages raw.stages).awake) * 100)
         else none) ∧
      s.date = nightOfDate raw.ts := by
  simp only [transformRawSession, hne, if_false, hge, ite_false, if_neg]
  exact ⟨_, rfl, rfl, rfl, rfl, rfl, rfl, rfl, rfl, rfl⟩

theorem eightSleepScenarioStages :
    sumStages [⟨"deep", 1800⟩, ⟨"rem", 900⟩, ⟨"light", 10800⟩, ⟨"awake", 300⟩] =
      { awake := 300, light := 10800, deep := 1800, rem := 900, out := 0 } := by
  simp only [sumStages, List.foldl, String.reduceEq, reduceIte]
  norm_num

/-- C6: `transformRawSession` sums stage durations into buckets, sets
`durationSeconds` to light+deep+rem (the "out" bucket is excluded),
`timeInBedSeconds` to that plus awake, discards sessions with under
3 hours of summed sleep, derives `efficiency = durationSeconds /
timeInBedSeconds * 100` when time in bed is positive, and dates the
session by the night-of rule (previous calendar day when the local start
hour is before 6 AM, else the start day).  Concretely, stages deep 1800 /
rem 900 / light 10800 / awake 300 starting at 2024-03-01T23:00:00
(unix 1709334000) give durationSeconds 13500, timeInBedSeconds 13800,
efficiency 2250/23 ≈ 97.8 and date "2024-03-01". -/
theorem transformRawSession_spec :
    (∀ raw : EightSleepSession, ∀ sourceId userId newId : String,
      raw.stages.length ≠ 0 →
      (sumStages raw.stages).light + (sumStages raw.stages).deep +
          (sumStages raw.stages).rem < 3 * 60 * 60 →
      transformRawSession raw sourceId userId newId = none)
    ∧ (∀ raw : EightSleepSession, ∀ sourceId userId newId : String,
        raw.stages.length ≠ 0 →
        ¬((sumStages raw.stages).light + (sumStages raw.stages).deep +
            (sumStages raw.stages).rem < 3 * 60 * 60) →
        ∃ s, transformRawSession raw sourceId userId newId = some s ∧
          s.durationSeconds = some ((sumStages raw.stages).light +
            (sumStages raw.stages).deep + (sumStages raw.stages).rem) ∧
          s.timeInBedSeconds = (sumStages raw.stages).light +
            (sumStages raw.stages).deep + (sumStages raw.stages).rem +
            (sumStages raw.stages).awake ∧
          s.deepSeconds = (sumStages raw.stages).deep ∧
          s.remSeconds = (sumStages raw.stages).rem ∧
          s.lightSeconds = (sumStages raw.stages).light ∧
          s.awakeSeconds = (sumStages raw.stages).awake ∧
          s.efficiency =
            (if 0 < (sumStages raw.stages).light + (sumStages raw.stages).deep +
                (sumStages raw.stages).rem + (sumStages raw.stages).awake
             then some (((sumStages raw.stages).light + (sumStages raw.stages).deep +
                 (sumStages raw.stages).rem)
               / ((sumStages raw.stages).light + (sumStages raw.stages).deep +
                 (sumStages raw.stages).rem + (sumStages raw.stages).awake) * 100)
             else none) ∧
          s.date = nightOfDate raw.ts)
    ∧ (∀ ts : ℕ, ts / 3600 % 24 < 6 →
        nightOfDate ts = dateString (civilFromDays (ts / 86400 - 1)))
    ∧ (∀ ts : ℕ, ¬(ts / 3600 % 24 < 6) →
        nightOfDate ts = dateString (civilFromDays (ts / 86400)))
    ∧ (∃ s, transformRawSession scenarioBSession "src" "u" "n1" = some s ∧
        s.durationSeconds = some 13500 ∧
        s.timeInBedSeconds = 13800 ∧
        s.date = "2024-03-01" ∧
        s.efficiency = some (2250 / 23) ∧
        (978 / 10 : ℚ) < 2250 / 23 ∧ (2250 / 23 : ℚ) < 979 / 10) := by
  refine ⟨?_, ?_, ?_, ?_, ?_⟩
  · intro raw sourceId userId newId hne hlt
    simp [transformRawSession, hne, hlt]
  · intro raw sourceId userId newId hne hge
    exact transformRawSession_some raw sourceId userId newId hne hge
  · intro ts h
    simp [nightOfDate, h]
  · intro ts h
    simp [nightOfDate, h]
  · have hraw : scenarioBSession.stages =
        [⟨"deep", 1800⟩, ⟨"rem", 900⟩, ⟨"light", 10800⟩, ⟨"awake", 300⟩] := rfl
    obtain ⟨s, hs, hdur, htib, -, -, -, -, heff, hdate⟩ :=
      transformRawSession_some scenarioBSession "src" "u" "n1" (by decide)
        (by rw [hraw, eightSleepScenarioStages]; norm_num)
    rw [hraw, eightSleepScenarioStages] at hdur htib heff
    norm_num at hdur htib heff
    refine ⟨s, hs, hdur, htib, ?_, ?_, by norm_num, by norm_num⟩
    · rw [hdate]
      decide
    · rw [heff]

theorem execScan_skip_ge (opener close : List Char) (l : List Char)
    (pos skip lastEnd : ℕ) (h : l.length ≤ skip) :
    execScan opener close l pos skip lastEnd = ([], lastEnd) := by
  induction l generalizing pos skip with
  | nil => rfl
  | cons c rest ih =>
    rcases skip with _ | s
    · simp at h
    · exact ih (pos + 1) s (by simpa using h)

theorem execScan_skip (opener close : List Char) (skip : ℕ) (l : List Char)
    (pos lastEnd : ℕ) (h : skip ≤ l.length) :
    execScan opener close l pos skip lastEnd =
      execScan opener close (l.drop skip) (pos + skip) 0 lastEnd := by
  induction skip generalizing l pos with
  | zero => simp
  | succ s ih =>
    rcases l with _ | ⟨c, rest⟩
    · simp at h
    · show execScan opener close rest (pos + 1) s lastEnd = _
      rw [ih rest (pos + 1) (by simpa using h)]
      simp [Nat.add_assoc, Nat.add_comm 1 s]

theorem matchElemAt_none_of_not_prefix (opener close : List Char) (s : List Char)
    (h : ¬(opener <+: s)) : matchElemAt opener close s = none := by
  simp [matchElemAt, h]

theorem execScan_no_open (op' close : List Char) (l : List Char) (pos lastEnd : ℕ)
    (h : ∀ ch ∈ l, ch ≠ '<') :
    execScan ('<' :: op') close l pos 0 lastEnd = ([], lastEnd) := by
  induction l generalizing pos with
  | nil => rfl
  | cons c rest ih =>
    have hm : matchElemAt ('<' :: op') close (c :: rest) = none := by
      apply matchElemAt_none_of_not_prefix
      intro hp
      rcases List.cons_prefix_cons.1 hp with ⟨hc, -⟩
      exact h c (List.mem_cons_self c rest) hc.symm
    show (match matchElemAt ('<' :: op') close (c :: rest) with
      | some (len, attrs) =>
        let r := execScan ('<' :: op') close rest (pos + 1) (len - 1) (pos + len)
        (attrs :: r.1, r.2)
      | none => execScan ('<' :: op') close rest (pos + 1) 0 lastEnd) = ([], lastEnd)
    rw [hm]
    exact ih (pos + 1) (fun ch hch => h ch (List.mem_cons_of_mem c hch))

theorem execScan_through (op' close : List Char) (p t : List Char) (pos lastEnd : ℕ)
    (h : ∀ ch ∈ p, ch ≠ '<') :
    execScan ('<' :: op') close (p ++ t) pos 0 lastEnd =
      execScan ('<' :: op') close t (pos + p.length) 0 lastEnd := by
  induction p generalizing pos with
  | nil => simp
  | cons c p' ih =>
    have hm : matchElemAt ('<' :: op') close (c :: (p' ++ t)) = none := by
      apply matchElemAt_none_of_not_prefix
      intro hp
      rcases List.cons_prefix_cons.1 hp with ⟨hc, -⟩
      exact h c (List.mem_cons_self c p') hc.symm
    show (match matchElemAt ('<' :: op') close (c :: (p' ++ t)) with
      | some (len, attrs) =>
        let r := execScan ('<' :: op') close (p' ++ t) (pos + 1) (len - 1) (pos + len)
        (attrs :: r.1, r.2)
      | none => execScan ('<' :: op') close (p' ++ t) (pos + 1) 0 lastEnd) = _
    rw [hm]
    rw [ih (pos + 1) (fun ch hch => h ch (List.mem_cons_of_mem c hch))]
    simp [Nat.add_assoc, Nat.add_comm 1 p'.length]

theorem attrsLoop_terminator (close : List Char) (a : List Char) (count : ℕ)
    (rest : List Char) (h : ∀ c ∈ a, c ≠ '>' ∧ c ≠ '/') :
    attrsLoop close (a ++ '/' :: '>' :: rest) count = some (count + a.length, 2) := by
  induction a generalizing count with
  | nil => simp [attrsLoop]
  | cons c a' ih =>
    have hc := h c (List.mem_cons_self c a')
    show attrsLoop close (c :: (a' ++ '/' :: '>' :: rest)) count = _
    rw [attrsLoop]
    rw [if_neg (by rintro ⟨hcc, -⟩; exact hc.2 hcc)]
    rw [if_neg hc.1]
    rw [ih (count + 1) (fun x hx => h x (List.mem_cons_of_mem c hx))]
    simp only [List.length_cons]
    rw [Nat.add_comm a'.length 1, ← Nat.add_assoc]

theorem attrsLoop_no_terminator (close : List Char) (a : List Char) (count : ℕ)
    (h : ∀ c ∈ a, c ≠ '>' ∧ c ≠ '/') :
    attrsLoop close a count = none := by
  induction a generalizing count with
  | nil => rfl
  | cons c a' ih =>
    have hc := h c (List.mem_cons_self c a')
    rw [attrsLoop]
    rw [if_neg (by rintro ⟨hcc, -⟩; exact hc.2 hcc)]
    rw [if_neg hc.1]
    exact ih (count + 1) (fun x hx => h x (List.mem_cons_of_mem c hx))

theorem matchElemAt_elem (opener close : List Char) (a t : List Char)
    (ha : goodAttrs a) :
    matchElemAt opener close (opener ++ (' ' :: (a ++ '/' :: '>' :: t))) =
      some (opener.length + 1 + a.length + 2, a) := by
  obtain ⟨hne, hhead, hchars⟩ := ha
  rcases a with _ | ⟨a₀, a''⟩
  · exact absurd rfl hne
  have hws : isWS a₀ = false := hhead a₀ (by simp)
  have hsp : isWS ' ' = true := by decide
  unfold matchElemAt
  rw [if_pos (by simp)]
  dsimp only
  rw [List.drop_left]
  rw [show (' ' :: ((a₀ :: a'') ++ '/' :: '>' :: t)).takeWhile isWS = [' '] by
    simp [List.takeWhile_cons, hsp, hws]]
  rw [if_neg (by simp)]
  rw [show (' ' :: ((a₀ :: a'') ++ '/' :: '>' :: t)).dropWhile isWS =
      a₀ :: (a'' ++ '/' :: '>' :: t) by simp [List.dropWhile_cons, hsp, hws]]
  dsimp only
  rw [if_neg (hchars a₀ (by simp)).2.1]
  rw [attrsLoop_terminator close a'' 1 t
    (fun x hx => ⟨(hchars x (by simp [hx])).2.1, (hchars x (by simp [hx])).2.2⟩)]
  have htake : (a₀ :: (a'' ++ '/' :: '>' :: t)).take (1 + a''.length) = a₀ :: a'' := by
    rw [show (1 + a''.length) = (a₀ :: a'').length by simp [Nat.add_comm]]
    rw [show a₀ :: (a'' ++ '/' :: '>' :: t) = (a₀ :: a'') ++ '/' :: '>' :: t by simp]
    exact List.take_left _ _
  dsimp only
  rw [htake]
  refine congrArg some (Prod.ext ?_ rfl)
  simp only [List.length_cons, List.length_nil]
  omega

theorem recordOpen_not_prefix_workout (l : List Char) :
    ¬(recordOpen <+: workoutOpen ++ l) := by
  intro h
  simp [recordOpen, workoutOpen, List.cons_prefix_cons] at h

theorem workoutOpen_not_prefix_record (l : List Char) :
    ¬(workoutOpen <+: recordOpen ++ l) := by
  intro h
  simp [recordOpen, workoutOpen, List.cons_prefix_cons] at h

theorem elemChars_shape (e : XmlElem) (t : List Char) :
    elemChars e ++ t =
      (if e.isRecord then recordOpen else workoutOpen) ++
        (' ' :: (e.attrs ++ '/' :: '>' :: t)) := by
  simp [elemChars, List.append_assoc]

theorem length_elemChars (e : XmlElem) :
    (elemChars e).length =
      (if e.isRecord then recordOpen else workoutOpen).length + 1 + e.attrs.length + 2 := by
  rcases e with ⟨b, a⟩
  cases b <;> simp [elemChars, recordOpen, workoutOpen] <;> omega

theorem elemChars_head (e : XmlElem) :
    elemChars e = '<' :: (elemChars e).drop 1 := by
  rcases e with ⟨b, a⟩
  cases b <;> rfl

theorem elemChars_tail_lt_free (e : XmlElem) (h : goodAttrs e.attrs) :
    ∀ ch ∈ (elemChars e).drop 1, ch ≠ '<' := by
  rcases e with ⟨b, a⟩
  intro ch hch heq
  subst heq
  cases b <;>
    simp [elemChars, recordOpen, workoutOpen] at hch <;>
    exact (h.2.2 '<' hch).1 rfl

theorem execScan_fail_step (opener close : List Char) (c : Char) (rest : List Char)
    (pos lastEnd : ℕ) (hm : matchElemAt opener close (c :: rest) = none) :
    execScan opener close (c :: rest) pos 0 lastEnd =
      execScan opener close rest (pos + 1) 0 lastEnd := by
  show (match matchElemAt opener close (c :: rest) with
    | some (len, attrs) =>
      let r := execScan opener close rest (pos + 1) (len - 1) (pos + len)
      (attrs :: r.1, r.2)
    | none => execScan opener close rest (pos + 1) 0 lastEnd) = _
  rw [hm]

theorem execScan_match_jump (opener close : List Char) (l : List Char)
    (pos lastEnd len : ℕ) (attrs : List Char)
    (hm : matchElemAt opener close l = some (len, attrs))
    (h1 : 1 ≤ len) (h2 : len ≤ l.length) :
    execScan opener close l pos 0 lastEnd =
      (attrs :: (execScan opener close (l.drop len) (pos + len) 0 (pos + len)).1,
       (execScan opener close (l.drop len) (pos + len) 0 (pos + len)).2) := by
  rcases l with _ | ⟨c, rest⟩
  · simp at h2
    omega
  · show (match matchElemAt opener close (c :: rest) with
      | some (len, attrs) =>
        let r := execScan opener close rest (pos + 1) (len - 1) (pos + len)
        (attrs :: r.1, r.2)
      | none => execScan opener close rest (pos + 1) 0 lastEnd) = _
    rw [hm]
    rcases len with _ | k
    · omega
    · have hk : k ≤ rest.length := by
        simpa using h2
      dsimp only
      simp only [Nat.add_sub_cancel]
      rw [execScan_skip opener close k rest (pos + 1) (pos + (k + 1)) hk]
      have harith : pos + 1 + k = pos + (k + 1) := by omega
      rw [harith]
      rfl

theorem execScan_past_elem (op' close : List Char) (e : XmlElem) (t : List Char)
    (pos lastEnd : ℕ) (hgood : goodAttrs e.attrs)
    (hfail : matchElemAt ('<' :: op') close (elemChars e ++ t) = none) :
    execScan ('<' :: op') close (elemChars e ++ t) pos 0 lastEnd =
      execScan ('<' :: op') close t (pos + (elemChars e).length) 0 lastEnd := by
  have hfree := elemChars_tail_lt_free e hgood
  have hhead := elemChars_head e
  rw [hhead] at hfail ⊢
  rw [List.cons_append] at hfail ⊢
  rw [execScan_fail_step _ _ _ _ _ _ hfail]
  rw [execScan_through op' close ((elemChars e).drop 1) t (pos + 1) lastEnd hfree]
  have : pos + 1 + ((elemChars e).drop 1).length = pos + (elemChars e).length := by
    rw [List.length_drop]
    have : 1 ≤ (elemChars e).length := by
      rw [hhead]
      simp
    omega
  rw [this]
  rw [← hhead]

theorem lastEndElems_le (isRec : Bool) (es : List XmlElem) (pos lastEnd : ℕ)
    (h : lastEnd ≤ pos) :
    lastEndElems isRec es pos lastEnd ≤ pos + (concatElems es).length := by
  induction es generalizing pos lastEnd with
  | nil => simpa [lastEndElems, concatElems] using h
  | cons e rest ih =>
    show lastEndElems isRec rest (pos + (elemChars e).length) _ ≤ _
    have hstep : (if e.isRecord = isRec then pos + (elemChars e).length else lastEnd) ≤
        pos + (elemChars e).length := by
      split
      · exact le_rfl
      · exact le_trans h (Nat.le_add_right _ _)
    have := ih (pos + (elemChars e).length) _ hstep
    calc lastEndElems isRec rest (pos + (elemChars e).length) _
        ≤ pos + (elemChars e).length + (concatElems rest).length := this
      _ = pos + (concatElems (e :: rest)).length := by
          simp [concatElems, Nat.add_assoc]

theorem lastEndElems_max (es : List XmlElem) (pos le₁ le₂ : ℕ)
    (h1 : le₁ ≤ pos) (h2 : le₂ ≤ pos) (hne : es ≠ []) :
    max (lastEndElems true es pos le₁) (lastEndElems false es pos le₂) =
      pos + (concatElems es).length := by
  induction es generalizing pos le₁ le₂ with
  | nil => exact absurd rfl hne
  | cons e rest ih =>
    show max (lastEndElems true rest (pos + (elemChars e).length) _)
      (lastEndElems false rest (pos + (elemChars e).length) _) = _
    rcases Decidable.em (rest = []) with hr | hr
    · subst hr
      show max (if e.isRecord = true then pos + (elemChars e).length else le₁)
        (if e.isRecord = false then pos + (elemChars e).length else le₂) = _
      have hlen : (concatElems [e]).length = (elemChars e).length := by
        simp [concatElems]
      rw [hlen]
      cases he : e.isRecord <;> simp <;> omega
    · have hstep1 : (if e.isRecord = true then pos + (elemChars e).length else le₁) ≤
          pos + (elemChars e).length := by
        split
        · exact le_rfl
        · exact le_trans h1 (Nat.le_add_right _ _)
      have hstep2 : (if e.isRecord = false then pos + (elemChars e).length else le₂) ≤
          pos + (elemChars e).length := by
        split
        · exact le_rfl
        · exact le_trans h2 (Nat.le_add_right _ _)
      rw [ih (pos + (elemChars e).length) _ _ hstep1 hstep2 hr]
      simp [concatElems, Nat.add_assoc]

theorem recordScan_elems (es : List XmlElem) (h : ∀ e ∈ es, goodAttrs e.attrs)
    (pos lastEnd : ℕ) :
    execScan recordOpen recordClose (concatElems es) pos 0 lastEnd =
      ((es.filter (fun e => e.isRecord)).map (fun e => e.attrs),
        lastEndElems true es pos lastEnd) := by
  induction es generalizing pos lastEnd with
  | nil =>
    simp only [concatElems, List.map_nil, List.flatten_nil, List.filter_nil,
      List.map_nil, lastEndElems]
    rfl
  | cons e rest ih =>
    have hgood := h e (List.mem_cons_self e rest)
    have hrest : ∀ x ∈ rest, goodAttrs x.attrs :=
      fun x hx => h x (List.mem_cons_of_mem e hx)
    have hconcat : concatElems (e :: rest) = elemChars e ++ concatElems rest := by
      simp [concatElems]
    rw [hconcat]
    rcases e with ⟨b, a⟩
    cases b
    · -- a Workout element: the Record scanner fails at its head and walks past
      have hfail : matchElemAt recordOpen recordClose
          (elemChars ⟨false, a⟩ ++ concatElems rest) = none := by
        rw [elemChars_shape]
        exact matchElemAt_none_of_not_prefix _ _ _
          (by simpa using recordOpen_not_prefix_workout _)
      have := execScan_past_elem ['R', 'e', 'c', 'o', 'r', 'd'] recordClose ⟨false, a⟩
        (concatElems rest) pos lastEnd hgood (by simpa [recordOpen] using hfail)
      rw [show recordOpen = '<' :: ['R', 'e', 'c', 'o', 'r', 'd'] from rfl, this]
      rw [show ('<' :: ['R', 'e', 'c', 'o', 'r', 'd'] : List Char) = recordOpen from rfl]
      rw [ih hrest]
      show _ = ((List.filter _ rest).map _, lastEndElems true rest (pos + _) _)
      simp [lastEndElems]
    · -- a Record element: one match consuming it entirely
      have hm : matchElemAt recordOpen recordClose
          (elemChars ⟨true, a⟩ ++ concatElems rest) =
          some (recordOpen.length + 1 + a.length + 2, a) := by
        rw [elemChars_shape]
        simpa using matchElemAt_elem recordOpen recordClose a (concatElems rest) hgood
      have hlenelem : (elemChars ⟨true, a⟩).length = recordOpen.length + 1 + a.length + 2 := by
        simpa using length_elemChars ⟨true, a⟩
      have hjump := execScan_match_jump recordOpen recordClose
        (elemChars ⟨true, a⟩ ++ concatElems rest) pos lastEnd
        (recordOpen.length + 1 + a.length + 2) a hm (by omega)
        (by rw [List.length_append, hlenelem]; omega)
      rw [hjump]
      rw [show (recordOpen.length + 1 + a.length + 2) = (elemChars ⟨true, a⟩).length from
        hlenelem.symm]
      rw [List.drop_left]
      rw [ih hrest]
      show _ = ((List.filter _ (⟨true, a⟩ :: rest)).map _,
        lastEndElems true (⟨true, a⟩ :: rest) pos lastEnd)
      simp [lastEndElems]

theorem workoutScan_elems (es : List XmlElem) (h : ∀ e ∈ es, goodAttrs e.attrs)
    (pos lastEnd : ℕ) :
    execScan workoutOpen workoutClose (concatElems es) pos 0 lastEnd =
      ((es.filter (fun e => e.isRecord = false)).map (fun e => e.attrs),
        lastEndElems false es pos lastEnd) := by
  induction es generalizing pos lastEnd with
  | nil =>
    simp only [concatElems, List.map_nil, List.flatten_nil, List.filter_nil,
      List.map_nil, lastEndElems]
    rfl
  | cons e rest ih =>
    have hgood := h e (List.mem_cons_self e rest)
    have hrest : ∀ x ∈ rest, goodAttrs x.attrs :=
      fun x hx => h x (List.mem_cons_of_mem e hx)
    have hconcat : concatElems (e :: rest) = elemChars e ++ concatElems rest := by
      simp [concatElems]
    rw [hconcat]
    rcases e with ⟨b, a⟩
    cases b
    · -- a Workout element: one match consuming it entirely
      have hm : matchElemAt workoutOpen workoutClose
          (elemChars ⟨false, a⟩ ++ concatElems rest) =
          some (workoutOpen.length + 1 + a.length + 2, a) := by
        rw [elemChars_shape]
        simpa using matchElemAt_elem workoutOpen workoutClose a (concatElems rest) hgood
      have hlenelem : (elemChars ⟨false, a⟩).length = workoutOpen.length + 1 + a.length + 2 := by
        simpa using length_elemChars ⟨false, a⟩
      have hjump := execScan_match_jump workoutOpen workoutClose
        (elemChars ⟨false, a⟩ ++ concatElems rest) pos lastEnd
        (workoutOpen.length + 1 + a.length + 2) a hm (by omega)
        (by rw [List.length_append, hlenelem]; omega)
      rw [hjump]
      rw [show (workoutOpen.length + 1 + a.length + 2) = (elemChars ⟨false, a⟩).length from
        hlenelem.symm]
      rw [List.drop_left]
      rw [ih hrest]
      show _ = ((List.filter _ (⟨false, a⟩ :: rest)).map _,
        lastEndElems false (⟨false, a⟩ :: rest) pos lastEnd)
      simp [lastEndElems]
    · -- a Record element: the Workout scanner fails at its head and walks past
      have hfail : matchElemAt workoutOpen workoutClose
          (elemChars ⟨true, a⟩ ++ concatElems rest) = none := by
        rw [elemChars_shape]
        exact matchElemAt_none_of_not_prefix _ _ _
          (by simpa using workoutOpen_not_prefix_record _)
      have := execScan_past_elem ['W', 'o', 'r', 'k', 'o', 'u', 't'] workoutClose ⟨true, a⟩
        (concatElems rest) pos lastEnd hgood (by simpa [workoutOpen] using hfail)
      rw [show workoutOpen = '<' :: ['W', 'o', 'r', 'k', 'o', 'u', 't'] from rfl, this]
      rw [show ('<' :: ['W', 'o', 'r', 'k', 'o', 'u', 't'] : List Char) = workoutOpen from rfl]
      rw [ih hrest]
      show _ = ((List.filter _ rest).map _, lastEndElems false rest (pos + _) _)
      simp [lastEndElems]

theorem streamStep_elems (R W : List (List Char)) (es : List XmlElem)
    (h : ∀ e ∈ es, goodAttrs e.attrs) :
    streamStep (R, W, []) (concatElems es) =
      (R ++ (es.filter (fun e => e.isRecord)).map (fun e => e.attrs),
       W ++ (es.filter (fun e => e.isRecord = false)).map (fun e => e.attrs),
       []) := by
  unfold streamStep recordScanB workoutScanB
  dsimp only
  rw [List.nil_append]
  rw [recordScan_elems es h 0 0, workoutScan_elems es h 0 0]
  rcases Decidable.em (es = []) with he | he
  · subst he
    simp [lastEndElems, concatElems]
  · rw [show (max (lastEndElems true es 0 0) (lastEndElems false es 0 0)) =
      0 + (concatElems es).length from lastEndElems_max es 0 0 0 le_rfl le_rfl he]
    dsimp only
    rw [Nat.zero_add]
    rw [Nat.max_eq_left (Nat.sub_le _ _)]
    rw [List.drop_length]

theorem streamFold_elems (ess : List (List XmlElem))
    (h : ∀ es ∈ ess, ∀ e ∈ es, goodAttrs e.attrs) (R W : List (List Char)) :
    (ess.map concatElems).foldl streamStep (R, W, []) =
      (R ++ (ess.flatten.filter (fun e => e.isRecord)).map (fun e => e.attrs),
       W ++ (ess.flatten.filter (fun e => e.isRecord = false)).map (fun e => e.attrs),
       []) := by
  induction ess generalizing R W with
  | nil => simp
  | cons es rest ih =>
    rw [List.map_cons, List.foldl_cons]
    rw [streamStep_elems R W es (h es (List.mem_cons_self es rest))]
    rw [ih (fun x hx => h x (List.mem_cons_of_mem es hx))]
    simp [List.filter_append, List.append_assoc]

/-- C7 (amended): the chunked streaming scan agrees with the single-chunk
scan whenever chunk boundaries fall on element boundaries: for any list of
chunks, each a concatenation of well-formed self-closing `<Record .../>`
and `<Workout .../>` elements, splitting the document at those boundaries
yields exactly the records and workouts of the whole document fed as one
chunk.  (Without that alignment the tail-retention rule can lose an
element longer than the 50 KB safety margin that straddles a boundary.) -/
theorem chunked_xml_scan_equiv (ess : List (List XmlElem))
    (h : ∀ es ∈ ess, ∀ e ∈ es, goodAttrs e.attrs) :
    streamParse (ess.map concatElems) = streamParse [concatElems ess.flatten] := by
  unfold streamParse
  rw [streamFold_elems ess h [] []]
  rw [show ([concatElems ess.flatten] : List (List Char)) =
    ([ess.flatten] : List (List XmlElem)).map concatElems by simp]
  rw [streamFold_elems [ess.flatten]
    (by intro es hes e he
        rw [List.mem_singleton] at hes
        subst hes
        obtain ⟨l, hl, hel⟩ := List.mem_flatten.1 he
        exact h l hl e hel) [] []]
  simp [recordScanB, workoutScanB]

theorem chunked_xml_scan_equiv_witness :
    streamParse
        (([[⟨true, ['t', '=', '1']⟩, ⟨false, ['d', '=', '2']⟩],
           [⟨true, ['v', '=', '3']⟩]] : List (List XmlElem)).map concatElems) =
      streamParse [concatElems
        ([[⟨true, ['t', '=', '1']⟩, ⟨false, ['d', '=', '2']⟩],
          [⟨true, ['v', '=', '3']⟩]] : List (List XmlElem)).flatten] :=
  chunked_xml_scan_equiv
    [[⟨true, ['t', '=', '1']⟩, ⟨false, ['d', '=', '2']⟩], [⟨true, ['v', '=', '3']⟩]]
    (by decide)

theorem goodAttrs_replicate_a : goodAttrs (List.replicate 50100 'a') := by
  refine ⟨?_, ?_, ?_⟩
  · apply List.ne_nil_of_length_pos
    rw [List.length_replicate]
    omega
  · intro c hc
    rw [List.take_replicate] at hc
    have := List.eq_of_mem_replicate hc
    subst this
    decide
  · intro c hc
    have := List.eq_of_mem_replicate hc
    subst this
    exact ⟨by decide, by decide, by decide⟩

theorem counterexample_single :
    (streamParse [bigRecordChunk1 ++ bigRecordChunk2]).1.length = 1 := by
  have hrep : List.replicate 50052 'a' ++ (List.replicate 48 'a' ++ (['/', '>'] : List Char)) =
      List.replicate 50100 'a' ++ ['/', '>'] := by
    rw [← List.append_assoc, ← List.replicate_add]
  have hdoc : bigRecordChunk1 ++ bigRecordChunk2 =
      elemChars ⟨true, List.replicate 50100 'a'⟩ := by
    unfold bigRecordChunk1 bigRecordChunk2 elemChars
    simp only [List.append_assoc, List.cons_append]
    rw [hrep]
    rfl
  have hmapform : ([elemChars ⟨true, List.replicate 50100 'a'⟩] : List (List Char)) =
      ([[⟨true, List.replicate 50100 'a'⟩]] : List (List XmlElem)).map concatElems := by
    show _ = [concatElems [⟨true, List.replicate 50100 'a'⟩]]
    rw [show concatElems [⟨true, List.replicate 50100 'a'⟩] =
      elemChars ⟨true, List.replicate 50100 'a'⟩ ++ [] from rfl]
    rw [List.append_nil]
  rw [hdoc, hmapform]
  unfold streamParse
  rw [streamFold_elems [[⟨true, List.replicate 50100 'a'⟩]]
    (by intro es hes e he
        rw [List.mem_singleton] at hes
        subst hes
        rw [List.mem_singleton] at he
        subst he
        exact goodAttrs_replicate_a) [] []]
  rfl

theorem matchElemAt_partial_none (close : List Char) (n : ℕ) :
    matchElemAt recordOpen close (recordOpen ++ (' ' :: List.replicate (n + 1) 'a')) =
      none := by
  unfold matchElemAt
  rw [if_pos (by simp [List.prefix_append])]
  dsimp only
  rw [List.drop_left]
  rw [List.replicate_succ]
  rw [show (' ' :: 'a' :: List.replicate n 'a').takeWhile isWS = [' '] by
    simp [List.takeWhile_cons, isWS]]
  rw [if_neg (by simp)]
  rw [show (' ' :: 'a' :: List.replicate n 'a').dropWhile isWS = 'a' :: List.replicate n 'a' by
    simp [List.dropWhile_cons, isWS]]
  dsimp only
  rw [if_neg (by decide)]
  rw [attrsLoop_no_terminator close (List.replicate n 'a') 1
    (fun c hc => by
      have := List.eq_of_mem_replicate hc
      subst this
      exact ⟨by decide, by decide⟩)]

theorem recordScanB_lt_free (l : List Char) (h : ∀ ch ∈ l, ch ≠ '<') :
    recordScanB l = ([], 0) := by
  unfold recordScanB
  rw [show recordOpen = '<' :: ['R', 'e', 'c', 'o', 'r', 'd'] from rfl]
  exact execScan_no_open _ _ l 0 0 h

theorem workoutScanB_lt_free (l : List Char) (h : ∀ ch ∈ l, ch ≠ '<') :
    workoutScanB l = ([], 0) := by
  unfold workoutScanB
  rw [show workoutOpen = '<' :: ['W', 'o', 'r', 'k', 'o', 'u', 't'] from rfl]
  exact execScan_no_open _ _ l 0 0 h

theorem chunk1_tail_lt_free (n : ℕ) :
    ∀ ch ∈ (['R', 'e', 'c', 'o', 'r', 'd'] ++ (' ' :: List.replicate n 'a') : List Char),
      ch ≠ '<' := by
  intro ch hch
  rcases List.mem_append.1 hch with h | h
  · fin_cases h <;> decide
  · rcases List.mem_cons.1 h with rfl | h
    · decide
    · have := List.eq_of_mem_replicate h
      subst this
      decide

theorem recordScanB_chunk1 : recordScanB bigRecordChunk1 = ([], 0) := by
  unfold recordScanB bigRecordChunk1
  have hA := matchElemAt_partial_none recordClose 50051
  rw [show (50051 + 1 : ℕ) = 50052 from rfl] at hA
  rw [show recordOpen = '<' :: ['R', 'e', 'c', 'o', 'r', 'd'] from rfl]
  have hA' : matchElemAt ('<' :: ['R', 'e', 'c', 'o', 'r', 'd']) recordClose
      ('<' :: (['R', 'e', 'c', 'o', 'r', 'd'] ++ (' ' :: List.replicate 50052 'a'))) = none := hA
  rw [show ('<' :: ['R', 'e', 'c', 'o', 'r', 'd'] ++ ' ' :: List.replicate 50052 'a' : List Char) =
      '<' :: (['R', 'e', 'c', 'o', 'r', 'd'] ++ (' ' :: List.replicate 50052 'a')) from rfl]
  rw [execScan_fail_step _ _ _ _ _ _ hA']
  exact execScan_no_open _ _ _ _ _ (chunk1_tail_lt_free 50052)

theorem workoutScanB_chunk1 : workoutScanB bigRecordChunk1 = ([], 0) := by
  unfold workoutScanB bigRecordChunk1
  have hfail : matchElemAt workoutOpen workoutClose
      (recordOpen ++ ' ' :: List.replicate 50052 'a') = none :=
    matchElemAt_none_of_not_prefix _ _ _ (workoutOpen_not_prefix_record _)
  rw [show workoutOpen = '<' :: ['W', 'o', 'r', 'k', 'o', 'u', 't'] from rfl]
  have hfail' : matchElemAt ('<' :: ['W', 'o', 'r', 'k', 'o', 'u', 't']) workoutClose
      ('<' :: (['R', 'e', 'c', 'o', 'r', 'd'] ++ (' ' :: List.replicate 50052 'a'))) = none := hfail
  rw [show (recordOpen ++ ' ' :: List.replicate 50052 'a' : List Char) =
      '<' :: (['R', 'e', 'c', 'o', 'r', 'd'] ++ (' ' :: List.replicate 50052 'a')) from rfl]
  rw [execScan_fail_step _ _ _ _ _ _ hfail']
  exact execScan_no_open _ _ _ _ _ (chunk1_tail_lt_free 50052)

theorem drop_left_of_length {α : Type} (l₁ l₂ : List α) (n : ℕ) (h : l₁.length = n) :
    (l₁ ++ l₂).drop n = l₂ := by
  rw [← h, List.drop_left]

theorem bigRecordChunk1_length : bigRecordChunk1.length = 50060 := by
  unfold bigRecordChunk1
  rw [List.length_append, List.length_cons, List.length_replicate]
  rfl

theorem streamStep_chunk1 :
    streamStep ([], [], []) bigRecordChunk1 = ([], [], List.replicate 50000 'a') := by
  unfold streamStep
  dsimp only
  rw [List.nil_append bigRecordChunk1]
  rw [recordScanB_chunk1, workoutScanB_chunk1]
  dsimp only
  rw [bigRecordChunk1_length]
  rw [show (max (max 0 0) (50060 - 50000)) = 60 from rfl]
  rw [show bigRecordChunk1 =
    (recordOpen ++ ' ' :: List.replicate 52 'a') ++ List.replicate 50000 'a' by
      unfold bigRecordChunk1
      rw [show (50052 : ℕ) = 52 + 50000 from rfl, List.replicate_add]
      simp only [List.append_assoc, List.cons_append]]
  rw [drop_left_of_length _ _ _ (by
    rw [List.length_append, List.length_cons, List.length_replicate]
    rfl)]
  rfl

theorem lt_free_rep_slash (n : ℕ) :
    ∀ ch ∈ (List.replicate n 'a' ++ (['/', '>'] : List Char)), ch ≠ '<' := by
  intro ch hch
  rcases List.mem_append.1 hch with h | h
  · have := List.eq_of_mem_replicate h
    subst this
    decide
  · fin_cases h <;> decide

theorem streamStep_chunk2 :
    streamStep ([], [], List.replicate 50000 'a') bigRecordChunk2 =
      ([], [], List.replicate 49998 'a' ++ ['/', '>']) := by
  unfold streamStep
  dsimp only
  rw [show (List.replicate 50000 'a' ++ bigRecordChunk2 : List Char) =
    List.replicate 50048 'a' ++ ['/', '>'] by
      unfold bigRecordChunk2
      rw [← List.append_assoc, ← List.replicate_add]]
  rw [recordScanB_lt_free _ (lt_free_rep_slash 50048),
    workoutScanB_lt_free _ (lt_free_rep_slash 50048)]
  dsimp only
  rw [show (List.replicate 50048 'a' ++ (['/', '>'] : List Char)).length = 50050 by
    rw [List.length_append, List.length_replicate]
    rfl]
  rw [show (max (max 0 0) (50050 - 50000)) = 50 from rfl]
  rw [show (List.replicate 50048 'a' ++ (['/', '>'] : List Char)) =
    List.replicate 50 'a' ++ (List.replicate 49998 'a' ++ ['/', '>']) by
      rw [← List.append_assoc, ← List.replicate_add]]
  rw [drop_left_of_length _ _ _ (by rw [List.length_replicate])]
  rfl

theorem counterexample_chunked :
    (streamParse [bigRecordChunk1, bigRecordChunk2]).1.length = 0 := by
  unfold streamParse
  rw [List.foldl_cons, List.foldl_cons, List.foldl_nil]
  rw [streamStep_chunk1, streamStep_chunk2]
  dsimp only
  rw [recordScanB_lt_free _ (lt_free_rep_slash 49998)]
  rfl

/-- Counterexample to C7 as stated: one well-formed Record element of
50110 characters, split 50060 characters in, is lost by the chunked scan —
after the first chunk nothing has matched, so the tail-retention rule cuts
the buffer at `length - 50000` and discards the element's opening — while
the same document fed as a single chunk yields the record. -/
theorem chunked_xml_scan_counterexample :
    (streamParse [bigRecordChunk1 ++ bigRecordChunk2]).1.length = 1 ∧
    (streamParse [bigRecordChunk1, bigRecordChunk2]).1.length = 0 :=
  ⟨counterexample_single, counterexample_chunked⟩
